import Mathlib

/-!
# Portfolio API: resource handlers over a document store

A shallow embedding of the serverless handlers `api/projects.js`, `api/ventures.js`,
`api/milestones.js`, `api/profile.js`, of the connection cache `api/db.js` and of the
schemas `api/models/*.js`.

* Request data (`req.method`, `req.query`, `req.body`) are JavaScript values (`JsVal`).
* A handler is a function from the request, the per-request environment (`Env`) and the
  process and storage state (`World`) to a response and a new state.
* Every call to the driver or to the object-document mapper is appended to `World.log`,
  so that "no storage operation is performed" is a statement about the log.

## What is modelled, and how

* Numbers are integers; `Date.parse` and the parser of the storage key format are
  parameters of the environment, since the runtime and the storage layer define them.
* The clock, the identifier generator and the outcome of the network operations are inputs
  (`Env.now`, `Env.newId`, `Env.clientError`, `Env.connectError`, `Env.fault`): a storage
  call fails for a reason of its own exactly when `Env.fault` says so.
* The model methods (`findById`, `find().sort()`, `save`, `findByIdAndUpdate`,
  `findByIdAndDelete`, `findOne`, `findOneAndUpdate`) are modelled in memory from the
  schema files: casting to the schema type, `trim`, `lowercase`, `required`, `default`,
  `timestamps`. The text of the messages of the storage layer is abbreviated.
* Logging (`console.log`, `console.error`) is not modelled.
-/

namespace Portfolio

/-! ## JavaScript values -/

/-- JSON values together with `undefined`: what `req.body` and `req.query` can hold.
Numbers are restricted to integers. -/
inductive JsVal where
  | undefined
  | null
  | bool (b : Bool)
  | num (n : Int)
  | str (s : String)
  | arr (xs : List JsVal)
  | obj (kvs : List (String × JsVal))

namespace JsVal

mutual
/-- Structural equality test on values. -/
def beq : JsVal → JsVal → Bool
  | undefined, undefined => true
  | null, null => true
  | bool a, bool b => a == b
  | num a, num b => a == b
  | str a, str b => a == b
  | arr a, arr b => beqList a b
  | obj a, obj b => beqFields a b
  | _, _ => false
/-- Structural equality test on sequences of values. -/
def beqList : List JsVal → List JsVal → Bool
  | [], [] => true
  | x :: xs, y :: ys => beq x y && beqList xs ys
  | _, _ => false
/-- Structural equality test on field lists. -/
def beqFields : List (String × JsVal) → List (String × JsVal) → Bool
  | [], [] => true
  | (k, x) :: xs, (l, y) :: ys => k == l && beq x y && beqFields xs ys
  | _, _ => false
end

mutual
theorem eq_of_beq : ∀ a b : JsVal, beq a b = true → a = b
  | undefined, b, h => by cases b <;> simp_all [beq]
  | null, b, h => by cases b <;> simp_all [beq]
  | bool a, b, h => by cases b <;> simp_all [beq]
  | num a, b, h => by cases b <;> simp_all [beq]
  | str a, b, h => by cases b <;> simp_all [beq]
  | arr a, b, h => by
      cases b <;> simp [beq] at h
      rw [eq_of_beqList _ _ h]
  | obj a, b, h => by
      cases b <;> simp [beq] at h
      rw [eq_of_beqFields _ _ h]
theorem eq_of_beqList : ∀ a b : List JsVal, beqList a b = true → a = b
  | [], b, h => by cases b <;> simp_all [beqList]
  | x :: xs, b, h => by
      cases b with
      | nil => simp [beqList] at h
      | cons y ys =>
        simp [beqList] at h
        rw [eq_of_beq x y h.1, eq_of_beqList xs ys h.2]
theorem eq_of_beqFields : ∀ a b : List (String × JsVal), beqFields a b = true → a = b
  | [], b, h => by cases b <;> simp_all [beqFields]
  | (k, x) :: xs, b, h => by
      cases b with
      | nil => simp [beqFields] at h
      | cons y ys =>
        obtain ⟨l, y⟩ := y
        simp [beqFields] at h
        rw [h.1.1, eq_of_beq x y h.1.2, eq_of_beqFields xs ys h.2]
end

mutual
theorem beq_self : ∀ a : JsVal, beq a a = true
  | undefined => by simp [beq]
  | null => by simp [beq]
  | bool a => by simp [beq]
  | num a => by simp [beq]
  | str a => by simp [beq]
  | arr a => by simp [beq, beqList_self a]
  | obj a => by simp [beq, beqFields_self a]
theorem beqList_self : ∀ a : List JsVal, beqList a a = true
  | [] => by simp [beqList]
  | x :: xs => by simp [beqList, beq_self x, beqList_self xs]
theorem beqFields_self : ∀ a : List (String × JsVal), beqFields a a = true
  | [] => by simp [beqFields]
  | (k, x) :: xs => by simp [beqFields, beq_self x, beqFields_self xs]
end

instance : DecidableEq JsVal := fun a b =>
  if h : beq a b = true then isTrue (eq_of_beq a b h)
  else isFalse (fun e => h (e ▸ beq_self a))

/-- JavaScript truthiness (`if (v)`, `!v`, `a && b`). -/
def truthy : JsVal → Bool
  | undefined => false
  | null => false
  | bool b => b
  | num n => n != 0
  | str s => s != ""
  | arr _ => true
  | obj _ => true

/-- The `typeof` operator. -/
def typeof : JsVal → String
  | undefined => "undefined"
  | null => "object"
  | bool _ => "boolean"
  | num _ => "number"
  | str _ => "string"
  | arr _ => "object"
  | obj _ => "object"

/-- The test `v !== undefined`. -/
def isDefined : JsVal → Bool
  | undefined => false
  | _ => true

/-- The function `Array.isArray`. -/
def isArray : JsVal → Bool
  | arr _ => true
  | _ => false

/-- Own property of an object; `undefined` when the key is missing or the value is not an
object (none of the keys the handlers read exists on a primitive or on an array). -/
def prop (v : JsVal) (k : String) : JsVal :=
  match v with
  | obj kvs => (kvs.lookup k).getD undefined
  | _ => undefined

mutual
/-- The abstract operation `ToString`. -/
def toStr : JsVal → String
  | undefined => "undefined"
  | null => "null"
  | bool true => "true"
  | bool false => "false"
  | num n => toString n
  | str s => s
  | arr xs => joinStr xs
  | obj _ => "[object Object]"
/-- The method `Array.prototype.join` with separator `,`: `null` and `undefined` elements
are rendered as the empty string. -/
def joinStr : List JsVal → String
  | [] => ""
  | [undefined] => ""
  | [null] => ""
  | [x] => toStr x
  | undefined :: xs => "," ++ joinStr xs
  | null :: xs => "," ++ joinStr xs
  | x :: xs => toStr x ++ "," ++ joinStr xs
end

end JsVal

/-- A thrown JavaScript error: `error.name`, `error.message` and, for a schema validation
error, the map `error.errors` from path to the message of the per-field error. -/
structure JsError where
  name : String
  message : String
  errors : List (String × String) := []
  deriving DecidableEq, Repr

/-- Reading `base.key` where `base` is `undefined` or `null` throws a `TypeError`;
otherwise it yields the property. -/
def readProp (base : JsVal) (k : String) : Except JsError JsVal :=
  match base with
  | .undefined =>
      .error ⟨"TypeError", "Cannot read properties of undefined (reading " ++ k ++ ")", []⟩
  | .null =>
      .error ⟨"TypeError", "Cannot read properties of null (reading " ++ k ++ ")", []⟩
  | v => .ok (v.prop k)

/-- The method `String.prototype.includes`. -/
def includes (s t : String) : Bool :=
  s.toList.tails.any (fun u => t.toList.isPrefixOf u)

/-! ## Stored documents, environment and state -/

/-- A value stored in a document field, after casting by the schema. -/
inductive FieldVal where
  | null
  | str (s : String)
  | bool (b : Bool)
  | date (t : Int)
  | strs (xs : List (Option String))
  | sub (kvs : List (String × Option String))
  deriving DecidableEq, Repr

/-- A stored record: the identifier `_id`, the schema fields and the two timestamps
(milliseconds since the epoch) that `timestamps: true` adds. -/
structure Doc where
  id : String
  fields : List (String × FieldVal)
  createdAt : Int
  updatedAt : Int
  deriving DecidableEq, Repr

/-- Field of a document, `none` when it is not set. -/
def Doc.get (d : Doc) (k : String) : Option FieldVal :=
  d.fields.lookup k

/-- Calls made to the driver (`mongodb`) and to the object-document mapper (`mongoose`),
with their arguments. -/
inductive Call where
  | readEnv (name : String)
  | newMongoClient (uri : String)
      (maxPoolSize minPoolSize maxIdleTimeMS serverSelectionTimeoutMS socketTimeoutMS : Nat)
  | clientConnect
  | clientDb
  | findById (model : String) (id : JsVal)
  | findSorted (model : String) (key : String)
  | findOne (model : String)
  | save (model : String) (data : JsVal)
  | findByIdAndUpdate (model : String) (id : JsVal) (update : JsVal)
      (returnNew runValidators : Bool)
  | findByIdAndDelete (model : String) (id : JsVal)
  | findOneAndUpdate (model : String) (update : JsVal)
      (returnNew upsert runValidators : Bool)
  deriving DecidableEq

/-- The calls that reach the storage layer (the model methods). -/
def Call.isStorage : Call → Bool
  | .findById _ _ => true
  | .findSorted _ _ => true
  | .findOne _ => true
  | .save _ _ => true
  | .findByIdAndUpdate _ _ _ _ _ => true
  | .findByIdAndDelete _ _ => true
  | .findOneAndUpdate _ _ _ _ _ => true
  | _ => false

/-- The calls that belong to `connectToDatabase`. -/
def Call.isConnect : Call → Bool
  | .readEnv _ => true
  | .newMongoClient _ _ _ _ _ _ => true
  | .clientConnect => true
  | .clientDb => true
  | _ => false

/-- What a request finds outside the handler: configuration, network outcomes, clock,
identifier generator and the two format parsers that the runtime and the storage layer
define (`Date.parse`, and the parser of the storage key format). -/
structure Env where
  /-- The setting `process.env.MONGODB_URI`; `none` when it is not defined. -/
  MONGODB_URI : Option String
  /-- The error `new MongoClient(uri, options)` throws, if it throws. -/
  clientError : Option JsError
  /-- The error `client.connect()` rejects with, if it rejects. -/
  connectError : Option JsError
  /-- The error with which the storage operation of this request fails for a reason of
  its own (network, server), if it does. -/
  fault : Option JsError
  /-- The clock at the time of the storage operation. -/
  now : Int
  /-- The identifier the storage layer generates for a new record. -/
  newId : String
  /-- The function `Date.parse`: the time value of a date string, `none` for `NaN`. -/
  dateParse : String → Option Int
  /-- The parser of the storage key format: the normalised key, `none` when malformed. -/
  parseObjectId : String → Option String

/-- Process state (the module-level cache of `db.js`), the four collections and the log
of calls. -/
structure World where
  cachedClient : Option String
  cachedDb : Option String
  projects : List Doc
  ventures : List Doc
  milestones : List Doc
  profiles : List Doc
  log : List Call

/-- Append a call to the log. -/
def World.logCall (w : World) (c : Call) : World :=
  { w with log := w.log ++ [c] }

/-- The storage calls of the log. -/
def World.storageCalls (w : World) : List Call :=
  w.log.filter Call.isStorage

/-- The HTTP request as the handler sees it. -/
structure Request where
  method : String
  query : List (String × JsVal)
  body : JsVal

/-- The binding `const { id } = req.query`. -/
def Request.id (req : Request) : JsVal :=
  (req.query.lookup "id").getD .undefined

/-- The payload `data` of an envelope: one record or a sequence of records. -/
inductive Data where
  | one (d : Doc)
  | many (ds : List Doc)
  deriving DecidableEq, Repr

/-- The JSON envelope `{success, data?, error?, details?, message?}`; an absent key is
`none`. -/
structure Body where
  success : Bool
  data : Option Data := none
  error : Option String := none
  details : Option (List String) := none
  message : Option String := none
  deriving DecidableEq, Repr

/-- The response: status, headers set with `res.setHeader`, and the JSON body
(`none` for `res.status(n).end()`). -/
structure Response where
  status : Nat
  headers : List (String × String)
  body : Option Body
  deriving DecidableEq, Repr

/-- The result of running a handler. -/
structure Outcome where
  res : Response
  world : World

/-! ## The runtime: dates -/

/-- Largest time value of a `Date` (ECMAScript time range). -/
def maxTime : Int := 8640000000000000

/-- Time value of `new Date(v)`; `none` stands for an invalid date (`NaN`). -/
def dateOf (env : Env) : JsVal → Option Int
  | .undefined => none
  | .null => some 0
  | .bool b => some (if b then 1 else 0)
  | .num n => if -maxTime ≤ n ∧ n ≤ maxTime then some n else none
  | .str s => env.dateParse s
  | v => env.dateParse v.toStr

/-- The test `isNaN(new Date(v).getTime())`. -/
def invalidDate (env : Env) (v : JsVal) : Bool :=
  (dateOf env v).isNone

/-! ## The connection cache (`api/db.js`) -/

/-- The error `connectToDatabase` throws when `MONGODB_URI` is not configured. -/
def missingUriError : JsError :=
  ⟨"Error", "MONGODB_URI environment variable is not defined. " ++
    "Please configure it in your .env file or Vercel environment variables.", []⟩

/-- The `catch` block of `connectToDatabase`: the descriptive error thrown in place of the
error `error` raised while the connection was being established. -/
def connectionError (error : JsError) : JsError :=
  if error.name = "MongoServerSelectionError" then
    ⟨"Error", "Unable to connect to MongoDB Atlas. Please check: " ++
      "1) Your connection string is correct, " ++
      "2) Your IP address is whitelisted in MongoDB Atlas, " ++
      "3) Your cluster is running. " ++
      "Original error: " ++ error.message, []⟩
  else if error.name = "MongoParseError" then
    ⟨"Error", "Invalid MongoDB connection string format. " ++
      "Please verify your MONGODB_URI environment variable. " ++
      "Original error: " ++ error.message, []⟩
  else if includes error.message "authentication" then
    ⟨"Error", "MongoDB authentication failed. Please verify your username and password. " ++
      "Original error: " ++ error.message, []⟩
  else
    ⟨"Error", "MongoDB connection error: " ++ error.message, []⟩

/-- The function `connectToDatabase`: the pair `(db, client)` or the error thrown, and the
state afterwards. A handle is identified by the connection string it was built from. -/
def connectToDatabase (env : Env) (w : World) : Except JsError (String × String) × World :=
  match w.cachedClient, w.cachedDb with
  | some client, some db => (.ok (db, client), w)
  | _, _ =>
    let w1 := w.logCall (.readEnv "MONGODB_URI")
    match env.MONGODB_URI with
    | none => (.error missingUriError, w1)
    | some uri =>
      if uri = "" then (.error missingUriError, w1)
      else
        let w2 := w1.logCall (.newMongoClient uri 10 1 60000 5000 45000)
        match env.clientError with
        | some error => (.error (connectionError error), w2)
        | none =>
          let w3 := w2.logCall .clientConnect
          match env.connectError with
          | some error => (.error (connectionError error), w3)
          | none =>
            let w4 := w3.logCall .clientDb
            (.ok (uri, uri), { w4 with cachedClient := some uri, cachedDb := some uri })

/-! ## The schemas (`api/models/*.js`) -/

/-- The schema types used by the four models. -/
inductive SType where
  | string (trim lowercase : Bool)
  | boolean
  | date
  | strings (trim : Bool)
  | nested (subs : List String)
  deriving DecidableEq, Repr

/-- One path of a schema with its options. -/
structure SchemaPath where
  name : String
  type : SType
  required : Bool := false
  default : Option FieldVal := none
  deriving DecidableEq, Repr

/-- The schema `projectSchema` of `models/Project.js`. -/
def projectSchema : List SchemaPath :=
  [ { name := "title", type := .string true false, required := true },
    { name := "description", type := .string true false, required := true },
    { name := "technologies", type := .strings true, default := some (.strs []) },
    { name := "imageUrl", type := .string true false },
    { name := "projectUrl", type := .string true false },
    { name := "githubUrl", type := .string true false },
    { name := "featured", type := .boolean, default := some (.bool false) },
    { name := "category", type := .string true false },
    { name := "startDate", type := .date },
    { name := "endDate", type := .date } ]

/-- The schema `ventureSchema` of `models/Venture.js`. -/
def ventureSchema : List SchemaPath :=
  [ { name := "title", type := .string true false, required := true },
    { name := "description", type := .string true false, required := true },
    { name := "type", type := .string true false, required := true },
    { name := "imageUrl", type := .string true false },
    { name := "externalUrl", type := .string true false },
    { name := "featured", type := .boolean, default := some (.bool false) } ]

/-- The schema `milestoneSchema` of `models/Milestone.js`. -/
def milestoneSchema : List SchemaPath :=
  [ { name := "title", type := .string true false, required := true },
    { name := "description", type := .string true false },
    { name := "date", type := .date, required := true },
    { name := "category", type := .string true false },
    { name := "icon", type := .string true false } ]

/-- The schema `profileSchema` of `models/Profile.js`. -/
def profileSchema : List SchemaPath :=
  [ { name := "name", type := .string true false, required := true },
    { name := "title", type := .string true false, required := true },
    { name := "bio", type := .string true false },
    { name := "email", type := .string true true },
    { name := "phone", type := .string true false },
    { name := "location", type := .string true false },
    { name := "socialLinks", type := .nested ["github", "linkedin", "twitter"] },
    { name := "skills", type := .strings true, default := some (.strs []) } ]

/-- A model: its name, its schema, and its collection inside the state. -/
structure Model where
  name : String
  schema : List SchemaPath
  coll : World → List Doc
  setColl : List Doc → World → World

/-- The model `Project`. -/
def Project : Model :=
  ⟨"Project", projectSchema, World.projects, fun ds w => { w with projects := ds }⟩

/-- The model `Venture`. -/
def Venture : Model :=
  ⟨"Venture", ventureSchema, World.ventures, fun ds w => { w with ventures := ds }⟩

/-- The model `Milestone`. -/
def Milestone : Model :=
  ⟨"Milestone", milestoneSchema, World.milestones, fun ds w => { w with milestones := ds }⟩

/-- The model `Profile`. -/
def Profile : Model :=
  ⟨"Profile", profileSchema, World.profiles, fun ds w => { w with profiles := ds }⟩

/-! ## The storage layer (model methods), in memory

Casting follows the schema types; the text of the per-field messages is abbreviated.
Update operators (keys that start with `$`) are outside this model: a body key that is
not a schema path is dropped, as strict mode does. The identifier of a query is handed
over as the handler read it from `req.query`: a string, or an array when the key is
repeated (`?id=a&id=b`), which the filter `{ _id: id }` casts to `{ _id: { $in: [...] } }`.
An update that is not an object makes the update methods throw. -/

/-- White space and line terminators: the characters `String.prototype.trim` removes,
which are also the class `\s` of a regular expression. -/
def isJsSpace (c : Char) : Bool :=
  let n := c.toNat
  n = 9 || n = 10 || n = 11 || n = 12 || n = 13 || n = 32 || n = 160 || n = 5760 ||
    (8192 ≤ n && n ≤ 8202) || n = 8232 || n = 8233 || n = 8239 || n = 8287 ||
    n = 12288 || n = 65279

/-- The method `String.prototype.trim`. -/
def jsTrim (s : String) : String :=
  String.mk ((s.toList.dropWhile isJsSpace).reverse.dropWhile isJsSpace).reverse

/-- The method `String.prototype.toLowerCase`, on the letters `A` to `Z`. -/
def jsLower (s : String) : String :=
  String.mk (s.toList.map Char.toLower)

/-- The string setters `trim` and `lowercase`. -/
def applySetters (trim lowercase : Bool) (s : String) : String :=
  let s1 := if trim then jsTrim s else s
  if lowercase then jsLower s1 else s1

/-- Cast to `String`: `none` is a cast failure, `some none` is `null`. -/
def castStr (trim lowercase : Bool) : JsVal → Option (Option String)
  | .null => some none
  | .str s => some (some (applySetters trim lowercase s))
  | .num n => some (some (applySetters trim lowercase (toString n)))
  | .bool b => some (some (applySetters trim lowercase (JsVal.toStr (.bool b))))
  | _ => none

/-- Cast of every element of an array of strings. -/
def castStrs (trim : Bool) : List JsVal → Option (List (Option String))
  | [] => some []
  | x :: xs =>
    match castStr trim false x, castStrs trim xs with
    | some o, some os => some (o :: os)
    | _, _ => none

/-- Cast of the sub-paths of a nested path, each a trimmed string. -/
def castSubs (kvs : List (String × JsVal)) : List String → Option (List (String × Option String))
  | [] => some []
  | k :: ks =>
    match kvs.lookup k with
    | none => castSubs kvs ks
    | some v =>
      match castStr true false v, castSubs kvs ks with
      | some o, some os => some ((k, o) :: os)
      | _, _ => none

/-- Cast to `Boolean`. -/
def castBool : JsVal → Option FieldVal
  | .null => some .null
  | .bool b => some (.bool b)
  | .num n => if n = 1 then some (.bool true) else if n = 0 then some (.bool false) else none
  | .str s =>
    if s = "true" ∨ s = "1" ∨ s = "yes" then some (.bool true)
    else if s = "false" ∨ s = "0" ∨ s = "no" then some (.bool false)
    else none
  | _ => none

/-- Cast to `Date`: booleans are refused, `null` and the empty string give `null`, the
rest goes through the `Date` constructor and must be a valid date. -/
def castDate (env : Env) : JsVal → Option FieldVal
  | .undefined => none
  | .null => some .null
  | .bool _ => none
  | .str s => if s = "" then some .null else (env.dateParse s).map .date
  | v => (dateOf env v).map .date

/-- Cast of a defined value to the type of a schema path; `none` is a cast failure. -/
def castPath (env : Env) : SType → JsVal → Option FieldVal
  | _, .undefined => none
  | .string t l, v =>
    (castStr t l v).map (fun o => match o with
      | none => .null
      | some s => .str s)
  | .boolean, v => castBool v
  | .date, v => castDate env v
  | .strings _, .null => some .null
  | .strings t, .arr xs => (castStrs t xs).map .strs
  | .strings t, v => (castStr t false v).map (fun o => .strs [o])
  | .nested _, .null => some .null
  | .nested subs, .obj kvs => (castSubs kvs subs).map .sub
  | .nested _, _ => none

/-- Cast of one value to the storage key format; an array of identifiers is cast element
by element (`castIds`) by the methods that take an identifier. -/
def castObjectId (env : Env) : JsVal → Option String
  | .str s => env.parseObjectId s
  | _ => none

/-- Cast of the elements of an array of identifiers, for the filter
`{ _id: { $in: [...] } }`; `none` when one of them fails to cast. -/
def castIds (env : Env) : List JsVal → Option (List String)
  | [] => some []
  | v :: vs =>
    match castObjectId env v, castIds env vs with
    | some oid, some oids => some (oid :: oids)
    | _, _ => none

/-- The error a failed cast of a query or update value raises. -/
def castError (path : String) : JsError :=
  ⟨"CastError", "Cast failed at path \"" ++ path ++ "\"", []⟩

/-- Message of the `required` validator. -/
def requiredMessage (path : String) : String :=
  "Path `" ++ path ++ "` is required."

/-- Message of a cast failure recorded on a new document. -/
def castMessage (path : String) : String :=
  "Cast failed at path \"" ++ path ++ "\""

/-- The values the `required` validator rejects: `null` and the empty string. -/
def FieldVal.isEmpty : FieldVal → Bool
  | .null => true
  | .str s => s = ""
  | _ => false

/-- Cast the schema paths of the data given to a constructor: the fields set (defaults
included) and the per-field errors (cast failures and `required`). -/
def castFields (env : Env) : List SchemaPath → JsVal →
    List (String × FieldVal) × List (String × String)
  | [], _ => ([], [])
  | p :: ps, data =>
    let rest := castFields env ps data
    match data.prop p.name with
    | .undefined =>
      match p.default with
      | some d => ((p.name, d) :: rest.1, rest.2)
      | none =>
        if p.required then (rest.1, (p.name, requiredMessage p.name) :: rest.2)
        else rest
    | v =>
      match castPath env p.type v with
      | none => (rest.1, (p.name, castMessage p.name) :: rest.2)
      | some fv =>
        if p.required && fv.isEmpty then (rest.1, (p.name, requiredMessage p.name) :: rest.2)
        else ((p.name, fv) :: rest.1, rest.2)

/-- A document built by `new Model(data)` and not saved yet, with the errors that
validation will report. -/
structure Draft where
  source : JsVal
  doc : Doc
  errors : List (String × String)

/-- The identifier of a new document: the `_id` of the data when it has one (an error is
recorded when it cannot be cast), else a generated one. -/
def draftId (env : Env) (data : JsVal) : String × List (String × String) :=
  match data.prop "_id" with
  | .undefined => (env.newId, [])
  | v =>
    match castObjectId env v with
    | some oid => (oid, [])
    | none => (env.newId, [("_id", castMessage "_id")])

/-- The `createdAt` of a new document: that of the data when it has one, else the clock. -/
def draftCreated (env : Env) (data : JsVal) : Int × List (String × String) :=
  match data.prop "createdAt" with
  | .undefined => (env.now, [])
  | v =>
    match castDate env v with
    | some (.date t) => (t, [])
    | some _ => (env.now, [])
    | none => (env.now, [("createdAt", castMessage "createdAt")])

/-- The constructor `new Model(data)`, with the timestamps that the `timestamps` option
sets when the document is saved: `updatedAt` starts equal to `createdAt`. -/
def Model.construct (M : Model) (env : Env) (data : JsVal) : Draft :=
  { source := data
    doc := ⟨(draftId env data).1, (castFields env M.schema data).1,
      (draftCreated env data).1, (draftCreated env data).1⟩
    errors := (draftId env data).2 ++ (castFields env M.schema data).2 ++
      (draftCreated env data).2 }

/-- The method `doc.save()` of a new document: validation, then the insert. -/
def Model.save (M : Model) (env : Env) (d : Draft) (w : World) : Except JsError Doc × World :=
  let w1 := w.logCall (.save M.name d.source)
  if d.errors ≠ [] then
    (.error ⟨"ValidationError", M.name ++ " validation failed", d.errors⟩, w1)
  else
    match env.fault with
    | some e => (.error e, w1)
    | none =>
      if (M.coll w).any (fun x => x.id == d.doc.id) then
        (.error ⟨"MongoServerError", "E11000 duplicate key error", []⟩, w1)
      else (.ok d.doc, M.setColl (M.coll w ++ [d.doc]) w1)

/-- The method `Model.findById(id)`. -/
def Model.findById (M : Model) (env : Env) (id : JsVal) (w : World) :
    Except JsError (Option Doc) × World :=
  let w1 := w.logCall (.findById M.name id)
  match id with
  | .arr ids =>
    match castIds env ids with
    | none => (.error (castError "_id"), w1)
    | some oids =>
      match env.fault with
      | some e => (.error e, w1)
      | none => (.ok ((M.coll w).find? (fun x => oids.contains x.id)), w1)
  | _ =>
    match castObjectId env id with
    | none => (.error (castError "_id"), w1)
    | some oid =>
      match env.fault with
      | some e => (.error e, w1)
      | none => (.ok ((M.coll w).find? (fun x => x.id == oid)), w1)

/-- The value a record is sorted by: a timestamp or a date field; a record without the
field sorts lowest. -/
def sortKey (key : String) (d : Doc) : WithBot Int :=
  if key = "createdAt" then (d.createdAt : WithBot Int)
  else if key = "updatedAt" then (d.updatedAt : WithBot Int)
  else
    match d.get key with
    | some (.date t) => (t : WithBot Int)
    | _ => ⊥

/-- The order of `sort({ key: -1 })`: `a` may precede `b`. -/
def descBy (key : String) (a b : Doc) : Prop :=
  sortKey key b ≤ sortKey key a

instance (key : String) : DecidableRel (descBy key) :=
  fun a b => inferInstanceAs (Decidable (sortKey key b ≤ sortKey key a))

/-- The query `Model.find().sort({ key: -1 })`. -/
def Model.findSorted (M : Model) (env : Env) (key : String) (w : World) :
    Except JsError (List Doc) × World :=
  let w1 := w.logCall (.findSorted M.name key)
  match env.fault with
  | some e => (.error e, w1)
  | none => (.ok ((M.coll w).insertionSort (descBy key)), w1)

/-- Cast of the top-level keys of an update against the schema, in the order of the
update; the first failure raises a `CastError`. -/
def castUpdate (env : Env) (schema : List SchemaPath) :
    List (String × JsVal) → Except JsError (List (String × FieldVal))
  | [] => .ok []
  | (k, v) :: rest =>
    match schema.find? (fun p => p.name == k) with
    | none => castUpdate env schema rest
    | some p =>
      match castPath env p.type v with
      | none => .error (castError k)
      | some fv =>
        match castUpdate env schema rest with
        | .error e => .error e
        | .ok fs => .ok ((k, fv) :: fs)

/-- The update validators (`runValidators: true`): `required` on the paths being set. -/
def updateErrors (schema : List SchemaPath) (upd : List (String × FieldVal)) :
    List (String × String) :=
  upd.filterMap (fun kv =>
    match schema.find? (fun p => p.name == kv.1) with
    | some p => if p.required && kv.2.isEmpty then some (kv.1, requiredMessage kv.1) else none
    | none => none)

/-- Set one field of a document: replace it where it is, else add it at the end. -/
def setField (k : String) (v : FieldVal) : List (String × FieldVal) → List (String × FieldVal)
  | [] => [(k, v)]
  | (l, u) :: rest => if l = k then (k, v) :: rest else (l, u) :: setField k v rest

/-- Set the fields of an update, in order. -/
def setFields (fields : List (String × FieldVal)) (upd : List (String × FieldVal)) :
    List (String × FieldVal) :=
  upd.foldl (fun fs kv => setField kv.1 kv.2 fs) fields

/-- The key-value pairs of an update document. The update methods read them once they
have checked that the update is an object (`JsVal.isObject`). -/
def JsVal.entries : JsVal → List (String × JsVal)
  | .obj kvs => kvs
  | _ => []

/-- A plain object: neither a primitive nor an array. -/
def JsVal.isObject : JsVal → Bool
  | .obj _ => true
  | _ => false

/-- The error an update method throws when the update it is given is not an object. -/
def updateTypeError : JsError :=
  ⟨"TypeError", "The update is not an object", []⟩

/-- Replace the first record that has the identifier `oid`. -/
def replaceDoc (oid : String) (d1 : Doc) : List Doc → List Doc
  | [] => []
  | x :: xs => if x.id == oid then d1 :: xs else x :: replaceDoc oid d1 xs

/-- The record an update produces: the fields of the update are set, `updatedAt` is
the clock, the rest is kept. -/
def applyUpdate (env : Env) (d : Doc) (upd : List (String × FieldVal)) : Doc :=
  { d with fields := setFields d.fields upd, updatedAt := env.now }

/-- The method `Model.findByIdAndUpdate(id, update, { new: true, runValidators: true })`. -/
def Model.findByIdAndUpdate (M : Model) (env : Env) (id update : JsVal) (w : World) :
    Except JsError (Option Doc) × World :=
  let w1 := w.logCall (.findByIdAndUpdate M.name id update true true)
  if !update.isObject then (.error updateTypeError, w1)
  else
    match id with
    | .arr ids =>
      match castIds env ids with
      | none => (.error (castError "_id"), w1)
      | some oids =>
        match castUpdate env M.schema update.entries with
        | .error e => (.error e, w1)
        | .ok upd =>
          if updateErrors M.schema upd ≠ [] then
            (.error ⟨"ValidationError", "Validation failed", updateErrors M.schema upd⟩, w1)
          else
            match env.fault with
            | some e => (.error e, w1)
            | none =>
              match (M.coll w).find? (fun x => oids.contains x.id) with
              | none => (.ok none, w1)
              | some d =>
                (.ok (some (applyUpdate env d upd)),
                  M.setColl (replaceDoc d.id (applyUpdate env d upd) (M.coll w)) w1)
    | _ =>
      match castObjectId env id with
      | none => (.error (castError "_id"), w1)
      | some oid =>
        match castUpdate env M.schema update.entries with
        | .error e => (.error e, w1)
        | .ok upd =>
          if updateErrors M.schema upd ≠ [] then
            (.error ⟨"ValidationError", "Validation failed", updateErrors M.schema upd⟩, w1)
          else
            match env.fault with
            | some e => (.error e, w1)
            | none =>
              match (M.coll w).find? (fun x => x.id == oid) with
              | none => (.ok none, w1)
              | some d =>
                (.ok (some (applyUpdate env d upd)),
                  M.setColl (replaceDoc oid (applyUpdate env d upd) (M.coll w)) w1)

/-- Remove the first record that has the identifier `oid`. -/
def removeDoc (oid : String) : List Doc → List Doc
  | [] => []
  | x :: xs => if x.id == oid then xs else x :: removeDoc oid xs

/-- The method `Model.findByIdAndDelete(id)`. -/
def Model.findByIdAndDelete (M : Model) (env : Env) (id : JsVal) (w : World) :
    Except JsError (Option Doc) × World :=
  let w1 := w.logCall (.findByIdAndDelete M.name id)
  match id with
  | .arr ids =>
    match castIds env ids with
    | none => (.error (castError "_id"), w1)
    | some oids =>
      match env.fault with
      | some e => (.error e, w1)
      | none =>
        match (M.coll w).find? (fun x => oids.contains x.id) with
        | none => (.ok none, w1)
        | some d => (.ok (some d), M.setColl (removeDoc d.id (M.coll w)) w1)
  | _ =>
    match castObjectId env id with
    | none => (.error (castError "_id"), w1)
    | some oid =>
      match env.fault with
      | some e => (.error e, w1)
      | none =>
        match (M.coll w).find? (fun x => x.id == oid) with
        | none => (.ok none, w1)
        | some d => (.ok (some d), M.setColl (removeDoc oid (M.coll w)) w1)

/-- The method `Model.findOne()` with no filter: the first record, or `null`. -/
def Model.findOne (M : Model) (env : Env) (w : World) : Except JsError (Option Doc) × World :=
  let w1 := w.logCall (.findOne M.name)
  match env.fault with
  | some e => (.error e, w1)
  | none => (.ok (M.coll w).head?, w1)

/-- The defaults of the schema paths an upsert does not set. -/
def insertDefaults (schema : List SchemaPath) (upd : List (String × FieldVal)) :
    List (String × FieldVal) :=
  schema.filterMap (fun p =>
    match p.default with
    | some d => if (upd.lookup p.name).isSome then none else some (p.name, d)
    | none => none)

/-- The method
`Model.findOneAndUpdate({}, update, { new: true, upsert: true, runValidators: true })`:
update the first record, or insert one built from the update when there is none. -/
def Model.findOneAndUpdate (M : Model) (env : Env) (update : JsVal) (w : World) :
    Except JsError Doc × World :=
  let w1 := w.logCall (.findOneAndUpdate M.name update true true true)
  if !update.isObject then (.error updateTypeError, w1)
  else
    match castUpdate env M.schema update.entries with
    | .error e => (.error e, w1)
    | .ok upd =>
      if updateErrors M.schema upd ≠ [] then
        (.error ⟨"ValidationError", "Validation failed", updateErrors M.schema upd⟩, w1)
      else
        match env.fault with
        | some e => (.error e, w1)
        | none =>
          match M.coll w with
          | [] =>
            let d : Doc :=
              ⟨env.newId, setFields (insertDefaults M.schema upd) upd, env.now, env.now⟩
            (.ok d, M.setColl [d] w1)
          | d :: ds =>
            (.ok (applyUpdate env d upd), M.setColl (applyUpdate env d upd :: ds) w1)

/-! ## The handlers

Each handler follows its source file branch by branch. The `try` block of a method is a
function that returns the response sent or the error thrown, together with the state;
the `catch` block is the match on that result in the handler. -/

/-- The three headers set at the top of a handler. -/
def corsHeaders (methods : String) : List (String × String) :=
  [("Access-Control-Allow-Origin", "*"),
   ("Access-Control-Allow-Methods", methods),
   ("Access-Control-Allow-Headers", "Content-Type")]

/-- The call `res.status(status).json(body)`. -/
def json (headers : List (String × String)) (status : Nat) (body : Body) : Response :=
  ⟨status, headers, some body⟩

/-- The body `{ success: false, error }`. -/
def failure (error : String) : Body :=
  { success := false, error := some error }

/-- The body `{ success: false, error: 'Validation failed', details }` with
`details = Object.values(error.errors).map(err => err.message)`. -/
def validationFailure (error : JsError) : Body :=
  { success := false, error := some "Validation failed",
    details := some (error.errors.map Prod.snd) }

/-- The response of the outer `catch`: the connection could not be acquired. -/
def connectionFailed (headers : List (String × String)) : Response :=
  json headers 503 (failure "Database connection failed. Please try again later.")

/-! ### `api/projects.js` -/

/-- The `try` block of GET in `projects.js`. -/
def projectsGet (env : Env) (hs : List (String × String)) (req : Request) (w : World) :
    Except JsError Response × World :=
  let id := req.id
  if id.truthy then
    match Project.findById env id w with
    | (.error e, w1) => (.error e, w1)
    | (.ok none, w1) => (.ok (json hs 404 (failure "Project not found")), w1)
    | (.ok (some project), w1) =>
      (.ok (json hs 200 { success := true, data := some (.one project) }), w1)
  else
    match Project.findSorted env "createdAt" w with
    | (.error e, w1) => (.error e, w1)
    | (.ok projects, w1) =>
      (.ok (json hs 200 { success := true, data := some (.many projects) }), w1)

/-- The `try` block of POST in `projects.js`. -/
def projectsPost (env : Env) (hs : List (String × String)) (req : Request) (w : World) :
    Except JsError Response × World :=
  let projectData := req.body
  match readProp projectData "title" with
  | .error e => (.error e, w)
  | .ok title =>
    if !title.truthy || !(projectData.prop "description").truthy then
      (.ok (json hs 400
        (failure "Missing required fields: title and description are required")), w)
    else if title.typeof ≠ "string" || (projectData.prop "description").typeof ≠ "string" then
      (.ok (json hs 400
        (failure "Invalid data types: title and description must be strings")), w)
    else if (projectData.prop "technologies").truthy &&
        !(projectData.prop "technologies").isArray then
      (.ok (json hs 400 (failure "Invalid data type: technologies must be an array")), w)
    else if (projectData.prop "featured").isDefined &&
        (projectData.prop "featured").typeof ≠ "boolean" then
      (.ok (json hs 400 (failure "Invalid data type: featured must be a boolean")), w)
    else
      match Project.save env (Project.construct env projectData) w with
      | (.error e, w1) => (.error e, w1)
      | (.ok project, w1) =>
        (.ok (json hs 201 { success := true, data := some (.one project) }), w1)

/-- The `try` block of PUT in `projects.js`. -/
def projectsPut (env : Env) (hs : List (String × String)) (req : Request) (w : World) :
    Except JsError Response × World :=
  let id := req.id
  let projectData := req.body
  if !id.truthy then
    (.ok (json hs 400 (failure "Project ID is required for update")), w)
  else
    match readProp projectData "title" with
    | .error e => (.error e, w)
    | .ok title =>
      if title.isDefined && title.typeof ≠ "string" then
        (.ok (json hs 400 (failure "Invalid data type: title must be a string")), w)
      else if (projectData.prop "description").isDefined &&
          (projectData.prop "description").typeof ≠ "string" then
        (.ok (json hs 400 (failure "Invalid data type: description must be a string")), w)
      else if (projectData.prop "technologies").truthy &&
          !(projectData.prop "technologies").isArray then
        (.ok (json hs 400 (failure "Invalid data type: technologies must be an array")), w)
      else if (projectData.prop "featured").isDefined &&
          (projectData.prop "featured").typeof ≠ "boolean" then
        (.ok (json hs 400 (failure "Invalid data type: featured must be a boolean")), w)
      else
        match Project.findByIdAndUpdate env id projectData w with
        | (.error e, w1) => (.error e, w1)
        | (.ok none, w1) => (.ok (json hs 404 (failure "Project not found")), w1)
        | (.ok (some project), w1) =>
          (.ok (json hs 200 { success := true, data := some (.one project) }), w1)

/-- The `try` block of DELETE in `projects.js`. -/
def projectsDelete (env : Env) (hs : List (String × String)) (req : Request) (w : World) :
    Except JsError Response × World :=
  let id := req.id
  if !id.truthy then
    (.ok (json hs 400 (failure "Project ID is required for deletion")), w)
  else
    match Project.findByIdAndDelete env id w with
    | (.error e, w1) => (.error e, w1)
    | (.ok none, w1) => (.ok (json hs 404 (failure "Project not found")), w1)
    | (.ok (some project), w1) =>
      (.ok (json hs 200
        { success := true, data := some (.one project),
          message := some "Project deleted successfully" }), w1)

/-- The handler exported by `api/projects.js`. -/
def projectsHandler (env : Env) (req : Request) (w : World) : Outcome :=
  let hs := corsHeaders "GET, POST, PUT, DELETE, OPTIONS"
  if req.method = "OPTIONS" then ⟨⟨200, hs, none⟩, w⟩
  else
    match connectToDatabase env w with
    | (.error _, w0) => ⟨connectionFailed hs, w0⟩
    | (.ok _, w0) =>
      if req.method = "GET" then
        match projectsGet env hs req w0 with
        | (.ok r, w1) => ⟨r, w1⟩
        | (.error _, w1) => ⟨json hs 500 (failure "Failed to retrieve project data"), w1⟩
      else if req.method = "POST" then
        match projectsPost env hs req w0 with
        | (.ok r, w1) => ⟨r, w1⟩
        | (.error error, w1) =>
          if error.name = "ValidationError" then ⟨json hs 400 (validationFailure error), w1⟩
          else ⟨json hs 500 (failure "Failed to create project"), w1⟩
      else if req.method = "PUT" then
        match projectsPut env hs req w0 with
        | (.ok r, w1) => ⟨r, w1⟩
        | (.error error, w1) =>
          if error.name = "ValidationError" then ⟨json hs 400 (validationFailure error), w1⟩
          else if error.name = "CastError" then
            ⟨json hs 400 (failure "Invalid project ID format"), w1⟩
          else ⟨json hs 500 (failure "Failed to update project"), w1⟩
      else if req.method = "DELETE" then
        match projectsDelete env hs req w0 with
        | (.ok r, w1) => ⟨r, w1⟩
        | (.error error, w1) =>
          if error.name = "CastError" then
            ⟨json hs 400 (failure "Invalid project ID format"), w1⟩
          else ⟨json hs 500 (failure "Failed to delete project"), w1⟩
      else ⟨json hs 405 (failure ("Method " ++ req.method ++ " not allowed")), w0⟩

/-! ### `api/ventures.js` -/

/-- The `try` block of GET in `ventures.js`. -/
def venturesGet (env : Env) (hs : List (String × String)) (req : Request) (w : World) :
    Except JsError Response × World :=
  let id := req.id
  if id.truthy then
    match Venture.findById env id w with
    | (.error e, w1) => (.error e, w1)
    | (.ok none, w1) => (.ok (json hs 404 (failure "Venture not found")), w1)
    | (.ok (some venture), w1) =>
      (.ok (json hs 200 { success := true, data := some (.one venture) }), w1)
  else
    match Venture.findSorted env "createdAt" w with
    | (.error e, w1) => (.error e, w1)
    | (.ok ventures, w1) =>
      (.ok (json hs 200 { success := true, data := some (.many ventures) }), w1)

/-- The `try` block of POST in `ventures.js`. -/
def venturesPost (env : Env) (hs : List (String × String)) (req : Request) (w : World) :
    Except JsError Response × World :=
  let ventureData := req.body
  match readProp ventureData "title" with
  | .error e => (.error e, w)
  | .ok title =>
    if !title.truthy || !(ventureData.prop "description").truthy ||
        !(ventureData.prop "type").truthy then
      (.ok (json hs 400
        (failure "Missing required fields: title, description, and type are required")), w)
    else if title.typeof ≠ "string" || (ventureData.prop "description").typeof ≠ "string" ||
        (ventureData.prop "type").typeof ≠ "string" then
      (.ok (json hs 400
        (failure "Invalid data types: title, description, and type must be strings")), w)
    else if (ventureData.prop "featured").isDefined &&
        (ventureData.prop "featured").typeof ≠ "boolean" then
      (.ok (json hs 400 (failure "Invalid data type: featured must be a boolean")), w)
    else
      match Venture.save env (Venture.construct env ventureData) w with
      | (.error e, w1) => (.error e, w1)
      | (.ok venture, w1) =>
        (.ok (json hs 201 { success := true, data := some (.one venture) }), w1)

/-- The `try` block of PUT in `ventures.js`. -/
def venturesPut (env : Env) (hs : List (String × String)) (req : Request) (w : World) :
    Except JsError Response × World :=
  let id := req.id
  let ventureData := req.body
  if !id.truthy then
    (.ok (json hs 400 (failure "Venture ID is required for update")), w)
  else
    match readProp ventureData "title" with
    | .error e => (.error e, w)
    | .ok title =>
      if title.isDefined && title.typeof ≠ "string" then
        (.ok (json hs 400 (failure "Invalid data type: title must be a string")), w)
      else if (ventureData.prop "description").isDefined &&
          (ventureData.prop "description").typeof ≠ "string" then
        (.ok (json hs 400 (failure "Invalid data type: description must be a string")), w)
      else if (ventureData.prop "type").isDefined &&
          (ventureData.prop "type").typeof ≠ "string" then
        (.ok (json hs 400 (failure "Invalid data type: type must be a string")), w)
      else if (ventureData.prop "featured").isDefined &&
          (ventureData.prop "featured").typeof ≠ "boolean" then
        (.ok (json hs 400 (failure "Invalid data type: featured must be a boolean")), w)
      else
        match Venture.findByIdAndUpdate env id ventureData w with
        | (.error e, w1) => (.error e, w1)
        | (.ok none, w1) => (.ok (json hs 404 (failure "Venture not found")), w1)
        | (.ok (some venture), w1) =>
          (.ok (json hs 200 { success := true, data := some (.one venture) }), w1)

/-- The `try` block of DELETE in `ventures.js`. -/
def venturesDelete (env : Env) (hs : List (String × String)) (req : Request) (w : World) :
    Except JsError Response × World :=
  let id := req.id
  if !id.truthy then
    (.ok (json hs 400 (failure "Venture ID is required for deletion")), w)
  else
    match Venture.findByIdAndDelete env id w with
    | (.error e, w1) => (.error e, w1)
    | (.ok none, w1) => (.ok (json hs 404 (failure "Venture not found")), w1)
    | (.ok (some venture), w1) =>
      (.ok (json hs 200
        { success := true, data := some (.one venture),
          message := some "Venture deleted successfully" }), w1)

/-- The handler exported by `api/ventures.js`. -/
def venturesHandler (env : Env) (req : Request) (w : World) : Outcome :=
  let hs := corsHeaders "GET, POST, PUT, DELETE, OPTIONS"
  if req.method = "OPTIONS" then ⟨⟨200, hs, none⟩, w⟩
  else
    match connectToDatabase env w with
    | (.error _, w0) => ⟨connectionFailed hs, w0⟩
    | (.ok _, w0) =>
      if req.method = "GET" then
        match venturesGet env hs req w0 with
        | (.ok r, w1) => ⟨r, w1⟩
        | (.error _, w1) => ⟨json hs 500 (failure "Failed to retrieve venture data"), w1⟩
      else if req.method = "POST" then
        match venturesPost env hs req w0 with
        | (.ok r, w1) => ⟨r, w1⟩
        | (.error error, w1) =>
          if error.name = "ValidationError" then ⟨json hs 400 (validationFailure error), w1⟩
          else ⟨json hs 500 (failure "Failed to create venture"), w1⟩
      else if req.method = "PUT" then
        match venturesPut env hs req w0 with
        | (.ok r, w1) => ⟨r, w1⟩
        | (.error error, w1) =>
          if error.name = "ValidationError" then ⟨json hs 400 (validationFailure error), w1⟩
          else if error.name = "CastError" then
            ⟨json hs 400 (failure "Invalid venture ID format"), w1⟩
          else ⟨json hs 500 (failure "Failed to update venture"), w1⟩
      else if req.method = "DELETE" then
        match venturesDelete env hs req w0 with
        | (.ok r, w1) => ⟨r, w1⟩
        | (.error error, w1) =>
          if error.name = "CastError" then
            ⟨json hs 400 (failure "Invalid venture ID format"), w1⟩
          else ⟨json hs 500 (failure "Failed to delete venture"), w1⟩
      else ⟨json hs 405 (failure ("Method " ++ req.method ++ " not allowed")), w0⟩

/-! ### `api/milestones.js` -/

/-- The `try` block of GET in `milestones.js`. -/
def milestonesGet (env : Env) (hs : List (String × String)) (req : Request) (w : World) :
    Except JsError Response × World :=
  let id := req.id
  if id.truthy then
    match Milestone.findById env id w with
    | (.error e, w1) => (.error e, w1)
    | (.ok none, w1) => (.ok (json hs 404 (failure "Milestone not found")), w1)
    | (.ok (some milestone), w1) =>
      (.ok (json hs 200 { success := true, data := some (.one milestone) }), w1)
  else
    match Milestone.findSorted env "date" w with
    | (.error e, w1) => (.error e, w1)
    | (.ok milestones, w1) =>
      (.ok (json hs 200 { success := true, data := some (.many milestones) }), w1)

/-- The `try` block of POST in `milestones.js`. -/
def milestonesPost (env : Env) (hs : List (String × String)) (req : Request) (w : World) :
    Except JsError Response × World :=
  let milestoneData := req.body
  match readProp milestoneData "title" with
  | .error e => (.error e, w)
  | .ok title =>
    if !title.truthy || !(milestoneData.prop "date").truthy then
      (.ok (json hs 400 (failure "Missing required fields: title and date are required")), w)
    else if title.typeof ≠ "string" then
      (.ok (json hs 400 (failure "Invalid data type: title must be a string")), w)
    else if invalidDate env (milestoneData.prop "date") then
      (.ok (json hs 400 (failure "Invalid data type: date must be a valid date")), w)
    else
      match Milestone.save env (Milestone.construct env milestoneData) w with
      | (.error e, w1) => (.error e, w1)
      | (.ok milestone, w1) =>
        (.ok (json hs 201 { success := true, data := some (.one milestone) }), w1)

/-- The `try` block of PUT in `milestones.js`. -/
def milestonesPut (env : Env) (hs : List (String × String)) (req : Request) (w : World) :
    Except JsError Response × World :=
  let id := req.id
  let milestoneData := req.body
  if !id.truthy then
    (.ok (json hs 400 (failure "Milestone ID is required for update")), w)
  else
    match readProp milestoneData "title" with
    | .error e => (.error e, w)
    | .ok title =>
      if title.isDefined && title.typeof ≠ "string" then
        (.ok (json hs 400 (failure "Invalid data type: title must be a string")), w)
      else if (milestoneData.prop "date").isDefined &&
          invalidDate env (milestoneData.prop "date") then
        (.ok (json hs 400 (failure "Invalid data type: date must be a valid date")), w)
      else
        match Milestone.findByIdAndUpdate env id milestoneData w with
        | (.error e, w1) => (.error e, w1)
        | (.ok none, w1) => (.ok (json hs 404 (failure "Milestone not found")), w1)
        | (.ok (some milestone), w1) =>
          (.ok (json hs 200 { success := true, data := some (.one milestone) }), w1)

/-- The `try` block of DELETE in `milestones.js`. -/
def milestonesDelete (env : Env) (hs : List (String × String)) (req : Request) (w : World) :
    Except JsError Response × World :=
  let id := req.id
  if !id.truthy then
    (.ok (json hs 400 (failure "Milestone ID is required for deletion")), w)
  else
    match Milestone.findByIdAndDelete env id w with
    | (.error e, w1) => (.error e, w1)
    | (.ok none, w1) => (.ok (json hs 404 (failure "Milestone not found")), w1)
    | (.ok (some milestone), w1) =>
      (.ok (json hs 200
        { success := true, data := some (.one milestone),
          message := some "Milestone deleted successfully" }), w1)

/-- The handler exported by `api/milestones.js`. -/
def milestonesHandler (env : Env) (req : Request) (w : World) : Outcome :=
  let hs := corsHeaders "GET, POST, PUT, DELETE, OPTIONS"
  if req.method = "OPTIONS" then ⟨⟨200, hs, none⟩, w⟩
  else
    match connectToDatabase env w with
    | (.error _, w0) => ⟨connectionFailed hs, w0⟩
    | (.ok _, w0) =>
      if req.method = "GET" then
        match milestonesGet env hs req w0 with
        | (.ok r, w1) => ⟨r, w1⟩
        | (.error _, w1) => ⟨json hs 500 (failure "Failed to retrieve milestone data"), w1⟩
      else if req.method = "POST" then
        match milestonesPost env hs req w0 with
        | (.ok r, w1) => ⟨r, w1⟩
        | (.error error, w1) =>
          if error.name = "ValidationError" then ⟨json hs 400 (validationFailure error), w1⟩
          else ⟨json hs 500 (failure "Failed to create milestone"), w1⟩
      else if req.method = "PUT" then
        match milestonesPut env hs req w0 with
        | (.ok r, w1) => ⟨r, w1⟩
        | (.error error, w1) =>
          if error.name = "ValidationError" then ⟨json hs 400 (validationFailure error), w1⟩
          else if error.name = "CastError" then
            ⟨json hs 400 (failure "Invalid milestone ID format"), w1⟩
          else ⟨json hs 500 (failure "Failed to update milestone"), w1⟩
      else if req.method = "DELETE" then
        match milestonesDelete env hs req w0 with
        | (.ok r, w1) => ⟨r, w1⟩
        | (.error error, w1) =>
          if error.name = "CastError" then
            ⟨json hs 400 (failure "Invalid milestone ID format"), w1⟩
          else ⟨json hs 500 (failure "Failed to delete milestone"), w1⟩
      else ⟨json hs 405 (failure ("Method " ++ req.method ++ " not allowed")), w0⟩

/-! ### `api/profile.js` -/

/-- The character class `[^\s@]`. -/
def emailChar (c : Char) : Bool :=
  !isJsSpace c && c != '@'

/-- A non-empty run of `[^\s@]`. -/
def emailRun (cs : List Char) : Bool :=
  !cs.isEmpty && cs.all emailChar

/-- The test `/^[^\s@]+@[^\s@]+\.[^\s@]+$/.test(s)`: the string splits as a run, `@`, a
run, `.`, a run. -/
def emailRegexTest (s : String) : Bool :=
  let cs := s.toList
  (List.range cs.length).any (fun i =>
    (List.range cs.length).any (fun j =>
      i < j && cs.get? i == some '@' && cs.get? j == some '.' &&
        emailRun (cs.take i) && emailRun ((cs.take j).drop (i + 1)) &&
        emailRun (cs.drop (j + 1))))

/-- The `try` block of GET in `profile.js`. -/
def profileGet (env : Env) (hs : List (String × String)) (w : World) :
    Except JsError Response × World :=
  match Profile.findOne env w with
  | (.error e, w1) => (.error e, w1)
  | (.ok none, w1) => (.ok (json hs 404 (failure "Profile not found")), w1)
  | (.ok (some profile), w1) =>
    (.ok (json hs 200 { success := true, data := some (.one profile) }), w1)

/-- The `try` block of PUT in `profile.js`. -/
def profilePut (env : Env) (hs : List (String × String)) (req : Request) (w : World) :
    Except JsError Response × World :=
  let profileData := req.body
  match readProp profileData "name" with
  | .error e => (.error e, w)
  | .ok name =>
    if !name.truthy || !(profileData.prop "title").truthy then
      (.ok (json hs 400 (failure "Missing required fields: name and title are required")), w)
    else if name.typeof ≠ "string" || (profileData.prop "title").typeof ≠ "string" then
      (.ok (json hs 400 (failure "Invalid data types: name and title must be strings")), w)
    else if (profileData.prop "email").truthy &&
        !emailRegexTest (profileData.prop "email").toStr then
      (.ok (json hs 400 (failure "Invalid email format")), w)
    else if (profileData.prop "skills").truthy && !(profileData.prop "skills").isArray then
      (.ok (json hs 400 (failure "Invalid data type: skills must be an array")), w)
    else
      match Profile.findOneAndUpdate env profileData w with
      | (.error e, w1) => (.error e, w1)
      | (.ok profile, w1) =>
        (.ok (json hs 200 { success := true, data := some (.one profile) }), w1)

/-- The handler exported by `api/profile.js`. -/
def profileHandler (env : Env) (req : Request) (w : World) : Outcome :=
  let hs := corsHeaders "GET, PUT, OPTIONS"
  if req.method = "OPTIONS" then ⟨⟨200, hs, none⟩, w⟩
  else
    match connectToDatabase env w with
    | (.error _, w0) => ⟨connectionFailed hs, w0⟩
    | (.ok _, w0) =>
      if req.method = "GET" then
        match profileGet env hs w0 with
        | (.ok r, w1) => ⟨r, w1⟩
        | (.error _, w1) => ⟨json hs 500 (failure "Failed to retrieve profile data"), w1⟩
      else if req.method = "PUT" then
        match profilePut env hs req w0 with
        | (.ok r, w1) => ⟨r, w1⟩
        | (.error error, w1) =>
          if error.name = "ValidationError" then ⟨json hs 400 (validationFailure error), w1⟩
          else ⟨json hs 500 (failure "Failed to update profile data"), w1⟩
      else ⟨json hs 405 (failure ("Method " ++ req.method ++ " not allowed")), w0⟩

/-! ## Concrete environment and requests used by the examples -/

/-- Hexadecimal digit. -/
def isHexDigit (c : Char) : Bool :=
  ('0' ≤ c && c ≤ '9') || ('a' ≤ c && c ≤ 'f') || ('A' ≤ c && c ≤ 'F')

/-- A storage key format: 24 hexadecimal digits, normalised to lower case. -/
def hexObjectId (s : String) : Option String :=
  if s.toList.length = 24 ∧ s.toList.all isHexDigit then some (jsLower s) else none

/-- Days from 1970-01-01 to the civil date `y-m-d` (proleptic Gregorian calendar). -/
def daysFromCivil (y m d : Int) : Int :=
  let y1 := if m ≤ 2 then y - 1 else y
  let era := y1 / 400
  let yoe := y1 - era * 400
  let mp := (m + 9) % 12
  let doy := (153 * mp + 2) / 5 + d - 1
  let doe := yoe * 365 + yoe / 4 - yoe / 100 + doy
  era * 146097 + doe - 719468

/-- Number of days of a month. -/
def daysInMonth (y m : Nat) : Nat :=
  if m = 2 then (if (y % 4 = 0 ∧ y % 100 ≠ 0) ∨ y % 400 = 0 then 29 else 28)
  else if m = 4 ∨ m = 6 ∨ m = 9 ∨ m = 11 then 30 else 31

/-- A date parser that accepts the date-only form `YYYY-MM-DD` of the ISO format (which
is read as UTC midnight) and nothing else. -/
def isoDateParse (s : String) : Option Int :=
  match s.toList with
  | [y1, y2, y3, y4, '-', m1, m2, '-', d1, d2] =>
    if [y1, y2, y3, y4, m1, m2, d1, d2].all Char.isDigit then
      let digit := fun (c : Char) => c.toNat - 48
      let y := digit y1 * 1000 + digit y2 * 100 + digit y3 * 10 + digit y4
      let m := digit m1 * 10 + digit m2
      let d := digit d1 * 10 + digit d2
      if 1 ≤ m ∧ m ≤ 12 ∧ 1 ≤ d ∧ d ≤ daysInMonth y m then
        some (daysFromCivil y m d * 86400000)
      else none
    else none
  | _ => none

/-- An environment in which the connection and the storage operation succeed. -/
def env0 : Env :=
  { MONGODB_URI := some "mongodb://localhost/portfolio"
    clientError := none
    connectError := none
    fault := none
    now := 1717236000000
    newId := "665af0000000000000000001"
    dateParse := isoDateParse
    parseObjectId := hexObjectId }

/-- A cold process with empty collections. -/
def world0 : World :=
  { cachedClient := none, cachedDb := none, projects := [], ventures := [],
    milestones := [], profiles := [], log := [] }

/-! ## Vocabulary of the statements -/

deriving instance DecidableEq for Except

/-- The four resources, one handler file each. -/
inductive Resource where
  | projects
  | ventures
  | milestones
  | profile
  deriving DecidableEq, Repr

/-- The handler that serves the path of a resource. -/
def handler : Resource → Env → Request → World → Outcome
  | .projects => projectsHandler
  | .ventures => venturesHandler
  | .milestones => milestonesHandler
  | .profile => profileHandler

/-- The model of a resource. -/
def Resource.model : Resource → Model
  | .projects => Project
  | .ventures => Venture
  | .milestones => Milestone
  | .profile => Profile

/-- The resource name as the error messages spell it at the start of a sentence. -/
def Resource.label : Resource → String
  | .projects => "Project"
  | .ventures => "Venture"
  | .milestones => "Milestone"
  | .profile => "Profile"

/-- The resource name as the error messages spell it inside a sentence. -/
def Resource.noun : Resource → String
  | .projects => "project"
  | .ventures => "venture"
  | .milestones => "milestone"
  | .profile => "profile"

/-- The value of `Access-Control-Allow-Methods` a handler sets. -/
def Resource.allowMethods : Resource → String
  | .profile => "GET, PUT, OPTIONS"
  | _ => "GET, POST, PUT, DELETE, OPTIONS"

/-- The key `find().sort()` orders the list of a resource by. -/
def Resource.sortField : Resource → String
  | .milestones => "date"
  | _ => "createdAt"

/-- The names of the paths a schema marks `required: true`. -/
def requiredPaths (schema : List SchemaPath) : List String :=
  (schema.filter (fun p => p.required)).map (fun p => p.name)

/-- The connection is acquired: `connectToDatabase` returns a handle. -/
def acquired (env : Env) (w : World) : Prop :=
  ∃ h, (connectToDatabase env w).1 = .ok h

/-- Two states hold the same records in every collection. -/
def sameRecords (w1 w2 : World) : Prop :=
  w1.projects = w2.projects ∧ w1.ventures = w2.ventures ∧
    w1.milestones = w2.milestones ∧ w1.profiles = w2.profiles

/-- The request body is there: neither `undefined` nor `null`. -/
def bodyPresent (req : Request) : Prop :=
  req.body ≠ .undefined ∧ req.body ≠ .null

/-- What a create request does once the pre-checks of the handler have passed: the
`try` block continues with the result of `save`, and the `catch` block maps an error. -/
def afterSave (r : Resource) (result : Except JsError Doc × World) : Outcome :=
  match result with
  | (.ok d, w1) =>
    ⟨json (corsHeaders r.allowMethods) 201 { success := true, data := some (.one d) }, w1⟩
  | (.error e, w1) =>
    if e.name = "ValidationError" then
      ⟨json (corsHeaders r.allowMethods) 400 (validationFailure e), w1⟩
    else ⟨json (corsHeaders r.allowMethods) 500 (failure ("Failed to create " ++ r.noun)), w1⟩

/-- The message of the required-field check of a handler. -/
def Resource.missingMessage : Resource → String
  | .projects => "Missing required fields: title and description are required"
  | .ventures => "Missing required fields: title, description, and type are required"
  | .milestones => "Missing required fields: title and date are required"
  | .profile => "Missing required fields: name and title are required"

/-- Following the data model of the specification: the value has the primitive type
declared for the path (string, boolean, sequence, date). -/
def hasDeclaredType (env : Env) : SType → JsVal → Bool
  | .string _ _, v => v.typeof = "string"
  | .boolean, v => v.typeof = "boolean"
  | .date, v => !invalidDate env v
  | .strings _, v => v.isArray
  | .nested _, v => v.typeof = "object" && !v.isArray && v != .null

/-- The paths whose type the POST handler of a resource checks before it saves. -/
def Resource.checkedPaths : Resource → List String
  | .projects => ["title", "description", "technologies", "featured"]
  | .ventures => ["title", "description", "type", "featured"]
  | .milestones => ["title", "date"]
  | .profile => []

/-- The field `k` of the body is missing or ill-typed: a required path that is absent or
falsy, or a path of the schema that is present without having its declared type. -/
def offending (r : Resource) (env : Env) (body : JsVal) (k : String) : Prop :=
  (k ∈ requiredPaths r.model.schema ∧ (body.prop k).truthy = false) ∨
    ∃ p ∈ r.model.schema, p.name = k ∧ (body.prop k).isDefined = true ∧
      hasDeclaredType env p.type (body.prop k) = false

/-- What a read by identifier does with the result of `findById`. -/
def afterFindById (r : Resource) (result : Except JsError (Option Doc) × World) : Outcome :=
  match result with
  | (.ok (some d), w1) =>
    ⟨json (corsHeaders r.allowMethods) 200 { success := true, data := some (.one d) }, w1⟩
  | (.ok none, w1) =>
    ⟨json (corsHeaders r.allowMethods) 404 (failure (r.label ++ " not found")), w1⟩
  | (.error _, w1) =>
    ⟨json (corsHeaders r.allowMethods) 500
      (failure ("Failed to retrieve " ++ r.noun ++ " data")), w1⟩

/-- What a list request does with the result of `find().sort()`. -/
def afterFindSorted (r : Resource) (result : Except JsError (List Doc) × World) : Outcome :=
  match result with
  | (.ok ds, w1) =>
    ⟨json (corsHeaders r.allowMethods) 200 { success := true, data := some (.many ds) }, w1⟩
  | (.error _, w1) =>
    ⟨json (corsHeaders r.allowMethods) 500
      (failure ("Failed to retrieve " ++ r.noun ++ " data")), w1⟩

/-- The pre-checks of the POST handler of a resource, on a body that is present: every
required field is truthy and has the type the handler asks for (a string; for the date of
a milestone, a value that converts to a valid date), and the optional fields the handler
checks are well-typed (`technologies` falsy or an array, `featured` absent or a boolean). -/
def postChecks (env : Env) : Resource → JsVal → Bool
  | .projects, b =>
    ((b.prop "title").truthy && (b.prop "description").truthy) &&
    ((b.prop "title").typeof = "string" && (b.prop "description").typeof = "string") &&
    !((b.prop "technologies").truthy && !(b.prop "technologies").isArray) &&
    !((b.prop "featured").isDefined && (b.prop "featured").typeof ≠ "boolean")
  | .ventures, b =>
    ((b.prop "title").truthy && (b.prop "description").truthy && (b.prop "type").truthy) &&
    ((b.prop "title").typeof = "string" && (b.prop "description").typeof = "string" &&
      (b.prop "type").typeof = "string") &&
    !((b.prop "featured").isDefined && (b.prop "featured").typeof ≠ "boolean")
  | .milestones, b =>
    ((b.prop "title").truthy && (b.prop "date").truthy) &&
    ((b.prop "title").typeof = "string") &&
    !invalidDate env (b.prop "date")
  | .profile, _ => false

/-- The type checks of the PUT handler of a resource, on a body that is present: each
checked field is absent or has the type the handler asks for. -/
def putChecks (env : Env) : Resource → JsVal → Bool
  | .projects, b =>
    !((b.prop "title").isDefined && (b.prop "title").typeof ≠ "string") &&
    !((b.prop "description").isDefined && (b.prop "description").typeof ≠ "string") &&
    !((b.prop "technologies").truthy && !(b.prop "technologies").isArray) &&
    !((b.prop "featured").isDefined && (b.prop "featured").typeof ≠ "boolean")
  | .ventures, b =>
    !((b.prop "title").isDefined && (b.prop "title").typeof ≠ "string") &&
    !((b.prop "description").isDefined && (b.prop "description").typeof ≠ "string") &&
    !((b.prop "type").isDefined && (b.prop "type").typeof ≠ "string") &&
    !((b.prop "featured").isDefined && (b.prop "featured").typeof ≠ "boolean")
  | .milestones, b =>
    !((b.prop "title").isDefined && (b.prop "title").typeof ≠ "string") &&
    !((b.prop "date").isDefined && invalidDate env (b.prop "date"))
  | .profile, _ => false

/-- What an update request does with the result of `findByIdAndUpdate`. -/
def afterUpdate (r : Resource) (result : Except JsError (Option Doc) × World) : Outcome :=
  match result with
  | (.ok (some d), w1) =>
    ⟨json (corsHeaders r.allowMethods) 200 { success := true, data := some (.one d) }, w1⟩
  | (.ok none, w1) =>
    ⟨json (corsHeaders r.allowMethods) 404 (failure (r.label ++ " not found")), w1⟩
  | (.error e, w1) =>
    if e.name = "ValidationError" then
      ⟨json (corsHeaders r.allowMethods) 400 (validationFailure e), w1⟩
    else if e.name = "CastError" then
      ⟨json (corsHeaders r.allowMethods) 400
        (failure ("Invalid " ++ r.noun ++ " ID format")), w1⟩
    else ⟨json (corsHeaders r.allowMethods) 500 (failure ("Failed to update " ++ r.noun)), w1⟩

instance (key : String) : IsTotal Doc (descBy key) :=
  ⟨fun a b => le_total (sortKey key b) (sortKey key a)⟩

instance (key : String) : IsTrans Doc (descBy key) :=
  ⟨fun _ _ _ hab hbc => le_trans hbc hab⟩

/-! ### Requests of the examples -/

/-- The request `POST /ventures {title: "Zine", description: "Print"}`: no `type`. -/
def postVentureNoType : Request :=
  ⟨"POST", [], .obj [("title", .str "Zine"), ("description", .str "Print")]⟩

/-- The request `POST /milestones {title: "Launched", date: "2024-06-01"}`. -/
def postMilestoneLaunched : Request :=
  ⟨"POST", [], .obj [("title", .str "Launched"), ("date", .str "2024-06-01")]⟩

/-- The request `POST /projects {title: "T", description: "D", _id: "0123456789abcdef01234567"}`:
the body carries an identifier of its own. -/
def postProjectOwnId : Request :=
  ⟨"POST", [],
    .obj [("title", .str "T"), ("description", .str "D"),
      ("_id", .str "0123456789abcdef01234567")]⟩

/-- An environment in which `MONGODB_URI` is not configured. -/
def envNoUri : Env :=
  { env0 with MONGODB_URI := none }

/-- The request `DELETE /profile`. -/
def deleteProfile : Request :=
  ⟨"DELETE", [], .undefined⟩

/-- The request `PUT /milestones {title: "Moved"}`: no `id`. -/
def putMilestoneNoId : Request :=
  ⟨"PUT", [], .obj [("title", .str "Moved")]⟩

/-- The record that `postMilestoneLaunched` creates in `env0`: the date is 1 June 2024,
00:00 UTC. -/
def launchedDoc : Doc :=
  ⟨"665af0000000000000000001",
    [("title", .str "Launched"), ("date", .date 1717200000000)],
    1717236000000, 1717236000000⟩

/-- The record that `postProjectOwnId` creates in `env0`. -/
def ownIdDoc : Doc :=
  ⟨"0123456789abcdef01234567",
    [("title", .str "T"), ("description", .str "D"), ("technologies", .strs []),
      ("featured", .bool false)],
    1717236000000, 1717236000000⟩

/-- The request `POST /projects {title: "T", description: "D", imageUrl: 5}`: an optional
field, declared a string, holds a number. -/
def postProjectNumericUrl : Request :=
  ⟨"POST", [], .obj [("title", .str "T"), ("description", .str "D"), ("imageUrl", .num 5)]⟩

/-- The request `POST /projects {title: "T", description: "D", featured: "yes"}`. -/
def postProjectFeaturedString : Request :=
  ⟨"POST", [],
    .obj [("title", .str "T"), ("description", .str "D"), ("featured", .str "yes")]⟩

/-- The request `GET /projects?id=abc`. -/
def getProjectAbc : Request :=
  ⟨"GET", [("id", .str "abc")], .undefined⟩

/-- The request `DELETE /projects?id=abc`. -/
def deleteProjectAbc : Request :=
  ⟨"DELETE", [("id", .str "abc")], .undefined⟩

/-- A stored project, created at the instant that is the clock of `env0`. -/
def oldProject : Doc :=
  ⟨"665af0000000000000000001",
    [("title", .str "Old"), ("description", .str "Desc"), ("technologies", .strs []),
      ("featured", .bool false)],
    1717236000000, 1717236000000⟩

/-- A state whose only record is `oldProject`. -/
def worldOneProject : World :=
  { world0 with projects := [oldProject] }

/-- The request `PUT /projects?id=665af0000000000000000001 {title: "  New  "}`. -/
def putTitlePadded : Request :=
  ⟨"PUT", [("id", .str "665af0000000000000000001")], .obj [("title", .str "  New  ")]⟩

/-- An environment whose clock is one second after that of `env0`. -/
def envLater : Env :=
  { env0 with now := 1717236001000 }

/-- A stored milestone whose date is 1 January 2020, created after `launchedDoc`. -/
def foundedDoc : Doc :=
  ⟨"665af0000000000000000002",
    [("title", .str "Founded"), ("date", .date 1577836800000)],
    1717236000500, 1717236000500⟩

/-- A state with two milestones, the one with the earlier date first. -/
def worldTwoMilestones : World :=
  { world0 with milestones := [foundedDoc, launchedDoc] }

/-- The request `GET /milestones`. -/
def getMilestones : Request :=
  ⟨"GET", [], .undefined⟩

/-- The request `GET /milestones?id=665af0000000000000000001`. -/
def getMilestoneLaunched : Request :=
  ⟨"GET", [("id", .str "665af0000000000000000001")], .undefined⟩

/-- The record `oldProject` after `putTitlePadded` at the clock of `envLater`. -/
def renamedProject : Doc :=
  { oldProject with
    fields := [("title", .str "New"), ("description", .str "Desc"),
      ("technologies", .strs []), ("featured", .bool false)],
    updatedAt := 1717236001000 }

/-! ### Vocabulary of the delete path, of the profile handler and of the envelope -/

/-- What a delete request does with the result of `findByIdAndDelete`. -/
def afterDelete (r : Resource) (result : Except JsError (Option Doc) × World) : Outcome :=
  match result with
  | (.ok (some d), w1) =>
    ⟨json (corsHeaders r.allowMethods) 200
      { success := true, data := some (.one d),
        message := some (r.label ++ " deleted successfully") }, w1⟩
  | (.ok none, w1) =>
    ⟨json (corsHeaders r.allowMethods) 404 (failure (r.label ++ " not found")), w1⟩
  | (.error e, w1) =>
    if e.name = "CastError" then
      ⟨json (corsHeaders r.allowMethods) 400
        (failure ("Invalid " ++ r.noun ++ " ID format")), w1⟩
    else ⟨json (corsHeaders r.allowMethods) 500 (failure ("Failed to delete " ++ r.noun)), w1⟩

/-- What the profile read does with the result of `findOne`. -/
def afterFindOne (result : Except JsError (Option Doc) × World) : Outcome :=
  match result with
  | (.ok (some d), w1) =>
    ⟨json (corsHeaders "GET, PUT, OPTIONS") 200 { success := true, data := some (.one d) }, w1⟩
  | (.ok none, w1) =>
    ⟨json (corsHeaders "GET, PUT, OPTIONS") 404 (failure "Profile not found"), w1⟩
  | (.error _, w1) =>
    ⟨json (corsHeaders "GET, PUT, OPTIONS") 500 (failure "Failed to retrieve profile data"), w1⟩

/-- The pre-checks of the PUT handler of the profile, on a body that is present: `name` and
`title` are non-empty strings, `email` is falsy or matches the pattern, `skills` is falsy
or an array. -/
def profileChecks (b : JsVal) : Bool :=
  ((b.prop "name").truthy && (b.prop "title").truthy) &&
  ((b.prop "name").typeof = "string" && (b.prop "title").typeof = "string") &&
  !((b.prop "email").truthy && !emailRegexTest (b.prop "email").toStr) &&
  !((b.prop "skills").truthy && !(b.prop "skills").isArray)

/-- What the profile update does with the result of `findOneAndUpdate`. -/
def afterUpsert (result : Except JsError Doc × World) : Outcome :=
  match result with
  | (.ok d, w1) =>
    ⟨json (corsHeaders "GET, PUT, OPTIONS") 200 { success := true, data := some (.one d) }, w1⟩
  | (.error e, w1) =>
    if e.name = "ValidationError" then
      ⟨json (corsHeaders "GET, PUT, OPTIONS") 400 (validationFailure e), w1⟩
    else
      ⟨json (corsHeaders "GET, PUT, OPTIONS") 500 (failure "Failed to update profile data"), w1⟩

/-- The identifiers of a collection are pairwise distinct. -/
def uniqueIds (l : List Doc) : Prop :=
  (l.map Doc.id).Nodup

instance (l : List Doc) : Decidable (uniqueIds l) :=
  inferInstanceAs (Decidable ((l.map Doc.id).Nodup))

/-- The connection cache of `db.js` holds a client and a database handle. -/
def warm (w : World) : Prop :=
  w.cachedClient.isSome = true ∧ w.cachedDb.isSome = true

/-! ### More requests of the examples -/

/-- The request `PUT /projects?id=abc {title: "X"}`. -/
def putProjectAbc : Request :=
  ⟨"PUT", [("id", .str "abc")], .obj [("title", .str "X")]⟩

/-- The request `POST /projects {title: "  ", description: "  "}`: both required fields
are blank, which the handler accepts and the schema rejects. -/
def postProjectBlank : Request :=
  ⟨"POST", [], .obj [("title", .str "  "), ("description", .str "  ")]⟩

/-- The validation error the save of `postProjectBlank` raises. -/
def blankError : JsError :=
  ⟨"ValidationError", "Project validation failed",
    [("title", "Path `title` is required."),
      ("description", "Path `description` is required.")]⟩

/-- The request `DELETE /milestones?id=665af0000000000000000001`. -/
def deleteMilestoneLaunched : Request :=
  ⟨"DELETE", [("id", .str "665af0000000000000000001")], .undefined⟩

/-- A storage failure that is neither a validation error nor a cast error. -/
def networkError : JsError :=
  ⟨"MongoNetworkError", "connection timed out", []⟩

/-- An environment in which the storage call of the request fails with `networkError`. -/
def envFault : Env :=
  { env0 with fault := some networkError }

/-- The request `PUT /profile {name: "A", title: "B"}`. -/
def putProfileAB : Request :=
  ⟨"PUT", [], .obj [("name", .str "A"), ("title", .str "B")]⟩

/-- The request `GET /projects`. -/
def getProjects : Request :=
  ⟨"GET", [], .undefined⟩

/-- The forms the response of a handler takes, for headers `hs` and request method
`method`. -/
inductive ResponseShape (hs : List (String × String)) (method : String) : Response → Prop
  | preflight : method = "OPTIONS" → ResponseShape hs method ⟨200, hs, none⟩
  | failed (status : Nat) (msg : String) :
      status = 400 ∨ status = 404 ∨ status = 405 ∨ status = 500 ∨ status = 503 →
      ResponseShape hs method ⟨status, hs, some (failure msg)⟩
  | invalid (e : JsError) : ResponseShape hs method ⟨400, hs, some (validationFailure e)⟩
  | found (status : Nat) (d : Data) : status = 200 ∨ status = 201 →
      ResponseShape hs method ⟨status, hs, some { success := true, data := some d }⟩
  | deleted (d : Data) (msg : String) : method = "DELETE" →
      ResponseShape hs method
        ⟨200, hs, some { success := true, data := some d, message := some msg }⟩

/-- The response a `try` block sends, if it sends one, has one of the forms. -/
def tryShape (hs : List (String × String)) (method : String)
    (result : Except JsError Response × World) : Prop :=
  ∀ r, result.1 = .ok r → ResponseShape hs method r

/-- The methods a handler has a branch for: the preflight and the arms of its chain of
`if (req.method === ...)`. -/
def Resource.methods : Resource → List String
  | .profile => ["GET", "PUT", "OPTIONS"]
  | _ => ["GET", "POST", "PUT", "DELETE", "OPTIONS"]

/-- The second state keeps the profile records of the first: the identifiers of the
profile collection of `w`, in order, open those of `w1`. -/
def profilesKept (w w1 : World) : Prop :=
  w.profiles.map Doc.id <+: w1.profiles.map Doc.id

/-- The request `POST /profile {name: "A", title: "B"}`. -/
def postProfile : Request :=
  ⟨"POST", [], .obj [("name", .str "A"), ("title", .str "B")]⟩

/-- A stored profile, written one second before the clock of `env0`. -/
def storedProfile : Doc :=
  ⟨"665af0000000000000000002",
    [("skills", .strs []), ("name", .str "Old name"), ("title", .str "Old title")],
    1717235999000, 1717235999000⟩

/-- A state whose only record is `storedProfile`. -/
def worldOneProfile : World :=
  { world0 with profiles := [storedProfile] }

/-- The request `OPTIONS /projects?id=abc` with a body. -/
def preflightRequest : Request :=
  ⟨"OPTIONS", [("id", .str "abc")], .obj [("title", .num 5)]⟩

/-- The request `GET /profile`. -/
def getProfile : Request :=
  ⟨"GET", [], .undefined⟩

/-! ### Vocabulary of the connection cache and of the request bodies -/

/-- The connection cache of a state: the pair of `cachedClient` and `cachedDb`. -/
def World.cache (w : World) : Option String × Option String :=
  (w.cachedClient, w.cachedDb)

/-- The message thrown for an error named `MongoServerSelectionError` whose message is
`m`. -/
def serverSelectionMessage (m : String) : String :=
  "Unable to connect to MongoDB Atlas. Please check: " ++
    "1) Your connection string is correct, " ++
    "2) Your IP address is whitelisted in MongoDB Atlas, " ++
    "3) Your cluster is running. " ++
    "Original error: " ++ m

/-- The message thrown for an error named `MongoParseError` whose message is `m`. -/
def parseErrorMessage (m : String) : String :=
  "Invalid MongoDB connection string format. " ++
    "Please verify your MONGODB_URI environment variable. " ++
    "Original error: " ++ m

/-- The message thrown for an error whose message `m` contains "authentication". -/
def authenticationMessage (m : String) : String :=
  "MongoDB authentication failed. Please verify your username and password. " ++
    "Original error: " ++ m

/-- The message thrown for any other error, whose message is `m`. -/
def otherConnectionMessage (m : String) : String :=
  "MongoDB connection error: " ++ m

/-- An environment in which `client.connect()` is refused for its credentials. -/
def envAuth : Env :=
  { env0 with
    connectError := some ⟨"MongoServerError", "bad auth : authentication failed", []⟩ }

/-- An environment whose `MONGODB_URI` is the empty string. -/
def envEmptyUri : Env :=
  { env0 with MONGODB_URI := some "" }

instance (w : World) : Decidable (warm w) :=
  inferInstanceAs (Decidable (w.cachedClient.isSome = true ∧ w.cachedDb.isSome = true))

/-- The request `PUT /projects?id=665af0000000000000000001 {startDate: "soon"}`: the
identifier is that of `oldProject`, the start date is not a date. -/
def putStartDateSoon : Request :=
  ⟨"PUT", [("id", .str "665af0000000000000000001")], .obj [("startDate", .str "soon")]⟩

/-- The request `POST /ventures` without a body. -/
def postVentureNoBody : Request :=
  ⟨"POST", [], .undefined⟩

/-- The request `PUT /profile` with the body `null`. -/
def putProfileNull : Request :=
  ⟨"PUT", [], .null⟩

/-- The request `PUT /milestones?id=665af0000000000000000001` without a body. -/
def putMilestoneNoBody : Request :=
  ⟨"PUT", [("id", .str "665af0000000000000000001")], .undefined⟩

/-- The acceptance condition of Project create in the words of the specification: the
title and the description of the body are non-empty strings, `technologies` is falsy or
an array, `featured` is `undefined` or a boolean. -/
def projectCreateAccepted (b : JsVal) : Prop :=
  (∃ t, b.prop "title" = .str t ∧ t ≠ "") ∧
  (∃ d, b.prop "description" = .str d ∧ d ≠ "") ∧
  ((b.prop "technologies").truthy = false ∨ ∃ xs, b.prop "technologies" = .arr xs) ∧
  (b.prop "featured" = .undefined ∨ ∃ f, b.prop "featured" = .bool f)

/-- The request `POST /projects {title: " ", description: "D", technologies: 0,
startDate: "soon"}`: a title of white space, a falsy `technologies` that is not an array,
a start date that is not a date. -/
def postProjectLoose : Request :=
  ⟨"POST", [],
    .obj [("title", .str " "), ("description", .str "D"), ("technologies", .num 0),
      ("startDate", .str "soon")]⟩

/-- Two bodies agree on every field whose key is not in `keys`. -/
def agreeOutside (keys : List String) (b1 b2 : JsVal) : Prop :=
  ∀ k, k ∉ keys → b1.prop k = b2.prop k

/-- The request `POST /projects {title: "T", description: "D", _id: "…68"}`: the body of
`postProjectOwnId` with another `_id`. -/
def postProjectOtherId : Request :=
  ⟨"POST", [],
    .obj [("title", .str "T"), ("description", .str "D"),
      ("_id", .str "0123456789abcdef01234568")]⟩

/-- A non-empty run of characters that are neither white space nor `@`. -/
def runOk (l : List Char) : Prop :=
  l ≠ [] ∧ ∀ c ∈ l, isJsSpace c = false ∧ c ≠ '@'

/-- The characters split as a run, `@`, a run, `.`, a run. -/
def emailSplit (cs : List Char) : Prop :=
  ∃ l m t, cs = l ++ '@' :: (m ++ '.' :: t) ∧ runOk l ∧ runOk m ∧ runOk t

/-- The pattern `local@domain.tld` in the words of the specification: the string contains
no white space, contains exactly one `@` with a non-empty local part before it, and has
after the `@` a domain that contains a `.` which is neither its first nor its last
character. -/
def emailWellFormed (s : String) : Prop :=
  (∀ c ∈ s.toList, isJsSpace c = false) ∧ s.toList.count '@' = 1 ∧
    s.toList.takeWhile (fun c => c != '@') ≠ [] ∧
    ∃ k, 0 < k ∧ k + 1 < ((s.toList.dropWhile (fun c => c != '@')).drop 1).length ∧
      ((s.toList.dropWhile (fun c => c != '@')).drop 1).get? k = some '.'

/-- The request `PUT /profile {name: "A", title: "B", email: "a@b.c."}`: the domain ends
with a dot, and has another dot that is neither its first nor its last character. -/
def putProfileDotEnd : Request :=
  ⟨"PUT", [], .obj [("name", .str "A"), ("title", .str "B"), ("email", .str "a@b.c.")]⟩

/-- The request `PUT /profile {name: "A", title: "B", email: "a@b"}`: no dot in the
domain. -/
def putProfileNoDot : Request :=
  ⟨"PUT", [], .obj [("name", .str "A"), ("title", .str "B"), ("email", .str "a@b")]⟩

/-- Two errors of the same kind: the same name and, for a validation error, the same
per-field messages; the message may differ. -/
def sameKind (e1 e2 : JsError) : Prop :=
  e1.name = e2.name ∧ (e1.name = "ValidationError" → e1.errors = e2.errors)

/-- Two optional faults of the same kind: both absent, or both present and of the same
kind. -/
def faultAlike : Option JsError → Option JsError → Prop
  | none, none => True
  | some e1, some e2 => sameKind e1 e2
  | _, _ => False

/-- Two environments that differ at most in the detail of the errors they raise: the
configuration, the clock, the identifier generator and the parsers are the same, a
connection step fails in one exactly when it fails in the other, and the storage
operation fails in one exactly when it fails in the other, with an error of the same
kind. -/
structure sameButDetail (env1 env2 : Env) : Prop where
  uri : env1.MONGODB_URI = env2.MONGODB_URI
  now : env1.now = env2.now
  newId : env1.newId = env2.newId
  dateParse : env1.dateParse = env2.dateParse
  parseObjectId : env1.parseObjectId = env2.parseObjectId
  client : env1.clientError.isSome = env2.clientError.isSome
  connect : env1.connectError.isSome = env2.connectError.isSome
  fault : faultAlike env1.fault env2.fault

/-- Two results of a storage call, or of a `try` block, that a caller cannot tell apart:
the same value, or two errors of the same kind. -/
def alike {α : Type} (r1 r2 : Except JsError α × World) : Prop :=
  match r1.1, r2.1 with
  | .ok a, .ok b => a = b
  | .error e1, .error e2 => sameKind e1 e2
  | _, _ => False

/-- The generic failure message of an operation on a resource: the text of the status 500
of the `catch` block of that method in the handler of the resource. -/
def Resource.failureMessage (r : Resource) (method : String) : String :=
  if method = "GET" then "Failed to retrieve " ++ r.noun ++ " data"
  else if method = "POST" then "Failed to create " ++ r.noun
  else if method = "PUT" then
    (match r with
      | .profile => "Failed to update profile data"
      | _ => "Failed to update " ++ r.noun)
  else "Failed to delete " ++ r.noun

/-- The response a `try` block sends, if it sends one, is neither a 500 nor a 503. -/
def tryStatus (result : Except JsError Response × World) : Prop :=
  ∀ r, result.1 = .ok r → r.status ≠ 500 ∧ r.status ≠ 503

/-- A response whose status 500 or 503 has the body that is fixed for the resource and
the method. -/
def fixedFailure (r : Resource) (method : String) (res : Response) : Prop :=
  (res.status = 500 → res.body = some (failure (r.failureMessage method))) ∧
    (res.status = 503 →
      res.body = some (failure "Database connection failed. Please try again later."))

/-- The environment `envFault` with another message, and a stack, in its fault. -/
def envFaultOther : Env :=
  { env0 with
    fault := some ⟨"MongoNetworkError", "socket closed at 10.0.0.7:27017 (pool.js:41)", []⟩ }

/-- An environment in which the server cannot be selected. -/
def envUnreachable : Env :=
  { env0 with
    connectError := some ⟨"MongoServerSelectionError", "getaddrinfo ENOTFOUND cluster0", []⟩ }

/-! ## Lemmas on the log and on the connection -/

theorem storageCalls_logCall (w : World) (c : Call) :
    (w.logCall c).storageCalls = w.storageCalls ++ (if c.isStorage then [c] else []) := by
  simp [World.logCall, World.storageCalls, List.filter_append, List.filter_cons]

theorem connect_sameRecords (env : Env) (w : World) :
    sameRecords (connectToDatabase env w).2 w ∧
      (connectToDatabase env w).2.storageCalls = w.storageCalls := by
  unfold connectToDatabase
  split
  · exact ⟨⟨rfl, rfl, rfl, rfl⟩, rfl⟩
  · split
    · simp [sameRecords, World.logCall, World.storageCalls, Call.isStorage]
    · split
      · simp [sameRecords, World.logCall, World.storageCalls, Call.isStorage]
      · split
        · simp [sameRecords, World.logCall, World.storageCalls, Call.isStorage]
        · split
          · simp [sameRecords, World.logCall, World.storageCalls, Call.isStorage]
          · simp [sameRecords, World.logCall, World.storageCalls, Call.isStorage]

theorem readProp_present (req : Request) (hb : bodyPresent req) (key : String) :
    readProp req.body key = .ok (req.body.prop key) := by
  obtain ⟨h1, h2⟩ := hb
  rcases hbody : req.body with _ | _ | _ | _ | _ | _ | _ <;> simp_all [readProp]

/-! ## Lemmas on the storage layer and on the create path -/

theorem save_ok (M : Model) (env : Env) (d : Draft) (w : World) (doc : Doc)
    (h : (M.save env d w).1 = .ok doc) :
    doc = d.doc ∧
      (M.save env d w).2 = M.setColl (M.coll w ++ [doc]) (w.logCall (.save M.name d.source)) := by
  unfold Model.save at h ⊢
  by_cases he : d.errors = []
  · simp only [he, ne_eq, not_true_eq_false, if_false] at h ⊢
    cases hf : env.fault with
    | some e => simp [hf] at h
    | none =>
      simp only [hf] at h ⊢
      by_cases hd : (M.coll w).any (fun x => x.id == d.doc.id) = true
      · simp [hd] at h
      · simp only [hd] at h ⊢
        simp at h
        subst h
        simp
  · simp [he] at h

theorem not_self_append {α : Type} (l : List α) (c : α) : l ≠ l ++ [c] := by
  intro h
  have := congrArg List.length h
  simp at this

theorem projectsPost_reach (env : Env) (hs : List (String × String)) (req : Request)
    (w0 : World) :
    (projectsPost env hs req w0).2 = w0 ∨
      projectsPost env hs req w0 =
        (match Project.save env (Project.construct env req.body) w0 with
          | (.error e, w1) => (.error e, w1)
          | (.ok project, w1) =>
            (.ok (json hs 201 { success := true, data := some (.one project) }), w1)) := by
  unfold projectsPost
  simp only
  split
  · exact Or.inl rfl
  · split
    · exact Or.inl rfl
    · split
      · exact Or.inl rfl
      · split
        · exact Or.inl rfl
        · split
          · exact Or.inl rfl
          · exact Or.inr rfl

theorem draftId_spec (env : Env) (data : JsVal) :
    (data.prop "_id" = .undefined → (draftId env data).1 = env.newId) ∧
      (data.prop "_id" ≠ .undefined → (draftId env data).2 = [] →
        castObjectId env (data.prop "_id") = some (draftId env data).1) := by
  unfold draftId
  constructor
  · intro h
    rw [h]
  · intro h he
    split at he
    · next h0 => exact absurd h0 h
    · split at he
      · assumption
      · simp at he

theorem construct_doc (M : Model) (env : Env) (data : JsVal) :
    (M.construct env data).doc.updatedAt = (M.construct env data).doc.createdAt ∧
      (data.prop "_id" = .undefined → (M.construct env data).doc.id = env.newId) ∧
      (data.prop "_id" ≠ .undefined → (M.construct env data).errors = [] →
        castObjectId env (data.prop "_id") = some (M.construct env data).doc.id) ∧
      (data.prop "createdAt" = .undefined → (M.construct env data).doc.createdAt = env.now) := by
  refine ⟨rfl, (draftId_spec env data).1, fun h he => ?_, fun h => ?_⟩
  · refine (draftId_spec env data).2 h ?_
    simp only [Model.construct, List.append_eq_nil] at he
    exact he.1.1
  · simp [Model.construct, draftCreated, h]

theorem venturesPost_reach (env : Env) (hs : List (String × String)) (req : Request)
    (w0 : World) :
    (venturesPost env hs req w0).2 = w0 ∨
      venturesPost env hs req w0 =
        (match Venture.save env (Venture.construct env req.body) w0 with
          | (.error e, w1) => (.error e, w1)
          | (.ok venture, w1) =>
            (.ok (json hs 201 { success := true, data := some (.one venture) }), w1)) := by
  unfold venturesPost
  simp only
  split
  · exact Or.inl rfl
  · split
    · exact Or.inl rfl
    · split
      · exact Or.inl rfl
      · split
        · exact Or.inl rfl
        · exact Or.inr rfl

theorem milestonesPost_reach (env : Env) (hs : List (String × String)) (req : Request)
    (w0 : World) :
    (milestonesPost env hs req w0).2 = w0 ∨
      milestonesPost env hs req w0 =
        (match Milestone.save env (Milestone.construct env req.body) w0 with
          | (.error e, w1) => (.error e, w1)
          | (.ok milestone, w1) =>
            (.ok (json hs 201 { success := true, data := some (.one milestone) }), w1)) := by
  unfold milestonesPost
  simp only
  split
  · exact Or.inl rfl
  · split
    · exact Or.inl rfl
    · split
      · exact Or.inl rfl
      · split
        · exact Or.inl rfl
        · exact Or.inr rfl

theorem post_after_checks (r : Resource) (hr : r ≠ .profile) (env : Env) (req : Request)
    (w : World) (h : String × String) (w0 : World) (hm : req.method = "POST")
    (hconn : connectToDatabase env w = (.ok h, w0)) :
    (handler r env req w).world = w0 ∨
      handler r env req w =
        afterSave r (r.model.save env (r.model.construct env req.body) w0) := by
  cases r with
  | profile => exact absurd rfl hr
  | projects =>
    rcases projectsPost_reach env (corsHeaders "GET, POST, PUT, DELETE, OPTIONS") req w0
      with h1 | h1
    · left
      simp only [handler, projectsHandler, hm, hconn]
      simp
      split
      · next h2 => rw [h2] at h1; exact h1
      · next h2 => rw [h2] at h1; split <;> exact h1
    · right
      simp only [handler, projectsHandler, hm, hconn, h1, afterSave, Resource.model,
        Resource.allowMethods, Resource.noun]
      simp
      rcases Project.save env (Project.construct env req.body) w0 with ⟨res, w1⟩
      cases res <;> simp
  | ventures =>
    rcases venturesPost_reach env (corsHeaders "GET, POST, PUT, DELETE, OPTIONS") req w0
      with h1 | h1
    · left
      simp only [handler, venturesHandler, hm, hconn]
      simp
      split
      · next h2 => rw [h2] at h1; exact h1
      · next h2 => rw [h2] at h1; split <;> exact h1
    · right
      simp only [handler, venturesHandler, hm, hconn, h1, afterSave, Resource.model,
        Resource.allowMethods, Resource.noun]
      simp
      rcases Venture.save env (Venture.construct env req.body) w0 with ⟨res, w1⟩
      cases res <;> simp
  | milestones =>
    rcases milestonesPost_reach env (corsHeaders "GET, POST, PUT, DELETE, OPTIONS") req w0
      with h1 | h1
    · left
      simp only [handler, milestonesHandler, hm, hconn]
      simp
      split
      · next h2 => rw [h2] at h1; exact h1
      · next h2 => rw [h2] at h1; split <;> exact h1
    · right
      simp only [handler, milestonesHandler, hm, hconn, h1, afterSave, Resource.model,
        Resource.allowMethods, Resource.noun]
      simp
      rcases Milestone.save env (Milestone.construct env req.body) w0 with ⟨res, w1⟩
      cases res <;> simp

theorem coll_setColl_logCall (r : Resource) (ds : List Doc) (w : World) (c : Call) :
    r.model.coll (r.model.setColl ds (w.logCall c)) = ds := by
  cases r <;> rfl

theorem coll_of_sameRecords (r : Resource) (w1 w2 : World) (h : sameRecords w1 w2) :
    r.model.coll w1 = r.model.coll w2 := by
  obtain ⟨h1, h2, h3, h4⟩ := h
  cases r <;> assumption

theorem post_accepted (r : Resource) (hr : r ≠ .profile) (env : Env) (req : Request)
    (w : World) (h : String × String) (w0 : World) (hm : req.method = "POST")
    (hconn : connectToDatabase env w = (.ok h, w0))
    (hb : bodyPresent req) (hchk : postChecks env r req.body = true) :
    handler r env req w =
      afterSave r (r.model.save env (r.model.construct env req.body) w0) := by
  have hread := readProp_present req hb
  cases r with
  | profile => exact absurd rfl hr
  | projects =>
    simp only [postChecks, Bool.and_eq_true, Bool.not_eq_eq_eq_not, Bool.not_true,
      decide_eq_true_eq] at hchk
    obtain ⟨⟨⟨⟨h1, h2⟩, h3, h4⟩, h5⟩, h6⟩ := hchk
    simp only [handler, projectsHandler, hm, hconn, projectsPost, hread, h1, h2, h3, h4, h5,
      h6, afterSave, Resource.model, Resource.allowMethods, Resource.noun]
    simp
    rcases Project.save env (Project.construct env req.body) w0 with ⟨res, w1⟩
    cases res <;> simp
  | ventures =>
    simp only [postChecks, Bool.and_eq_true, Bool.not_eq_eq_eq_not, Bool.not_true,
      decide_eq_true_eq] at hchk
    obtain ⟨⟨⟨⟨h1, h2⟩, h2b⟩, ⟨h3, h4⟩, h4b⟩, h6⟩ := hchk
    simp only [handler, venturesHandler, hm, hconn, venturesPost, hread, h1, h2, h2b, h3, h4,
      h4b, h6, afterSave, Resource.model, Resource.allowMethods, Resource.noun]
    simp
    rcases Venture.save env (Venture.construct env req.body) w0 with ⟨res, w1⟩
    cases res <;> simp
  | milestones =>
    simp only [postChecks, Bool.and_eq_true, Bool.not_eq_eq_eq_not, Bool.not_true,
      decide_eq_true_eq] at hchk
    obtain ⟨⟨⟨h1, h2⟩, h3⟩, h4⟩ := hchk
    simp only [handler, milestonesHandler, hm, hconn, milestonesPost, hread, h1, h2, h3, h4,
      afterSave, Resource.model, Resource.allowMethods, Resource.noun]
    simp
    rcases Milestone.save env (Milestone.construct env req.body) w0 with ⟨res, w1⟩
    cases res <;> simp

/-! ## Lemmas on the read and update paths -/

theorem get_dispatch (r : Resource) (hr : r ≠ .profile) (env : Env) (req : Request)
    (w : World) (h : String × String) (w0 : World) (hm : req.method = "GET")
    (hconn : connectToDatabase env w = (.ok h, w0)) :
    handler r env req w =
      if req.id.truthy then afterFindById r (r.model.findById env req.id w0)
      else afterFindSorted r (r.model.findSorted env r.sortField w0) := by
  cases r with
  | profile => exact absurd rfl hr
  | projects =>
    simp only [handler, projectsHandler, hm, hconn, projectsGet, afterFindById,
      afterFindSorted, Resource.model, Resource.allowMethods, Resource.noun, Resource.label,
      Resource.sortField]
    by_cases hid : req.id.truthy = true
    · simp only [hid, if_true]
      rcases Project.findById env req.id w0 with ⟨res, w1⟩
      rcases res with e | o
      · simp
      · cases o <;> simp
    · simp only [hid]
      rcases Project.findSorted env "createdAt" w0 with ⟨res, w1⟩
      rcases res with e | o <;> simp
  | ventures =>
    simp only [handler, venturesHandler, hm, hconn, venturesGet, afterFindById,
      afterFindSorted, Resource.model, Resource.allowMethods, Resource.noun, Resource.label,
      Resource.sortField]
    by_cases hid : req.id.truthy = true
    · simp only [hid, if_true]
      rcases Venture.findById env req.id w0 with ⟨res, w1⟩
      rcases res with e | o
      · simp
      · cases o <;> simp
    · simp only [hid]
      rcases Venture.findSorted env "createdAt" w0 with ⟨res, w1⟩
      rcases res with e | o <;> simp
  | milestones =>
    simp only [handler, milestonesHandler, hm, hconn, milestonesGet, afterFindById,
      afterFindSorted, Resource.model, Resource.allowMethods, Resource.noun, Resource.label,
      Resource.sortField]
    by_cases hid : req.id.truthy = true
    · simp only [hid, if_true]
      rcases Milestone.findById env req.id w0 with ⟨res, w1⟩
      rcases res with e | o
      · simp
      · cases o <;> simp
    · simp only [hid]
      rcases Milestone.findSorted env "date" w0 with ⟨res, w1⟩
      rcases res with e | o <;> simp

theorem sameRecords_logCall (w : World) (c : Call) : sameRecords (w.logCall c) w :=
  ⟨rfl, rfl, rfl, rfl⟩

theorem sameRecords_trans {w1 w2 w3 : World} (h1 : sameRecords w1 w2) (h2 : sameRecords w2 w3) :
    sameRecords w1 w3 :=
  ⟨h1.1.trans h2.1, h1.2.1.trans h2.2.1, h1.2.2.1.trans h2.2.2.1, h1.2.2.2.trans h2.2.2.2⟩

theorem coll_logCall (M : Model) (hM : ∃ r : Resource, r.model = M) (w : World) (c : Call) :
    M.coll (w.logCall c) = M.coll w := by
  obtain ⟨r, rfl⟩ := hM
  cases r <;> rfl

theorem put_accepted (r : Resource) (hr : r ≠ .profile) (env : Env) (req : Request)
    (w : World) (h : String × String) (w0 : World) (hm : req.method = "PUT")
    (hconn : connectToDatabase env w = (.ok h, w0)) (hid : req.id.truthy = true)
    (hb : bodyPresent req) (hchk : putChecks env r req.body = true) :
    handler r env req w =
      afterUpdate r (r.model.findByIdAndUpdate env req.id req.body w0) := by
  have hread := readProp_present req hb
  cases r with
  | profile => exact absurd rfl hr
  | projects =>
    simp only [putChecks, Bool.and_eq_true, Bool.not_eq_eq_eq_not, Bool.not_true] at hchk
    obtain ⟨⟨⟨h1, h2⟩, h3⟩, h4⟩ := hchk
    simp only [handler, projectsHandler, hm, hconn, projectsPut, hread, hid, h1, h2, h3, h4,
      afterUpdate, Resource.model, Resource.allowMethods, Resource.noun, Resource.label]
    simp only [Bool.not_true, Bool.false_eq_true, if_false, reduceCtorEq, String.reduceEq]
    rcases Project.findByIdAndUpdate env req.id req.body w0 with ⟨res, w1⟩
    rcases res with e | o
    · simp
    · cases o <;> simp
  | ventures =>
    simp only [putChecks, Bool.and_eq_true, Bool.not_eq_eq_eq_not, Bool.not_true] at hchk
    obtain ⟨⟨⟨h1, h2⟩, h3⟩, h4⟩ := hchk
    simp only [handler, venturesHandler, hm, hconn, venturesPut, hread, hid, h1, h2, h3, h4,
      afterUpdate, Resource.model, Resource.allowMethods, Resource.noun, Resource.label]
    simp only [Bool.not_true, Bool.false_eq_true, if_false, reduceCtorEq, String.reduceEq]
    rcases Venture.findByIdAndUpdate env req.id req.body w0 with ⟨res, w1⟩
    rcases res with e | o
    · simp
    · cases o <;> simp
  | milestones =>
    simp only [putChecks, Bool.and_eq_true, Bool.not_eq_eq_eq_not, Bool.not_true] at hchk
    obtain ⟨h1, h2⟩ := hchk
    simp only [handler, milestonesHandler, hm, hconn, milestonesPut, hread, hid, h1, h2,
      afterUpdate, Resource.model, Resource.allowMethods, Resource.noun, Resource.label]
    simp only [Bool.not_true, Bool.false_eq_true, if_false, reduceCtorEq, String.reduceEq]
    rcases Milestone.findByIdAndUpdate env req.id req.body w0 with ⟨res, w1⟩
    rcases res with e | o
    · simp
    · cases o <;> simp

theorem update_ok (M : Model) (env : Env) (s oid : String) (body : JsVal) (w : World)
    (o : Option Doc) (hparse : env.parseObjectId s = some oid)
    (h : (M.findByIdAndUpdate env (.str s) body w).1 = .ok o) :
    ∃ upd, castUpdate env M.schema body.entries = .ok upd ∧
      updateErrors M.schema upd = [] ∧ env.fault = none ∧
      M.findByIdAndUpdate env (.str s) body w =
        (match (M.coll w).find? (fun x => x.id == oid) with
          | none => (.ok none, w.logCall (.findByIdAndUpdate M.name (.str s) body true true))
          | some d =>
            (.ok (some (applyUpdate env d upd)),
              M.setColl (replaceDoc oid (applyUpdate env d upd) (M.coll w))
                (w.logCall (.findByIdAndUpdate M.name (.str s) body true true)))) := by
  unfold Model.findByIdAndUpdate at h ⊢
  by_cases hobj : body.isObject = true
  · simp only [hobj, Bool.not_true, Bool.false_eq_true, if_false, castObjectId, hparse]
      at h ⊢
    cases hcu : castUpdate env M.schema body.entries with
    | error e => simp [hcu] at h
    | ok upd =>
      simp only [hcu] at h ⊢
      by_cases hue : updateErrors M.schema upd = []
      · simp only [hue, ne_eq, not_true_eq_false, if_false] at h ⊢
        cases hf : env.fault with
        | some e => simp [hf] at h
        | none => exact ⟨upd, rfl, hue, rfl, rfl⟩
      · simp [hue] at h
  · simp [hobj] at h

theorem update_ok_object (M : Model) (env : Env) (id body : JsVal) (w : World)
    (o : Option Doc) (h : (M.findByIdAndUpdate env id body w).1 = .ok o) :
    body.isObject = true := by
  by_contra hobj
  unfold Model.findByIdAndUpdate at h
  simp [hobj] at h

theorem find_replaceDoc (oid : String) (d1 : Doc) (hd1 : d1.id = oid) (l : List Doc) (d : Doc)
    (hf : l.find? (fun x => x.id == oid) = some d) :
    (replaceDoc oid d1 l).find? (fun x => x.id == oid) = some d1 := by
  induction l with
  | nil => simp at hf
  | cons x xs ih =>
    by_cases hx : x.id = oid
    · simp [replaceDoc, hx, hd1]
    · have hx2 : (x.id == oid) = false := by simpa using hx
      rw [List.find?_cons, hx2] at hf
      simp only [replaceDoc, hx2, Bool.false_eq_true, if_false]
      rw [List.find?_cons, hx2]
      exact ih hf

theorem coll_setColl (r : Resource) (ds : List Doc) (w : World) :
    r.model.coll (r.model.setColl ds w) = ds := by
  cases r <;> rfl

theorem lookup_setField (k0 : String) (v : FieldVal) (fs : List (String × FieldVal)) (k : String) :
    (setField k0 v fs).lookup k = if k = k0 then some v else fs.lookup k := by
  induction fs with
  | nil =>
    by_cases hk : k = k0
    · simp [setField, hk, List.lookup]
    · have : (k == k0) = false := by simpa using hk
      simp [setField, hk, List.lookup, this]
  | cons x xs ih =>
    obtain ⟨l, u⟩ := x
    by_cases hl : l = k0
    · subst hl
      by_cases hk : k = l
      · simp [setField, hk, List.lookup]
      · have : (k == l) = false := by simpa using hk
        simp [setField, hk, List.lookup, this]
    · by_cases hk : k = k0
      · subst hk
        have : (k == l) = false := by
          simpa using fun h => hl h.symm
        simp [setField, hl, List.lookup, this, ih]
      · simp only [setField, hl, if_false, List.lookup, ih, hk]

theorem storageCalls_setColl (r : Resource) (ds : List Doc) (w : World) :
    (r.model.setColl ds w).storageCalls = w.storageCalls := by
  cases r <;> rfl

theorem update_storageCalls (r : Resource) (env : Env) (id body : JsVal) (w : World) :
    (r.model.findByIdAndUpdate env id body w).2.storageCalls =
      w.storageCalls ++ [.findByIdAndUpdate r.model.name id body true true] := by
  have hl : (w.logCall (.findByIdAndUpdate r.model.name id body true true)).storageCalls =
      w.storageCalls ++ [.findByIdAndUpdate r.model.name id body true true] := by
    rw [storageCalls_logCall]
    rfl
  unfold Model.findByIdAndUpdate
  simp only
  repeat' split
  all_goals first
    | exact hl
    | (rw [storageCalls_setColl]; exact hl)

theorem projectsPut_reach (env : Env) (hs : List (String × String)) (req : Request)
    (w0 : World) :
    (projectsPut env hs req w0).2 = w0 ∨
      (projectsPut env hs req w0).2 =
        (Project.findByIdAndUpdate env req.id req.body w0).2 := by
  unfold projectsPut
  simp only
  split
  · exact Or.inl rfl
  · split
    · exact Or.inl rfl
    · split
      · exact Or.inl rfl
      · split
        · exact Or.inl rfl
        · split
          · exact Or.inl rfl
          · split
            · exact Or.inl rfl
            · right
              rcases Project.findByIdAndUpdate env req.id req.body w0 with ⟨res, w1⟩
              rcases res with e | o
              · rfl
              · cases o <;> rfl

theorem projects_put_calls (env : Env) (req : Request) (w : World)
    (hm : req.method = "PUT") (hc : acquired env w) :
    (handler .projects env req w).world.storageCalls = w.storageCalls ∨
      (handler .projects env req w).world.storageCalls =
        w.storageCalls ++ [.findByIdAndUpdate "Project" req.id req.body true true] := by
  obtain ⟨h, hc⟩ := hc
  have hcs := connect_sameRecords env w
  rcases hconn : connectToDatabase env w with ⟨res, w0⟩
  rw [hconn] at hc hcs
  simp only at hc hcs
  subst hc
  have hw : (handler .projects env req w).world =
      (projectsPut env (corsHeaders "GET, POST, PUT, DELETE, OPTIONS") req w0).2 := by
    simp only [handler, projectsHandler, hm, hconn]
    simp
    split
    · next h2 => rw [h2]
    · next h2 => rw [h2]; split_ifs <;> rfl
  rw [hw]
  rcases projectsPut_reach env (corsHeaders "GET, POST, PUT, DELETE, OPTIONS") req w0
    with h1 | h1
  · left
    rw [h1, hcs.2]
  · right
    rw [h1]
    have := update_storageCalls .projects env req.id req.body w0
    simp only [Resource.model] at this
    rw [this, hcs.2]
    rfl

/-- A read by an identifier that the storage layer cannot cast is answered by the `catch`
block of GET, which has one branch only: status 500 with the retrieval message. -/
theorem get_cast_error (r : Resource) (hr : r ≠ .profile) (env : Env) (req : Request)
    (w : World) (hm : req.method = "GET") (hc : acquired env w)
    (s : String) (hid : req.id = .str s) (hs : s ≠ "")
    (hbad : env.parseObjectId s = none) :
    (handler r env req w).res =
      ⟨500, corsHeaders r.allowMethods,
        some { success := false,
               error := some ("Failed to retrieve " ++ r.noun ++ " data") }⟩ := by
  obtain ⟨h, hc⟩ := hc
  rcases hconn : connectToDatabase env w with ⟨res, w0⟩
  rw [hconn] at hc
  simp only at hc
  subst hc
  have htr : req.id.truthy = true := by simp [hid, JsVal.truthy, hs]
  rw [get_dispatch r hr env req w h w0 hm hconn, if_pos htr, hid]
  simp [Model.findById, castObjectId, hbad, afterFindById, json, failure]

/-! ## Lemmas on the delete path and on the profile handler -/

theorem delete_dispatch (r : Resource) (hr : r ≠ .profile) (env : Env) (req : Request)
    (w : World) (h : String × String) (w0 : World) (hm : req.method = "DELETE")
    (hconn : connectToDatabase env w = (.ok h, w0)) (hid : req.id.truthy = true) :
    handler r env req w = afterDelete r (r.model.findByIdAndDelete env req.id w0) := by
  cases r with
  | profile => exact absurd rfl hr
  | projects =>
    simp only [handler, projectsHandler, hm, hconn, projectsDelete, hid, afterDelete,
      Resource.model, Resource.allowMethods, Resource.noun, Resource.label]
    simp only [Bool.not_true, Bool.false_eq_true, if_false, reduceCtorEq, String.reduceEq]
    rcases Project.findByIdAndDelete env req.id w0 with ⟨res, w1⟩
    rcases res with e | o
    · simp
    · cases o <;> simp
  | ventures =>
    simp only [handler, venturesHandler, hm, hconn, venturesDelete, hid, afterDelete,
      Resource.model, Resource.allowMethods, Resource.noun, Resource.label]
    simp only [Bool.not_true, Bool.false_eq_true, if_false, reduceCtorEq, String.reduceEq]
    rcases Venture.findByIdAndDelete env req.id w0 with ⟨res, w1⟩
    rcases res with e | o
    · simp
    · cases o <;> simp
  | milestones =>
    simp only [handler, milestonesHandler, hm, hconn, milestonesDelete, hid, afterDelete,
      Resource.model, Resource.allowMethods, Resource.noun, Resource.label]
    simp only [Bool.not_true, Bool.false_eq_true, if_false, reduceCtorEq, String.reduceEq]
    rcases Milestone.findByIdAndDelete env req.id w0 with ⟨res, w1⟩
    rcases res with e | o
    · simp
    · cases o <;> simp

theorem profile_get_dispatch (env : Env) (req : Request) (w : World) (h : String × String)
    (w0 : World) (hm : req.method = "GET")
    (hconn : connectToDatabase env w = (.ok h, w0)) :
    handler .profile env req w = afterFindOne (Profile.findOne env w0) := by
  simp only [handler, profileHandler, hm, hconn, profileGet, afterFindOne]
  simp only [reduceCtorEq, String.reduceEq, if_false, if_true]
  rcases Profile.findOne env w0 with ⟨res, w1⟩
  rcases res with e | o
  · simp
  · cases o <;> simp

theorem profile_put_accepted (env : Env) (req : Request) (w : World) (h : String × String)
    (w0 : World) (hm : req.method = "PUT")
    (hconn : connectToDatabase env w = (.ok h, w0))
    (hb : bodyPresent req) (hchk : profileChecks req.body = true) :
    handler .profile env req w = afterUpsert (Profile.findOneAndUpdate env req.body w0) := by
  have hread := readProp_present req hb
  simp only [profileChecks, Bool.and_eq_true, Bool.not_eq_eq_eq_not, Bool.not_true,
    decide_eq_true_eq] at hchk
  obtain ⟨⟨⟨⟨h1, h2⟩, h3, h4⟩, h5⟩, h6⟩ := hchk
  simp only [handler, profileHandler, hm, hconn, profilePut, hread, h1, h2, h3, h4, h5, h6,
    afterUpsert]
  simp
  rcases Profile.findOneAndUpdate env req.body w0 with ⟨res, w1⟩
  cases res <;> simp

theorem delete_result (M : Model) (env : Env) (s oid : String) (w : World)
    (hparse : env.parseObjectId s = some oid) (hfault : env.fault = none) :
    M.findByIdAndDelete env (.str s) w =
      (match (M.coll w).find? (fun x => x.id == oid) with
        | none => (.ok none, w.logCall (.findByIdAndDelete M.name (.str s)))
        | some d =>
          (.ok (some d),
            M.setColl (removeDoc oid (M.coll w))
              (w.logCall (.findByIdAndDelete M.name (.str s))))) := by
  simp only [Model.findByIdAndDelete, castObjectId, hparse, hfault]

theorem removeDoc_of_absent (oid : String) (l : List Doc) (h : ∀ x ∈ l, x.id ≠ oid) :
    l.filter (fun x => x.id != oid) = l := by
  rw [List.filter_eq_self]
  intro x hx
  simpa using h x hx

theorem removeDoc_eq_filter (oid : String) (l : List Doc) (hu : uniqueIds l) :
    removeDoc oid l = l.filter (fun x => x.id != oid) := by
  induction l with
  | nil => rfl
  | cons x xs ih =>
    have hu2 : uniqueIds xs := by
      unfold uniqueIds at hu ⊢
      exact (List.nodup_cons.mp hu).2
    have hx : x.id ∉ xs.map Doc.id := by
      unfold uniqueIds at hu
      exact (List.nodup_cons.mp hu).1
    by_cases hid : x.id = oid
    · have hrest : ∀ y ∈ xs, y.id ≠ oid := by
        intro y hy hyo
        exact hx (List.mem_map.mpr ⟨y, hy, hyo.trans hid.symm⟩)
      simp [removeDoc, hid, removeDoc_of_absent oid xs hrest]
    · have hid2 : (x.id == oid) = false := by simpa using hid
      simp [removeDoc, hid, hid2, ih hu2]

theorem coll_setColl_ne (r r2 : Resource) (hne : r2 ≠ r) (ds : List Doc) (w : World) :
    r2.model.coll (r.model.setColl ds w) = r2.model.coll w := by
  cases r <;> cases r2 <;> first | rfl | exact absurd rfl hne

theorem find_of_unique (oid : String) (l : List Doc) (d : Doc) (hd : d ∈ l) (hdo : d.id = oid)
    (hu : uniqueIds l) : l.find? (fun x => x.id == oid) = some d := by
  induction l with
  | nil => simp at hd
  | cons x xs ih =>
    have hx : x.id ∉ xs.map Doc.id := by
      unfold uniqueIds at hu
      exact (List.nodup_cons.mp hu).1
    have hu2 : uniqueIds xs := by
      unfold uniqueIds at hu ⊢
      exact (List.nodup_cons.mp hu).2
    rcases List.mem_cons.mp hd with rfl | hmem
    · simp [hdo]
    · have hne : x.id ≠ oid := by
        intro hxo
        exact hx (List.mem_map.mpr ⟨d, hmem, hdo.trans hxo.symm⟩)
      have hne2 : (x.id == oid) = false := by simpa using hne
      rw [List.find?_cons, hne2]
      exact ih hmem hu2

theorem find_none_of_absent (oid : String) (l : List Doc) (h : ∀ x ∈ l, x.id ≠ oid) :
    l.find? (fun x => x.id == oid) = none := by
  rw [List.find?_eq_none]
  intro x hx
  simpa using h x hx

theorem warm_of_connect (env : Env) (w : World) (h : String × String) (w0 : World)
    (hconn : connectToDatabase env w = (.ok h, w0)) : warm w0 := by
  unfold connectToDatabase at hconn
  split at hconn
  · next c d hc hd =>
    simp only [Prod.mk.injEq] at hconn
    rw [← hconn.2]
    simp [warm, hc, hd]
  · split at hconn
    · simp at hconn
    · split at hconn
      · simp at hconn
      · split at hconn
        · simp at hconn
        · split at hconn
          · simp at hconn
          · simp only [Prod.mk.injEq] at hconn
            rw [← hconn.2]
            simp [warm]

theorem acquired_of_warm (env : Env) (w : World) (hw : warm w) :
    ∃ h, connectToDatabase env w = (.ok h, w) := by
  obtain ⟨h1, h2⟩ := hw
  unfold connectToDatabase
  cases hc : w.cachedClient with
  | none => simp [hc] at h1
  | some c =>
    cases hd : w.cachedDb with
    | none => simp [hd] at h2
    | some d => exact ⟨(d, c), rfl⟩

theorem warm_setColl_logCall (r : Resource) (ds : List Doc) (w : World) (c : Call)
    (hw : warm w) : warm (r.model.setColl ds (w.logCall c)) := by
  cases r <;> exact hw

theorem warm_logCall (w : World) (c : Call) (hw : warm w) : warm (w.logCall c) := hw

theorem delete_success (r : Resource) (hr : r ≠ .profile) (env : Env) (req : Request)
    (w : World) (hm : req.method = "DELETE") (s oid : String) (hid : req.id = .str s)
    (hs : s ≠ "") (hparse : env.parseObjectId s = some oid)
    (hok : (handler r env req w).res.status = 200) :
    ∃ h w0 d, connectToDatabase env w = (.ok h, w0) ∧
      (r.model.coll w).find? (fun x => x.id == oid) = some d ∧
      handler r env req w =
        ⟨json (corsHeaders r.allowMethods) 200
          { success := true, data := some (.one d),
            message := some (r.label ++ " deleted successfully") },
          r.model.setColl (removeDoc oid (r.model.coll w))
            (w0.logCall (.findByIdAndDelete r.model.name (.str s)))⟩ := by
  have hcs := connect_sameRecords env w
  have hne : req.method ≠ "OPTIONS" := by simp [hm]
  rcases hconn : connectToDatabase env w with ⟨res, w0⟩
  rw [hconn] at hcs
  simp only at hcs
  rcases res with e | h
  · exfalso
    have : (handler r env req w).res.status = 503 := by
      cases r <;>
        simp [handler, projectsHandler, venturesHandler, milestonesHandler, profileHandler,
          hm, hconn, connectionFailed, json]
    rw [this] at hok
    exact absurd hok (by decide)
  · have htr : req.id.truthy = true := by simp [hid, JsVal.truthy, hs]
    have hcoll := coll_of_sameRecords r w0 w hcs.1
    have hd := delete_dispatch r hr env req w h w0 hm hconn htr
    rw [hd] at hok ⊢
    rw [hid] at hok ⊢
    cases hf : env.fault with
    | some e =>
      exfalso
      simp only [Model.findByIdAndDelete, castObjectId, hparse, hf, afterDelete] at hok
      split_ifs at hok <;> simp [json] at hok
    | none =>
      rw [delete_result r.model env s oid w0 hparse hf, hcoll] at hok ⊢
      cases hfind : (r.model.coll w).find? (fun x => x.id == oid) with
      | none =>
        exfalso
        rw [hfind] at hok
        simp [afterDelete, json] at hok
      | some d => exact ⟨h, w0, d, rfl, rfl, rfl⟩

theorem get_absent (r : Resource) (hr : r ≠ .profile) (env : Env) (req : Request)
    (w : World) (hm : req.method = "GET") (hw : warm w)
    (s oid : String) (hid : req.id = .str s) (hs : s ≠ "")
    (hparse : env.parseObjectId s = some oid) (hfault : env.fault = none)
    (hno : ∀ d ∈ r.model.coll w, d.id ≠ oid) :
    (handler r env req w).res =
      ⟨404, corsHeaders r.allowMethods,
        some { success := false, error := some (r.label ++ " not found") }⟩ := by
  obtain ⟨h, hconn⟩ := acquired_of_warm env w hw
  have htr : req.id.truthy = true := by simp [hid, JsVal.truthy, hs]
  rw [get_dispatch r hr env req w h w hm hconn, if_pos htr, hid]
  simp only [Model.findById, castObjectId, hparse, hfault, find_none_of_absent oid _ hno]
  rfl

theorem delete_absent (r : Resource) (hr : r ≠ .profile) (env : Env) (req : Request)
    (w : World) (hm : req.method = "DELETE") (hw : warm w)
    (s oid : String) (hid : req.id = .str s) (hs : s ≠ "")
    (hparse : env.parseObjectId s = some oid) (hfault : env.fault = none)
    (hno : ∀ d ∈ r.model.coll w, d.id ≠ oid) :
    (handler r env req w).res =
      ⟨404, corsHeaders r.allowMethods,
        some { success := false, error := some (r.label ++ " not found") }⟩ := by
  obtain ⟨h, hconn⟩ := acquired_of_warm env w hw
  have htr : req.id.truthy = true := by simp [hid, JsVal.truthy, hs]
  rw [delete_dispatch r hr env req w h w hm hconn htr, hid,
    delete_result r.model env s oid w hparse hfault, find_none_of_absent oid _ hno]
  rfl

/-! ## The forms of a response -/

theorem projectsGet_shape (env : Env) (hs : List (String × String)) (req : Request)
    (w : World) : tryShape hs "GET" (projectsGet env hs req w) := by
  intro r h
  unfold projectsGet at h
  simp only at h
  repeat' (split at h)
  all_goals
    simp only [reduceCtorEq, Except.ok.injEq] at h
  all_goals
    subst h
  all_goals first
    | exact .failed _ _ (by simp)
    | exact .found _ _ (by simp)

theorem projectsPost_shape (env : Env) (hs : List (String × String)) (req : Request)
    (w : World) : tryShape hs "POST" (projectsPost env hs req w) := by
  intro r h
  unfold projectsPost at h
  simp only at h
  repeat' (split at h)
  all_goals
    simp only [reduceCtorEq, Except.ok.injEq] at h
  all_goals
    subst h
  all_goals first
    | exact .failed _ _ (by simp)
    | exact .found _ _ (by simp)

theorem projectsPut_shape (env : Env) (hs : List (String × String)) (req : Request)
    (w : World) : tryShape hs "PUT" (projectsPut env hs req w) := by
  intro r h
  unfold projectsPut at h
  simp only at h
  repeat' (split at h)
  all_goals
    simp only [reduceCtorEq, Except.ok.injEq] at h
  all_goals
    subst h
  all_goals first
    | exact .failed _ _ (by simp)
    | exact .found _ _ (by simp)

theorem projectsDelete_shape (env : Env) (hs : List (String × String)) (req : Request)
    (w : World) : tryShape hs "DELETE" (projectsDelete env hs req w) := by
  intro r h
  unfold projectsDelete at h
  simp only at h
  repeat' (split at h)
  all_goals
    simp only [reduceCtorEq, Except.ok.injEq] at h
  all_goals
    subst h
  all_goals first
    | exact .failed _ _ (by simp)
    | exact .found _ _ (by simp)
    | exact .deleted _ _ rfl

theorem venturesGet_shape (env : Env) (hs : List (String × String)) (req : Request)
    (w : World) : tryShape hs "GET" (venturesGet env hs req w) := by
  intro r h
  unfold venturesGet at h
  simp only at h
  repeat' (split at h)
  all_goals
    simp only [reduceCtorEq, Except.ok.injEq] at h
  all_goals
    subst h
  all_goals first
    | exact .failed _ _ (by simp)
    | exact .found _ _ (by simp)

theorem venturesPost_shape (env : Env) (hs : List (String × String)) (req : Request)
    (w : World) : tryShape hs "POST" (venturesPost env hs req w) := by
  intro r h
  unfold venturesPost at h
  simp only at h
  repeat' (split at h)
  all_goals
    simp only [reduceCtorEq, Except.ok.injEq] at h
  all_goals
    subst h
  all_goals first
    | exact .failed _ _ (by simp)
    | exact .found _ _ (by simp)

theorem venturesPut_shape (env : Env) (hs : List (String × String)) (req : Request)
    (w : World) : tryShape hs "PUT" (venturesPut env hs req w) := by
  intro r h
  unfold venturesPut at h
  simp only at h
  repeat' (split at h)
  all_goals
    simp only [reduceCtorEq, Except.ok.injEq] at h
  all_goals
    subst h
  all_goals first
    | exact .failed _ _ (by simp)
    | exact .found _ _ (by simp)

theorem venturesDelete_shape (env : Env) (hs : List (String × String)) (req : Request)
    (w : World) : tryShape hs "DELETE" (venturesDelete env hs req w) := by
  intro r h
  unfold venturesDelete at h
  simp only at h
  repeat' (split at h)
  all_goals
    simp only [reduceCtorEq, Except.ok.injEq] at h
  all_goals
    subst h
  all_goals first
    | exact .failed _ _ (by simp)
    | exact .found _ _ (by simp)
    | exact .deleted _ _ rfl

theorem milestonesGet_shape (env : Env) (hs : List (String × String)) (req : Request)
    (w : World) : tryShape hs "GET" (milestonesGet env hs req w) := by
  intro r h
  unfold milestonesGet at h
  simp only at h
  repeat' (split at h)
  all_goals
    simp only [reduceCtorEq, Except.ok.injEq] at h
  all_goals
    subst h
  all_goals first
    | exact .failed _ _ (by simp)
    | exact .found _ _ (by simp)

theorem milestonesPost_shape (env : Env) (hs : List (String × String)) (req : Request)
    (w : World) : tryShape hs "POST" (milestonesPost env hs req w) := by
  intro r h
  unfold milestonesPost at h
  simp only at h
  repeat' (split at h)
  all_goals
    simp only [reduceCtorEq, Except.ok.injEq] at h
  all_goals
    subst h
  all_goals first
    | exact .failed _ _ (by simp)
    | exact .found _ _ (by simp)

theorem milestonesPut_shape (env : Env) (hs : List (String × String)) (req : Request)
    (w : World) : tryShape hs "PUT" (milestonesPut env hs req w) := by
  intro r h
  unfold milestonesPut at h
  simp only at h
  repeat' (split at h)
  all_goals
    simp only [reduceCtorEq, Except.ok.injEq] at h
  all_goals
    subst h
  all_goals first
    | exact .failed _ _ (by simp)
    | exact .found _ _ (by simp)

theorem milestonesDelete_shape (env : Env) (hs : List (String × String)) (req : Request)
    (w : World) : tryShape hs "DELETE" (milestonesDelete env hs req w) := by
  intro r h
  unfold milestonesDelete at h
  simp only at h
  repeat' (split at h)
  all_goals
    simp only [reduceCtorEq, Except.ok.injEq] at h
  all_goals
    subst h
  all_goals first
    | exact .failed _ _ (by simp)
    | exact .found _ _ (by simp)
    | exact .deleted _ _ rfl

theorem profileGet_shape (env : Env) (hs : List (String × String))
    (w : World) : tryShape hs "GET" (profileGet env hs w) := by
  intro r h
  unfold profileGet at h
  repeat' (split at h)
  all_goals
    simp only [reduceCtorEq, Except.ok.injEq] at h
  all_goals
    subst h
  all_goals first
    | exact .failed _ _ (by simp)
    | exact .found _ _ (by simp)

theorem profilePut_shape (env : Env) (hs : List (String × String)) (req : Request)
    (w : World) : tryShape hs "PUT" (profilePut env hs req w) := by
  intro r h
  unfold profilePut at h
  simp only at h
  repeat' (split at h)
  all_goals
    simp only [reduceCtorEq, Except.ok.injEq] at h
  all_goals
    subst h
  all_goals first
    | exact .failed _ _ (by simp)
    | exact .found _ _ (by simp)

theorem projectsHandler_shape (env : Env) (req : Request) (w : World) :
    ResponseShape (corsHeaders "GET, POST, PUT, DELETE, OPTIONS") req.method
      (projectsHandler env req w).res := by
  unfold projectsHandler
  simp only
  split_ifs with hopt h1 h2 h3 h4
  · exact .preflight hopt
  · split
    · exact .failed _ _ (by simp)
    · split
      · next r w1 heq =>
        rw [h1]
        exact projectsGet_shape _ _ _ _ r (by rw [heq])
      · exact .failed _ _ (by simp)
  · split
    · exact .failed _ _ (by simp)
    · split
      · next r w1 heq =>
        rw [h2]
        exact projectsPost_shape _ _ _ _ r (by rw [heq])
      · split_ifs
        · exact .invalid _
        · exact .failed _ _ (by simp)
  · split
    · exact .failed _ _ (by simp)
    · split
      · next r w1 heq =>
        rw [h3]
        exact projectsPut_shape _ _ _ _ r (by rw [heq])
      · split_ifs
        · exact .invalid _
        · exact .failed _ _ (by simp)
        · exact .failed _ _ (by simp)
  · split
    · exact .failed _ _ (by simp)
    · split
      · next r w1 heq =>
        rw [h4]
        exact projectsDelete_shape _ _ _ _ r (by rw [heq])
      · split_ifs
        · exact .failed _ _ (by simp)
        · exact .failed _ _ (by simp)
  · split
    · exact .failed _ _ (by simp)
    · exact .failed _ _ (by simp)

theorem venturesHandler_shape (env : Env) (req : Request) (w : World) :
    ResponseShape (corsHeaders "GET, POST, PUT, DELETE, OPTIONS") req.method
      (venturesHandler env req w).res := by
  unfold venturesHandler
  simp only
  split_ifs with hopt h1 h2 h3 h4
  · exact .preflight hopt
  · split
    · exact .failed _ _ (by simp)
    · split
      · next r w1 heq =>
        rw [h1]
        exact venturesGet_shape _ _ _ _ r (by rw [heq])
      · exact .failed _ _ (by simp)
  · split
    · exact .failed _ _ (by simp)
    · split
      · next r w1 heq =>
        rw [h2]
        exact venturesPost_shape _ _ _ _ r (by rw [heq])
      · split_ifs
        · exact .invalid _
        · exact .failed _ _ (by simp)
  · split
    · exact .failed _ _ (by simp)
    · split
      · next r w1 heq =>
        rw [h3]
        exact venturesPut_shape _ _ _ _ r (by rw [heq])
      · split_ifs
        · exact .invalid _
        · exact .failed _ _ (by simp)
        · exact .failed _ _ (by simp)
  · split
    · exact .failed _ _ (by simp)
    · split
      · next r w1 heq =>
        rw [h4]
        exact venturesDelete_shape _ _ _ _ r (by rw [heq])
      · split_ifs
        · exact .failed _ _ (by simp)
        · exact .failed _ _ (by simp)
  · split
    · exact .failed _ _ (by simp)
    · exact .failed _ _ (by simp)

theorem milestonesHandler_shape (env : Env) (req : Request) (w : World) :
    ResponseShape (corsHeaders "GET, POST, PUT, DELETE, OPTIONS") req.method
      (milestonesHandler env req w).res := by
  unfold milestonesHandler
  simp only
  split_ifs with hopt h1 h2 h3 h4
  · exact .preflight hopt
  · split
    · exact .failed _ _ (by simp)
    · split
      · next r w1 heq =>
        rw [h1]
        exact milestonesGet_shape _ _ _ _ r (by rw [heq])
      · exact .failed _ _ (by simp)
  · split
    · exact .failed _ _ (by simp)
    · split
      · next r w1 heq =>
        rw [h2]
        exact milestonesPost_shape _ _ _ _ r (by rw [heq])
      · split_ifs
        · exact .invalid _
        · exact .failed _ _ (by simp)
  · split
    · exact .failed _ _ (by simp)
    · split
      · next r w1 heq =>
        rw [h3]
        exact milestonesPut_shape _ _ _ _ r (by rw [heq])
      · split_ifs
        · exact .invalid _
        · exact .failed _ _ (by simp)
        · exact .failed _ _ (by simp)
  · split
    · exact .failed _ _ (by simp)
    · split
      · next r w1 heq =>
        rw [h4]
        exact milestonesDelete_shape _ _ _ _ r (by rw [heq])
      · split_ifs
        · exact .failed _ _ (by simp)
        · exact .failed _ _ (by simp)
  · split
    · exact .failed _ _ (by simp)
    · exact .failed _ _ (by simp)

theorem profileHandler_shape (env : Env) (req : Request) (w : World) :
    ResponseShape (corsHeaders "GET, PUT, OPTIONS") req.method (profileHandler env req w).res := by
  unfold profileHandler
  simp only
  split_ifs with hopt h1 h2
  · exact .preflight hopt
  · split
    · exact .failed _ _ (by simp)
    · split
      · next r w1 heq =>
        rw [h1]
        exact profileGet_shape _ _ _ r (by rw [heq])
      · exact .failed _ _ (by simp)
  · split
    · exact .failed _ _ (by simp)
    · split
      · next r w1 heq =>
        rw [h2]
        exact profilePut_shape _ _ _ _ r (by rw [heq])
      · split_ifs
        · exact .invalid _
        · exact .failed _ _ (by simp)
  · split
    · exact .failed _ _ (by simp)
    · exact .failed _ _ (by simp)

theorem handler_shape (r : Resource) (env : Env) (req : Request) (w : World) :
    ResponseShape (corsHeaders r.allowMethods) req.method (handler r env req w).res := by
  cases r
  · exact projectsHandler_shape env req w
  · exact venturesHandler_shape env req w
  · exact milestonesHandler_shape env req w
  · exact profileHandler_shape env req w

theorem shape_headers {hs : List (String × String)} {method : String} {r : Response}
    (h : ResponseShape hs method r) : r.headers = hs := by
  cases h <;> rfl

/-! ## The profile collection across a request -/

theorem setColl_profiles (r : Resource) (hr : r ≠ .profile) (ds : List Doc) (w : World) :
    (r.model.setColl ds w).profiles = w.profiles := by
  cases r
  · rfl
  · rfl
  · rfl
  · exact absurd rfl hr

theorem save_profiles (r : Resource) (hr : r ≠ .profile) (env : Env) (d : Draft) (w : World) :
    (r.model.save env d w).2.profiles = w.profiles := by
  unfold Model.save
  simp only
  repeat' split
  all_goals first
    | rfl
    | exact setColl_profiles r hr _ _

theorem findById_profiles (M : Model) (env : Env) (id : JsVal) (w : World) :
    (M.findById env id w).2.profiles = w.profiles := by
  unfold Model.findById
  simp only
  repeat' split
  all_goals rfl

theorem findSorted_profiles (M : Model) (env : Env) (key : String) (w : World) :
    (M.findSorted env key w).2.profiles = w.profiles := by
  unfold Model.findSorted
  simp only
  repeat' split
  all_goals rfl

theorem update_profiles (r : Resource) (hr : r ≠ .profile) (env : Env) (id body : JsVal)
    (w : World) : (r.model.findByIdAndUpdate env id body w).2.profiles = w.profiles := by
  unfold Model.findByIdAndUpdate
  simp only
  repeat' split
  all_goals first
    | rfl
    | exact setColl_profiles r hr _ _

theorem delete_profiles (r : Resource) (hr : r ≠ .profile) (env : Env) (id : JsVal)
    (w : World) : (r.model.findByIdAndDelete env id w).2.profiles = w.profiles := by
  unfold Model.findByIdAndDelete
  simp only
  repeat' split
  all_goals first
    | rfl
    | exact setColl_profiles r hr _ _

theorem findOne_profiles (M : Model) (env : Env) (w : World) :
    (M.findOne env w).2.profiles = w.profiles := by
  unfold Model.findOne
  simp only
  repeat' split
  all_goals rfl

theorem profilesKept_refl (w : World) : profilesKept w w :=
  List.prefix_refl _

theorem profilesKept_of_eq {w w1 : World} (h : w1.profiles = w.profiles) :
    profilesKept w w1 := by
  unfold profilesKept
  rw [h]

theorem upsert_profiles (env : Env) (body : JsVal) (w : World) :
    profilesKept w (Profile.findOneAndUpdate env body w).2 := by
  unfold Model.findOneAndUpdate
  simp only
  repeat' split
  all_goals first
    | exact profilesKept_refl w
    | skip
  · next h =>
    have h0 : w.profiles = [] := h
    simp [profilesKept, Profile, World.logCall, h0]
  · next d ds h =>
    have h0 : w.profiles = d :: ds := h
    simp [profilesKept, Profile, World.logCall, h0, applyUpdate]

theorem snd_profiles {α : Type} {p : α × World} {a : α} {w1 w : World} (h : p = (a, w1))
    (hp : p.2.profiles = w.profiles) : w1.profiles = w.profiles := by
  subst h
  exact hp

theorem snd_kept {α : Type} {p : α × World} {a : α} {w1 w : World} (h : p = (a, w1))
    (hp : profilesKept w p.2) : profilesKept w w1 := by
  subst h
  exact hp

theorem projectsGet_profiles (env : Env) (hs : List (String × String)) (req : Request)
    (w : World) : (projectsGet env hs req w).2.profiles = w.profiles := by
  have hr : Resource.projects ≠ .profile := by decide
  unfold projectsGet
  simp only
  repeat' split
  all_goals first
    | rfl
    | (next h => exact snd_profiles h (findById_profiles _ _ _ _))
    | (next h => exact snd_profiles h (findSorted_profiles _ _ _ _))

theorem projectsPost_profiles (env : Env) (hs : List (String × String)) (req : Request)
    (w : World) : (projectsPost env hs req w).2.profiles = w.profiles := by
  have hr : Resource.projects ≠ .profile := by decide
  unfold projectsPost
  simp only
  repeat' split
  all_goals first
    | rfl
    | (next h => exact snd_profiles h (save_profiles .projects hr _ _ _))

theorem projectsPut_profiles (env : Env) (hs : List (String × String)) (req : Request)
    (w : World) : (projectsPut env hs req w).2.profiles = w.profiles := by
  have hr : Resource.projects ≠ .profile := by decide
  unfold projectsPut
  simp only
  repeat' split
  all_goals first
    | rfl
    | (next h => exact snd_profiles h (update_profiles .projects hr _ _ _ _))

theorem projectsDelete_profiles (env : Env) (hs : List (String × String)) (req : Request)
    (w : World) : (projectsDelete env hs req w).2.profiles = w.profiles := by
  have hr : Resource.projects ≠ .profile := by decide
  unfold projectsDelete
  simp only
  repeat' split
  all_goals first
    | rfl
    | (next h => exact snd_profiles h (delete_profiles .projects hr _ _ _))

theorem venturesGet_profiles (env : Env) (hs : List (String × String)) (req : Request)
    (w : World) : (venturesGet env hs req w).2.profiles = w.profiles := by
  have hr : Resource.ventures ≠ .profile := by decide
  unfold venturesGet
  simp only
  repeat' split
  all_goals first
    | rfl
    | (next h => exact snd_profiles h (findById_profiles _ _ _ _))
    | (next h => exact snd_profiles h (findSorted_profiles _ _ _ _))

theorem venturesPost_profiles (env : Env) (hs : List (String × String)) (req : Request)
    (w : World) : (venturesPost env hs req w).2.profiles = w.profiles := by
  have hr : Resource.ventures ≠ .profile := by decide
  unfold venturesPost
  simp only
  repeat' split
  all_goals first
    | rfl
    | (next h => exact snd_profiles h (save_profiles .ventures hr _ _ _))

theorem venturesPut_profiles (env : Env) (hs : List (String × String)) (req : Request)
    (w : World) : (venturesPut env hs req w).2.profiles = w.profiles := by
  have hr : Resource.ventures ≠ .profile := by decide
  unfold venturesPut
  simp only
  repeat' split
  all_goals first
    | rfl
    | (next h => exact snd_profiles h (update_profiles .ventures hr _ _ _ _))

theorem venturesDelete_profiles (env : Env) (hs : List (String × String)) (req : Request)
    (w : World) : (venturesDelete env hs req w).2.profiles = w.profiles := by
  have hr : Resource.ventures ≠ .profile := by decide
  unfold venturesDelete
  simp only
  repeat' split
  all_goals first
    | rfl
    | (next h => exact snd_profiles h (delete_profiles .ventures hr _ _ _))

theorem milestonesGet_profiles (env : Env) (hs : List (String × String)) (req : Request)
    (w : World) : (milestonesGet env hs req w).2.profiles = w.profiles := by
  have hr : Resource.milestones ≠ .profile := by decide
  unfold milestonesGet
  simp only
  repeat' split
  all_goals first
    | rfl
    | (next h => exact snd_profiles h (findById_profiles _ _ _ _))
    | (next h => exact snd_profiles h (findSorted_profiles _ _ _ _))

theorem milestonesPost_profiles (env : Env) (hs : List (String × String)) (req : Request)
    (w : World) : (milestonesPost env hs req w).2.profiles = w.profiles := by
  have hr : Resource.milestones ≠ .profile := by decide
  unfold milestonesPost
  simp only
  repeat' split
  all_goals first
    | rfl
    | (next h => exact snd_profiles h (save_profiles .milestones hr _ _ _))

theorem milestonesPut_profiles (env : Env) (hs : List (String × String)) (req : Request)
    (w : World) : (milestonesPut env hs req w).2.profiles = w.profiles := by
  have hr : Resource.milestones ≠ .profile := by decide
  unfold milestonesPut
  simp only
  repeat' split
  all_goals first
    | rfl
    | (next h => exact snd_profiles h (update_profiles .milestones hr _ _ _ _))

theorem milestonesDelete_profiles (env : Env) (hs : List (String × String)) (req : Request)
    (w : World) : (milestonesDelete env hs req w).2.profiles = w.profiles := by
  have hr : Resource.milestones ≠ .profile := by decide
  unfold milestonesDelete
  simp only
  repeat' split
  all_goals first
    | rfl
    | (next h => exact snd_profiles h (delete_profiles .milestones hr _ _ _))

theorem profileGet_profiles (env : Env) (hs : List (String × String))
    (w : World) : (profileGet env hs w).2.profiles = w.profiles := by
  unfold profileGet
  repeat' split
  all_goals first
    | rfl
    | (next h => exact snd_profiles h (findOne_profiles _ _ _))

theorem profilePut_profiles (env : Env) (hs : List (String × String)) (req : Request)
    (w : World) : profilesKept w (profilePut env hs req w).2 := by
  unfold profilePut
  simp only
  repeat' split
  all_goals first
    | exact profilesKept_refl w
    | (next h => exact snd_kept h (upsert_profiles env req.body w))

theorem projectsHandler_profiles (env : Env) (req : Request) (w : World) :
    (projectsHandler env req w).world.profiles = w.profiles := by
  have hc := (connect_sameRecords env w).1.2.2.2
  unfold projectsHandler
  simp only
  split_ifs with hopt h1 h2 h3 h4
  · rfl
  · split
    · next h => exact snd_profiles h hc
    · next w0 h =>
      have hc0 := snd_profiles h hc
      have hf := projectsGet_profiles env
        (corsHeaders "GET, POST, PUT, DELETE, OPTIONS") req w0
      split
      · next hg => exact (snd_profiles hg hf).trans hc0
      · next hg =>
        exact (snd_profiles hg hf).trans hc0
  · split
    · next h => exact snd_profiles h hc
    · next w0 h =>
      have hc0 := snd_profiles h hc
      have hf := projectsPost_profiles env
        (corsHeaders "GET, POST, PUT, DELETE, OPTIONS") req w0
      split
      · next hg => exact (snd_profiles hg hf).trans hc0
      · next hg =>
        have hw := (snd_profiles hg hf).trans hc0
        split_ifs <;> exact hw
  · split
    · next h => exact snd_profiles h hc
    · next w0 h =>
      have hc0 := snd_profiles h hc
      have hf := projectsPut_profiles env
        (corsHeaders "GET, POST, PUT, DELETE, OPTIONS") req w0
      split
      · next hg => exact (snd_profiles hg hf).trans hc0
      · next hg =>
        have hw := (snd_profiles hg hf).trans hc0
        split_ifs <;> exact hw
  · split
    · next h => exact snd_profiles h hc
    · next w0 h =>
      have hc0 := snd_profiles h hc
      have hf := projectsDelete_profiles env
        (corsHeaders "GET, POST, PUT, DELETE, OPTIONS") req w0
      split
      · next hg => exact (snd_profiles hg hf).trans hc0
      · next hg =>
        have hw := (snd_profiles hg hf).trans hc0
        split_ifs <;> exact hw
  · split
    · next h => exact snd_profiles h hc
    · next h => exact snd_profiles h hc

theorem venturesHandler_profiles (env : Env) (req : Request) (w : World) :
    (venturesHandler env req w).world.profiles = w.profiles := by
  have hc := (connect_sameRecords env w).1.2.2.2
  unfold venturesHandler
  simp only
  split_ifs with hopt h1 h2 h3 h4
  · rfl
  · split
    · next h => exact snd_profiles h hc
    · next w0 h =>
      have hc0 := snd_profiles h hc
      have hf := venturesGet_profiles env
        (corsHeaders "GET, POST, PUT, DELETE, OPTIONS") req w0
      split
      · next hg => exact (snd_profiles hg hf).trans hc0
      · next hg =>
        exact (snd_profiles hg hf).trans hc0
  · split
    · next h => exact snd_profiles h hc
    · next w0 h =>
      have hc0 := snd_profiles h hc
      have hf := venturesPost_profiles env
        (corsHeaders "GET, POST, PUT, DELETE, OPTIONS") req w0
      split
      · next hg => exact (snd_profiles hg hf).trans hc0
      · next hg =>
        have hw := (snd_profiles hg hf).trans hc0
        split_ifs <;> exact hw
  · split
    · next h => exact snd_profiles h hc
    · next w0 h =>
      have hc0 := snd_profiles h hc
      have hf := venturesPut_profiles env
        (corsHeaders "GET, POST, PUT, DELETE, OPTIONS") req w0
      split
      · next hg => exact (snd_profiles hg hf).trans hc0
      · next hg =>
        have hw := (snd_profiles hg hf).trans hc0
        split_ifs <;> exact hw
  · split
    · next h => exact snd_profiles h hc
    · next w0 h =>
      have hc0 := snd_profiles h hc
      have hf := venturesDelete_profiles env
        (corsHeaders "GET, POST, PUT, DELETE, OPTIONS") req w0
      split
      · next hg => exact (snd_profiles hg hf).trans hc0
      · next hg =>
        have hw := (snd_profiles hg hf).trans hc0
        split_ifs <;> exact hw
  · split
    · next h => exact snd_profiles h hc
    · next h => exact snd_profiles h hc

theorem milestonesHandler_profiles (env : Env) (req : Request) (w : World) :
    (milestonesHandler env req w).world.profiles = w.profiles := by
  have hc := (connect_sameRecords env w).1.2.2.2
  unfold milestonesHandler
  simp only
  split_ifs with hopt h1 h2 h3 h4
  · rfl
  · split
    · next h => exact snd_profiles h hc
    · next w0 h =>
      have hc0 := snd_profiles h hc
      have hf := milestonesGet_profiles env
        (corsHeaders "GET, POST, PUT, DELETE, OPTIONS") req w0
      split
      · next hg => exact (snd_profiles hg hf).trans hc0
      · next hg =>
        exact (snd_profiles hg hf).trans hc0
  · split
    · next h => exact snd_profiles h hc
    · next w0 h =>
      have hc0 := snd_profiles h hc
      have hf := milestonesPost_profiles env
        (corsHeaders "GET, POST, PUT, DELETE, OPTIONS") req w0
      split
      · next hg => exact (snd_profiles hg hf).trans hc0
      · next hg =>
        have hw := (snd_profiles hg hf).trans hc0
        split_ifs <;> exact hw
  · split
    · next h => exact snd_profiles h hc
    · next w0 h =>
      have hc0 := snd_profiles h hc
      have hf := milestonesPut_profiles env
        (corsHeaders "GET, POST, PUT, DELETE, OPTIONS") req w0
      split
      · next hg => exact (snd_profiles hg hf).trans hc0
      · next hg =>
        have hw := (snd_profiles hg hf).trans hc0
        split_ifs <;> exact hw
  · split
    · next h => exact snd_profiles h hc
    · next w0 h =>
      have hc0 := snd_profiles h hc
      have hf := milestonesDelete_profiles env
        (corsHeaders "GET, POST, PUT, DELETE, OPTIONS") req w0
      split
      · next hg => exact (snd_profiles hg hf).trans hc0
      · next hg =>
        have hw := (snd_profiles hg hf).trans hc0
        split_ifs <;> exact hw
  · split
    · next h => exact snd_profiles h hc
    · next h => exact snd_profiles h hc

theorem profileHandler_profiles (env : Env) (req : Request) (w : World) :
    profilesKept w (profileHandler env req w).world := by
  have hc := (connect_sameRecords env w).1.2.2.2
  unfold profileHandler
  simp only
  split_ifs with hopt h1 h2
  · exact profilesKept_refl w
  · split
    · next h => exact profilesKept_of_eq (snd_profiles h hc)
    · next w0 h =>
      have hc0 := snd_profiles h hc
      have hf := profileGet_profiles env (corsHeaders "GET, PUT, OPTIONS") w0
      split
      · next hg => exact profilesKept_of_eq ((snd_profiles hg hf).trans hc0)
      · next hg => exact profilesKept_of_eq ((snd_profiles hg hf).trans hc0)
  · split
    · next h => exact profilesKept_of_eq (snd_profiles h hc)
    · next w0 h =>
      have hc0 : w0.profiles = w.profiles := snd_profiles h hc
      have hf := profilePut_profiles env (corsHeaders "GET, PUT, OPTIONS") req w0
      unfold profilesKept at hf ⊢
      rw [hc0] at hf
      split
      · next hg =>
        rw [hg] at hf
        exact hf
      · next hg =>
        rw [hg] at hf
        split_ifs <;> exact hf
  · split
    · next h => exact profilesKept_of_eq (snd_profiles h hc)
    · next h => exact profilesKept_of_eq (snd_profiles h hc)

theorem handler_profiles (r : Resource) (env : Env) (req : Request) (w : World) :
    profilesKept w (handler r env req w).world := by
  cases r
  · exact profilesKept_of_eq (projectsHandler_profiles env req w)
  · exact profilesKept_of_eq (venturesHandler_profiles env req w)
  · exact profilesKept_of_eq (milestonesHandler_profiles env req w)
  · exact profileHandler_profiles env req w

theorem upsert_ok (env : Env) (body : JsVal) (w : World) (d : Doc)
    (h : (Profile.findOneAndUpdate env body w).1 = .ok d) :
    ∃ upd, castUpdate env profileSchema body.entries = .ok upd ∧
      updateErrors profileSchema upd = [] ∧ env.fault = none ∧
      Profile.findOneAndUpdate env body w =
        (match w.profiles with
          | [] =>
            (.ok ⟨env.newId, setFields (insertDefaults profileSchema upd) upd, env.now,
                env.now⟩,
              Profile.setColl
                [⟨env.newId, setFields (insertDefaults profileSchema upd) upd, env.now,
                  env.now⟩]
                (w.logCall (.findOneAndUpdate "Profile" body true true true)))
          | d0 :: ds =>
            (.ok (applyUpdate env d0 upd),
              Profile.setColl (applyUpdate env d0 upd :: ds)
                (w.logCall (.findOneAndUpdate "Profile" body true true true)))) := by
  unfold Model.findOneAndUpdate at h ⊢
  have hs : Profile.schema = profileSchema := rfl
  have hcl : Profile.coll w = w.profiles := rfl
  have hn : Profile.name = "Profile" := rfl
  simp only [hs, hcl, hn] at h ⊢
  by_cases hobj : body.isObject = true
  · simp only [hobj, Bool.not_true, Bool.false_eq_true, if_false] at h ⊢
    cases hcu : castUpdate env profileSchema body.entries with
    | error e => simp [hcu] at h
    | ok upd =>
      simp only [hcu] at h ⊢
      by_cases hue : updateErrors profileSchema upd = []
      · simp only [hue, ne_eq, not_true_eq_false, if_false] at h ⊢
        cases hf : env.fault with
        | some e => simp [hf] at h
        | none => exact ⟨upd, rfl, hue, rfl, rfl⟩
      · simp [hue] at h
  · simp [hobj] at h

theorem connect_cold_logs (env : Env) (w : World) (hw : ¬ warm w) :
    ∃ cs, (connectToDatabase env w).2.log = w.log ++ .readEnv "MONGODB_URI" :: cs := by
  unfold connectToDatabase
  split
  · next c d hc hd =>
    exact absurd ⟨by simp [hc], by simp [hd]⟩ hw
  · simp only [World.logCall]
    repeat' split
    all_goals
      simp only [List.append_assoc, List.singleton_append]
    all_goals
      exact ⟨_, rfl⟩

/-! ## The connection cache across calls and requests -/

theorem setColl_cache (r : Resource) (ds : List Doc) (w : World) :
    (r.model.setColl ds w).cache = w.cache := by
  cases r <;> rfl

theorem save_cache (r : Resource) (env : Env) (d : Draft) (w : World) :
    (r.model.save env d w).2.cache = w.cache := by
  unfold Model.save
  simp only
  repeat' split
  all_goals first
    | rfl
    | exact setColl_cache r _ _

theorem findById_cache (M : Model) (env : Env) (id : JsVal) (w : World) :
    (M.findById env id w).2.cache = w.cache := by
  unfold Model.findById
  simp only
  repeat' split
  all_goals rfl

theorem findSorted_cache (M : Model) (env : Env) (key : String) (w : World) :
    (M.findSorted env key w).2.cache = w.cache := by
  unfold Model.findSorted
  simp only
  repeat' split
  all_goals rfl

theorem update_cache (r : Resource) (env : Env) (id body : JsVal) (w : World) :
    (r.model.findByIdAndUpdate env id body w).2.cache = w.cache := by
  unfold Model.findByIdAndUpdate
  simp only
  repeat' split
  all_goals first
    | rfl
    | exact setColl_cache r _ _

theorem delete_cache (r : Resource) (env : Env) (id : JsVal) (w : World) :
    (r.model.findByIdAndDelete env id w).2.cache = w.cache := by
  unfold Model.findByIdAndDelete
  simp only
  repeat' split
  all_goals first
    | rfl
    | exact setColl_cache r _ _

theorem findOne_cache (M : Model) (env : Env) (w : World) :
    (M.findOne env w).2.cache = w.cache := by
  unfold Model.findOne
  simp only
  repeat' split
  all_goals rfl

theorem upsert_cache (r : Resource) (env : Env) (body : JsVal) (w : World) :
    (r.model.findOneAndUpdate env body w).2.cache = w.cache := by
  unfold Model.findOneAndUpdate
  simp only
  repeat' split
  all_goals first
    | rfl
    | exact setColl_cache r _ _

theorem snd_cache {α : Type} {p : α × World} {a : α} {w1 w : World} (h : p = (a, w1))
    (hp : p.2.cache = w.cache) : w1.cache = w.cache := by
  subst h
  exact hp

theorem projectsGet_cache (env : Env) (hs : List (String × String)) (req : Request)
    (w : World) : (projectsGet env hs req w).2.cache = w.cache := by
  unfold projectsGet
  simp only
  repeat' split
  all_goals first
    | rfl
    | (next h => exact snd_cache h (findById_cache _ _ _ _))
    | (next h => exact snd_cache h (findSorted_cache _ _ _ _))

theorem projectsPost_cache (env : Env) (hs : List (String × String)) (req : Request)
    (w : World) : (projectsPost env hs req w).2.cache = w.cache := by
  unfold projectsPost
  simp only
  repeat' split
  all_goals first
    | rfl
    | (next h => exact snd_cache h (save_cache .projects _ _ _))

theorem projectsPut_cache (env : Env) (hs : List (String × String)) (req : Request)
    (w : World) : (projectsPut env hs req w).2.cache = w.cache := by
  unfold projectsPut
  simp only
  repeat' split
  all_goals first
    | rfl
    | (next h => exact snd_cache h (update_cache .projects _ _ _ _))

theorem projectsDelete_cache (env : Env) (hs : List (String × String)) (req : Request)
    (w : World) : (projectsDelete env hs req w).2.cache = w.cache := by
  unfold projectsDelete
  simp only
  repeat' split
  all_goals first
    | rfl
    | (next h => exact snd_cache h (delete_cache .projects _ _ _))

theorem venturesGet_cache (env : Env) (hs : List (String × String)) (req : Request)
    (w : World) : (venturesGet env hs req w).2.cache = w.cache := by
  unfold venturesGet
  simp only
  repeat' split
  all_goals first
    | rfl
    | (next h => exact snd_cache h (findById_cache _ _ _ _))
    | (next h => exact snd_cache h (findSorted_cache _ _ _ _))

theorem venturesPost_cache (env : Env) (hs : List (String × String)) (req : Request)
    (w : World) : (venturesPost env hs req w).2.cache = w.cache := by
  unfold venturesPost
  simp only
  repeat' split
  all_goals first
    | rfl
    | (next h => exact snd_cache h (save_cache .ventures _ _ _))

theorem venturesPut_cache (env : Env) (hs : List (String × String)) (req : Request)
    (w : World) : (venturesPut env hs req w).2.cache = w.cache := by
  unfold venturesPut
  simp only
  repeat' split
  all_goals first
    | rfl
    | (next h => exact snd_cache h (update_cache .ventures _ _ _ _))

theorem venturesDelete_cache (env : Env) (hs : List (String × String)) (req : Request)
    (w : World) : (venturesDelete env hs req w).2.cache = w.cache := by
  unfold venturesDelete
  simp only
  repeat' split
  all_goals first
    | rfl
    | (next h => exact snd_cache h (delete_cache .ventures _ _ _))

theorem milestonesGet_cache (env : Env) (hs : List (String × String)) (req : Request)
    (w : World) : (milestonesGet env hs req w).2.cache = w.cache := by
  unfold milestonesGet
  simp only
  repeat' split
  all_goals first
    | rfl
    | (next h => exact snd_cache h (findById_cache _ _ _ _))
    | (next h => exact snd_cache h (findSorted_cache _ _ _ _))

theorem milestonesPost_cache (env : Env) (hs : List (String × String)) (req : Request)
    (w : World) : (milestonesPost env hs req w).2.cache = w.cache := by
  unfold milestonesPost
  simp only
  repeat' split
  all_goals first
    | rfl
    | (next h => exact snd_cache h (save_cache .milestones _ _ _))

theorem milestonesPut_cache (env : Env) (hs : List (String × String)) (req : Request)
    (w : World) : (milestonesPut env hs req w).2.cache = w.cache := by
  unfold milestonesPut
  simp only
  repeat' split
  all_goals first
    | rfl
    | (next h => exact snd_cache h (update_cache .milestones _ _ _ _))

theorem milestonesDelete_cache (env : Env) (hs : List (String × String)) (req : Request)
    (w : World) : (milestonesDelete env hs req w).2.cache = w.cache := by
  unfold milestonesDelete
  simp only
  repeat' split
  all_goals first
    | rfl
    | (next h => exact snd_cache h (delete_cache .milestones _ _ _))

theorem profileGet_cache (env : Env) (hs : List (String × String))
    (w : World) : (profileGet env hs w).2.cache = w.cache := by
  unfold profileGet
  repeat' split
  all_goals first
    | rfl
    | (next h => exact snd_cache h (findOne_cache _ _ _))

theorem profilePut_cache (env : Env) (hs : List (String × String)) (req : Request)
    (w : World) : (profilePut env hs req w).2.cache = w.cache := by
  unfold profilePut
  simp only
  repeat' split
  all_goals first
    | rfl
    | (next h => exact snd_cache h (upsert_cache .profile _ _ _))

theorem projectsHandler_cache (env : Env) (req : Request) (w : World) :
    (projectsHandler env req w).world.cache = w.cache ∨
      (projectsHandler env req w).world.cache = (connectToDatabase env w).2.cache := by
  unfold projectsHandler
  simp only
  split_ifs with hopt h1 h2 h3 h4
  · exact .inl rfl
  · right
    split
    · next w0 h => rw [h]
    · next w0 h =>
      rw [h]
      have hf := projectsGet_cache env (corsHeaders "GET, POST, PUT, DELETE, OPTIONS") req w0
      split
      · next hg => exact snd_cache hg hf
      · next hg =>
        exact snd_cache hg hf
  · right
    split
    · next w0 h => rw [h]
    · next w0 h =>
      rw [h]
      have hf := projectsPost_cache env (corsHeaders "GET, POST, PUT, DELETE, OPTIONS") req w0
      split
      · next hg => exact snd_cache hg hf
      · next hg =>
        split_ifs <;> exact snd_cache hg hf
  · right
    split
    · next w0 h => rw [h]
    · next w0 h =>
      rw [h]
      have hf := projectsPut_cache env (corsHeaders "GET, POST, PUT, DELETE, OPTIONS") req w0
      split
      · next hg => exact snd_cache hg hf
      · next hg =>
        split_ifs <;> exact snd_cache hg hf
  · right
    split
    · next w0 h => rw [h]
    · next w0 h =>
      rw [h]
      have hf := projectsDelete_cache env (corsHeaders "GET, POST, PUT, DELETE, OPTIONS") req w0
      split
      · next hg => exact snd_cache hg hf
      · next hg =>
        split_ifs <;> exact snd_cache hg hf
  · right
    split
    · next w0 h => rw [h]
    · next w0 h => rw [h]

theorem venturesHandler_cache (env : Env) (req : Request) (w : World) :
    (venturesHandler env req w).world.cache = w.cache ∨
      (venturesHandler env req w).world.cache = (connectToDatabase env w).2.cache := by
  unfold venturesHandler
  simp only
  split_ifs with hopt h1 h2 h3 h4
  · exact .inl rfl
  · right
    split
    · next w0 h => rw [h]
    · next w0 h =>
      rw [h]
      have hf := venturesGet_cache env (corsHeaders "GET, POST, PUT, DELETE, OPTIONS") req w0
      split
      · next hg => exact snd_cache hg hf
      · next hg =>
        exact snd_cache hg hf
  · right
    split
    · next w0 h => rw [h]
    · next w0 h =>
      rw [h]
      have hf := venturesPost_cache env (corsHeaders "GET, POST, PUT, DELETE, OPTIONS") req w0
      split
      · next hg => exact snd_cache hg hf
      · next hg =>
        split_ifs <;> exact snd_cache hg hf
  · right
    split
    · next w0 h => rw [h]
    · next w0 h =>
      rw [h]
      have hf := venturesPut_cache env (corsHeaders "GET, POST, PUT, DELETE, OPTIONS") req w0
      split
      · next hg => exact snd_cache hg hf
      · next hg =>
        split_ifs <;> exact snd_cache hg hf
  · right
    split
    · next w0 h => rw [h]
    · next w0 h =>
      rw [h]
      have hf := venturesDelete_cache env (corsHeaders "GET, POST, PUT, DELETE, OPTIONS") req w0
      split
      · next hg => exact snd_cache hg hf
      · next hg =>
        split_ifs <;> exact snd_cache hg hf
  · right
    split
    · next w0 h => rw [h]
    · next w0 h => rw [h]

theorem milestonesHandler_cache (env : Env) (req : Request) (w : World) :
    (milestonesHandler env req w).world.cache = w.cache ∨
      (milestonesHandler env req w).world.cache = (connectToDatabase env w).2.cache := by
  unfold milestonesHandler
  simp only
  split_ifs with hopt h1 h2 h3 h4
  · exact .inl rfl
  · right
    split
    · next w0 h => rw [h]
    · next w0 h =>
      rw [h]
      have hf := milestonesGet_cache env (corsHeaders "GET, POST, PUT, DELETE, OPTIONS") req w0
      split
      · next hg => exact snd_cache hg hf
      · next hg =>
        exact snd_cache hg hf
  · right
    split
    · next w0 h => rw [h]
    · next w0 h =>
      rw [h]
      have hf := milestonesPost_cache env (corsHeaders "GET, POST, PUT, DELETE, OPTIONS") req w0
      split
      · next hg => exact snd_cache hg hf
      · next hg =>
        split_ifs <;> exact snd_cache hg hf
  · right
    split
    · next w0 h => rw [h]
    · next w0 h =>
      rw [h]
      have hf := milestonesPut_cache env (corsHeaders "GET, POST, PUT, DELETE, OPTIONS") req w0
      split
      · next hg => exact snd_cache hg hf
      · next hg =>
        split_ifs <;> exact snd_cache hg hf
  · right
    split
    · next w0 h => rw [h]
    · next w0 h =>
      rw [h]
      have hf := milestonesDelete_cache env (corsHeaders "GET, POST, PUT, DELETE, OPTIONS") req w0
      split
      · next hg => exact snd_cache hg hf
      · next hg =>
        split_ifs <;> exact snd_cache hg hf
  · right
    split
    · next w0 h => rw [h]
    · next w0 h => rw [h]

theorem profileHandler_cache (env : Env) (req : Request) (w : World) :
    (profileHandler env req w).world.cache = w.cache ∨
      (profileHandler env req w).world.cache = (connectToDatabase env w).2.cache := by
  unfold profileHandler
  simp only
  split_ifs with hopt h1 h2
  · exact .inl rfl
  · right
    split
    · next w0 h => rw [h]
    · next w0 h =>
      rw [h]
      have hf := profileGet_cache env (corsHeaders "GET, PUT, OPTIONS") w0
      split
      · next hg => exact snd_cache hg hf
      · next hg =>
        exact snd_cache hg hf
  · right
    split
    · next w0 h => rw [h]
    · next w0 h =>
      rw [h]
      have hf := profilePut_cache env (corsHeaders "GET, PUT, OPTIONS") req w0
      split
      · next hg => exact snd_cache hg hf
      · next hg =>
        split_ifs <;> exact snd_cache hg hf
  · right
    split
    · next w0 h => rw [h]
    · next w0 h => rw [h]

theorem handler_cache (r : Resource) (env : Env) (req : Request) (w : World) :
    (handler r env req w).world.cache = w.cache ∨
      (handler r env req w).world.cache = (connectToDatabase env w).2.cache := by
  cases r
  · exact projectsHandler_cache env req w
  · exact venturesHandler_cache env req w
  · exact milestonesHandler_cache env req w
  · exact profileHandler_cache env req w

theorem str_ne_of_data {a b : String} (h : a.data ≠ b.data) : a ≠ b :=
  fun hab => h (congrArg String.data hab)

theorem warm_iff_cache (w : World) : warm w ↔ ∃ c d, w.cache = (some c, some d) := by
  unfold warm World.cache
  constructor
  · rintro ⟨h1, h2⟩
    cases hc : w.cachedClient with
    | none => simp [hc] at h1
    | some c =>
      cases hd : w.cachedDb with
      | none => simp [hd] at h2
      | some d => exact ⟨c, d, rfl⟩
  · rintro ⟨c, d, h⟩
    simp only [Prod.mk.injEq] at h
    simp [h.1, h.2]

theorem connect_warm_eq (env : Env) (w : World) (c d : String)
    (hc : w.cache = (some c, some d)) : connectToDatabase env w = (.ok (d, c), w) := by
  unfold World.cache at hc
  simp only [Prod.mk.injEq] at hc
  unfold connectToDatabase
  rw [hc.1, hc.2]

theorem connect_ok_cache (env : Env) (w : World) (h : String × String)
    (hok : (connectToDatabase env w).1 = .ok h) :
    (connectToDatabase env w).2.cache = (some h.2, some h.1) := by
  unfold connectToDatabase at hok ⊢
  split at hok
  · next c d hc hd =>
    simp only [Except.ok.injEq] at hok
    subst hok
    simp only [hc, hd, World.cache]
  · cases hu : env.MONGODB_URI with
    | none => simp [hu] at hok
    | some uri =>
      by_cases hne : uri = ""
      · simp [hu, hne] at hok
      · cases hce : env.clientError with
        | some e => simp [hu, hne, hce] at hok
        | none =>
          cases hke : env.connectError with
          | some e => simp [hu, hne, hce, hke] at hok
          | none =>
            simp only [hu, hne, hce, hke, if_false, Except.ok.injEq] at hok ⊢
            subst hok
            rfl

theorem connect_error_world (env : Env) (w : World) (e : JsError)
    (herr : (connectToDatabase env w).1 = .error e) :
    ¬ warm w ∧ (connectToDatabase env w).2.cache = w.cache := by
  constructor
  · intro hw
    obtain ⟨h, hh⟩ := acquired_of_warm env w hw
    rw [hh] at herr
    simp at herr
  · unfold connectToDatabase at herr ⊢
    split at herr
    · simp at herr
    · repeat' split
      all_goals first
        | rfl
        | simp_all

theorem connect_fresh (env : Env) (w : World) (hw : ¬ warm w) (uri : String)
    (huri : env.MONGODB_URI = some uri) (hne : uri ≠ "") (hc : env.clientError = none)
    (hk : env.connectError = none) :
    (connectToDatabase env w).1 = .ok (uri, uri) ∧
      (connectToDatabase env w).2.log =
        w.log ++ [.readEnv "MONGODB_URI", .newMongoClient uri 10 1 60000 5000 45000,
          .clientConnect, .clientDb] := by
  unfold connectToDatabase
  split
  · next c d hc hd =>
    exact absurd ⟨by simp [hc], by simp [hd]⟩ hw
  · simp [huri, hne, hc, hk, World.logCall]

/-! ## The errors of `connectToDatabase` -/

theorem connectionError_cases (e : JsError) :
    (e.name = "MongoServerSelectionError" →
        connectionError e = ⟨"Error", serverSelectionMessage e.message, []⟩) ∧
      (e.name ≠ "MongoServerSelectionError" → e.name = "MongoParseError" →
        connectionError e = ⟨"Error", parseErrorMessage e.message, []⟩) ∧
      (e.name ≠ "MongoServerSelectionError" → e.name ≠ "MongoParseError" →
        includes e.message "authentication" = true →
        connectionError e = ⟨"Error", authenticationMessage e.message, []⟩) ∧
      (e.name ≠ "MongoServerSelectionError" → e.name ≠ "MongoParseError" →
        includes e.message "authentication" = false →
        connectionError e = ⟨"Error", otherConnectionMessage e.message, []⟩) := by
  refine ⟨fun h1 => ?_, fun h1 h2 => ?_, fun h1 h2 h3 => ?_, fun h1 h2 h3 => ?_⟩
  · simp only [connectionError, h1, if_true]
    rfl
  · simp only [connectionError, h1, h2, if_true, if_false]
    rfl
  · simp only [connectionError, h1, h2, h3, if_true, if_false]
    rfl
  · simp only [connectionError, h1, h2, h3, if_false, Bool.false_eq_true]
    rfl

set_option maxRecDepth 8000 in
theorem connection_messages_distinct (m1 m2 : String) :
    serverSelectionMessage m1 ≠ parseErrorMessage m2 ∧
      serverSelectionMessage m1 ≠ authenticationMessage m2 ∧
      serverSelectionMessage m1 ≠ otherConnectionMessage m2 ∧
      parseErrorMessage m1 ≠ authenticationMessage m2 ∧
      parseErrorMessage m1 ≠ otherConnectionMessage m2 ∧
      authenticationMessage m1 ≠ otherConnectionMessage m2 := by
  refine ⟨?_, ?_, ?_, ?_, ?_, ?_⟩
  all_goals
    apply str_ne_of_data
    simp only [serverSelectionMessage, parseErrorMessage, authenticationMessage,
      otherConnectionMessage, String.data_append]
    intro h
    have := congrArg (List.take 9) h
    simp at this

set_option maxRecDepth 8000 in
theorem connection_message_ne_missing (e : JsError) :
    (connectionError e).message ≠ missingUriError.message := by
  apply str_ne_of_data
  unfold connectionError
  split_ifs
  all_goals
    simp only [String.data_append]
    intro h
    have := congrArg (List.take 2) h
    simp [missingUriError] at this

set_option maxRecDepth 8000 in
theorem connection_message_begins (m : String) :
    serverSelectionMessage m =
        "Unable to connect to MongoDB Atlas" ++
          (". Please check: 1) Your connection string is correct, " ++
            "2) Your IP address is whitelisted in MongoDB Atlas, " ++
            "3) Your cluster is running. Original error: " ++ m) ∧
      parseErrorMessage m =
        "Invalid MongoDB connection string format" ++
          (". Please verify your MONGODB_URI environment variable. Original error: " ++ m) ∧
      authenticationMessage m =
        "MongoDB authentication failed" ++
          (". Please verify your username and password. Original error: " ++ m) := by
  refine ⟨?_, ?_, ?_⟩
  all_goals
    apply String.ext
    simp only [serverSelectionMessage, parseErrorMessage, authenticationMessage,
      String.data_append, List.append_assoc]
    rfl

/-! ## Lemmas on casts, bodies and the email pattern -/

theorem castUpdate_error (env : Env) (schema : List SchemaPath) (kvs : List (String × JsVal))
    (e : JsError) (h : castUpdate env schema kvs = .error e) : e.name = "CastError" := by
  induction kvs with
  | nil => simp [castUpdate] at h
  | cons kv rest ih =>
    obtain ⟨k, v⟩ := kv
    unfold castUpdate at h
    split at h
    · exact ih h
    · split at h
      · simp only [Except.error.injEq] at h
        rw [← h]
        rfl
      · split at h
        · next e1 he1 =>
          simp only [Except.error.injEq] at h
          subst h
          exact ih he1
        · simp at h

theorem update_cast_failure (M : Model) (env : Env) (id body : JsVal) (w : World)
    (oid : String) (e : JsError) (hid : castObjectId env id = some oid)
    (hcast : castUpdate env M.schema body.entries = .error e) :
    M.findByIdAndUpdate env id body w =
      (.error e, w.logCall (.findByIdAndUpdate M.name id body true true)) := by
  have hobj : body.isObject = true := by
    cases body <;> first | rfl | simp [JsVal.entries, castUpdate] at hcast
  cases id <;> simp [castObjectId] at hid
  unfold Model.findByIdAndUpdate
  simp only [hobj, Bool.not_true, Bool.false_eq_true, if_false, castObjectId, hid, hcast]

theorem nonEmptyString_iff (v : JsVal) :
    (v.truthy = true ∧ v.typeof = "string") ↔ ∃ t, v = .str t ∧ t ≠ "" := by
  cases v <;> simp [JsVal.truthy, JsVal.typeof]

theorem falsyOrArray_iff (v : JsVal) :
    (v.truthy && !v.isArray) = false ↔ (v.truthy = false ∨ ∃ xs, v = .arr xs) := by
  cases v <;> simp [JsVal.truthy, JsVal.isArray]

theorem undefinedOrBoolean_iff (v : JsVal) :
    (v.isDefined && decide (v.typeof ≠ "boolean")) = false ↔
      (v = .undefined ∨ ∃ f, v = .bool f) := by
  cases v <;> simp [JsVal.isDefined, JsVal.typeof]

theorem projectChecks_iff (env : Env) (b : JsVal) :
    postChecks env .projects b = true ↔ projectCreateAccepted b := by
  unfold projectCreateAccepted
  rw [← nonEmptyString_iff, ← nonEmptyString_iff, ← falsyOrArray_iff,
    ← undefinedOrBoolean_iff]
  simp only [postChecks, Bool.and_eq_true, Bool.not_eq_eq_eq_not, Bool.not_true,
    decide_eq_true_eq]
  tauto

theorem absent_not_accepted (b : JsVal) (hb : b = .undefined ∨ b = .null) :
    ¬ projectCreateAccepted b := by
  rintro ⟨⟨t, ht, -⟩, -⟩
  rcases hb with hb | hb <;> simp [hb, JsVal.prop] at ht

theorem projects_post_rejected (env : Env) (req : Request) (w : World)
    (h : String × String) (w0 : World) (hm : req.method = "POST")
    (hconn : connectToDatabase env w = (.ok h, w0))
    (hrej : ¬ projectCreateAccepted req.body) :
    (handler .projects env req w).world = w0 := by
  by_cases hb : bodyPresent req
  · have hread := readProp_present req hb
    rw [← projectChecks_iff env] at hrej
    simp only [postChecks, Bool.and_eq_true, Bool.not_eq_eq_eq_not, Bool.not_true,
      decide_eq_true_eq] at hrej
    simp only [handler, projectsHandler, hm, hconn, projectsPost, hread]
    simp only [reduceCtorEq, String.reduceEq, if_false, if_true]
    split_ifs with c1 c2 c3 c4
    · rfl
    · rfl
    · rfl
    · rfl
    · exfalso
      apply hrej
      simp only [Bool.or_eq_true, Bool.not_eq_eq_eq_not, Bool.not_true, decide_eq_true_eq,
        not_or, Bool.not_eq_false, Bool.and_eq_true, not_and, ne_eq, Decidable.not_not]
        at c1 c2 c3 c4
      simp [c1, c2]
      constructor
      · simpa using c3
      · simpa using c4
  · have hb2 : req.body = .undefined ∨ req.body = .null := by
      unfold bodyPresent at hb
      by_cases h1 : req.body = .undefined
      · exact .inl h1
      · by_cases h2 : req.body = .null
        · exact .inr h2
        · exact absurd ⟨h1, h2⟩ hb
    rcases hb2 with hb2 | hb2 <;>
      simp [handler, projectsHandler, hm, hconn, projectsPost, hb2, readProp]

theorem save_storageCalls (r : Resource) (env : Env) (d : Draft) (w : World) :
    (r.model.save env d w).2.storageCalls =
      w.storageCalls ++ [.save r.model.name d.source] := by
  have hl : (w.logCall (.save r.model.name d.source)).storageCalls =
      w.storageCalls ++ [.save r.model.name d.source] := by
    rw [storageCalls_logCall]
    rfl
  unfold Model.save
  simp only
  repeat' split
  all_goals first
    | exact hl
    | (rw [storageCalls_setColl]; exact hl)

theorem afterSave_world (r : Resource) (result : Except JsError Doc × World) :
    (afterSave r result).world = result.2 := by
  unfold afterSave
  repeat' split
  all_goals rfl

theorem afterUpdate_world (r : Resource) (result : Except JsError (Option Doc) × World) :
    (afterUpdate r result).world = result.2 := by
  unfold afterUpdate
  repeat' split
  all_goals rfl

theorem afterUpsert_world (result : Except JsError Doc × World) :
    (afterUpsert result).world = result.2 := by
  unfold afterUpsert
  repeat' split
  all_goals rfl

theorem upsert_storageCalls (r : Resource) (env : Env) (body : JsVal) (w : World) :
    (r.model.findOneAndUpdate env body w).2.storageCalls =
      w.storageCalls ++ [.findOneAndUpdate r.model.name body true true true] := by
  have hl : (w.logCall (.findOneAndUpdate r.model.name body true true true)).storageCalls =
      w.storageCalls ++ [.findOneAndUpdate r.model.name body true true true] := by
    rw [storageCalls_logCall]
    rfl
  unfold Model.findOneAndUpdate
  simp only
  repeat' split
  all_goals first
    | exact hl
    | (rw [storageCalls_setColl]; exact hl)

theorem checks_agree (env : Env) (b1 b2 : JsVal)
    (h : agreeOutside ["_id", "createdAt", "updatedAt"] b1 b2) (r : Resource) :
    postChecks env r b1 = postChecks env r b2 ∧ putChecks env r b1 = putChecks env r b2 ∧
      profileChecks b1 = profileChecks b2 := by
  have h1 := h "title" (by decide)
  have h2 := h "description" (by decide)
  have h3 := h "technologies" (by decide)
  have h4 := h "featured" (by decide)
  have h5 := h "type" (by decide)
  have h6 := h "date" (by decide)
  have h7 := h "name" (by decide)
  have h8 := h "email" (by decide)
  have h9 := h "skills" (by decide)
  cases r <;> simp only [postChecks, putChecks, profileChecks, h1, h2, h3, h4, h5, h6, h7, h8,
    h9, and_self]

theorem append_singleton_ne {α : Type} (l : List α) {a b : α} (h : a ≠ b) :
    l ++ [a] ≠ l ++ [b] := by
  intro he
  have := List.append_cancel_left he
  simp only [List.cons.injEq, and_true] at this
  exact h this

theorem ownId_agree :
    agreeOutside ["_id", "createdAt", "updatedAt"] postProjectOwnId.body
      postProjectOtherId.body := by
  intro k hk
  simp only [List.mem_cons, List.mem_singleton, List.not_mem_nil, or_false, not_or] at hk
  have h1 : (k == "_id") = false := by simpa using hk.1
  by_cases ht : k = "title"
  · subst ht
    rfl
  · by_cases hd : k = "description"
    · subst hd
      rfl
    · have h2 : (k == "title") = false := by simpa using ht
      have h3 : (k == "description") = false := by simpa using hd
      simp [postProjectOwnId, postProjectOtherId, JsVal.prop, List.lookup, h1, h2, h3]

theorem emailRun_iff (l : List Char) : emailRun l = true ↔ runOk l := by
  unfold emailRun runOk emailChar
  simp only [Bool.and_eq_true, Bool.not_eq_eq_eq_not, Bool.not_true, List.isEmpty_eq_false,
    List.all_eq_true, bne_iff_ne, ne_eq]

theorem takeWhile_split {p : Char → Bool} (l : List Char) (a : Char) (rest : List Char)
    (hl : ∀ c ∈ l, p c = true) (ha : p a = false) :
    (l ++ a :: rest).takeWhile p = l ∧ (l ++ a :: rest).dropWhile p = a :: rest := by
  induction l with
  | nil => simp [List.takeWhile, List.dropWhile, ha]
  | cons x xs ih =>
    have hx : p x = true := hl x (List.mem_cons_self _ _)
    have ih2 := ih (fun c hc => hl c (List.mem_cons_of_mem _ hc))
    simp [List.takeWhile, List.dropWhile, hx, ih2.1, ih2.2]

theorem dropWhile_head {p : Char → Bool} (l : List Char) :
    l.dropWhile p = [] ∨ ∃ a rest, l.dropWhile p = a :: rest ∧ p a = false := by
  induction l with
  | nil => exact .inl rfl
  | cons x xs ih =>
    by_cases hx : p x = true
    · simpa [List.dropWhile, hx] using ih
    · right
      have hx2 : p x = false := by simpa using hx
      exact ⟨x, xs, by simp [List.dropWhile, hx2], hx2⟩

theorem split_of_regex (cs : List Char) (i j : Nat) (hij : i < j)
    (hi : cs.get? i = some '@') (hj : cs.get? j = some '.') :
    cs = cs.take i ++ '@' :: ((cs.take j).drop (i + 1) ++ '.' :: cs.drop (j + 1)) := by
  have h1 : cs.drop i = '@' :: cs.drop (i + 1) := by
    rw [List.get?_eq_getElem?] at hi
    obtain ⟨hlt, hget⟩ := List.getElem?_eq_some_iff.1 hi
    rw [List.drop_eq_getElem_cons hlt, hget]
  have h2 : cs.drop j = '.' :: cs.drop (j + 1) := by
    rw [List.get?_eq_getElem?] at hj
    obtain ⟨hlt, hget⟩ := List.getElem?_eq_some_iff.1 hj
    rw [List.drop_eq_getElem_cons hlt, hget]
  have h3 : cs.drop (i + 1) = (cs.take j).drop (i + 1) ++ cs.drop j := by
    conv_lhs => rw [← List.take_append_drop j cs]
    rw [List.drop_append_of_le_length]
    rw [List.length_take]
    have hjlt : j < cs.length := by
      rw [List.get?_eq_getElem?] at hj
      exact (List.getElem?_eq_some_iff.1 hj).1
    omega
  conv_lhs => rw [← List.take_append_drop i cs, h1, h3, h2]

theorem regex_iff_split (s : String) : emailRegexTest s = true ↔ emailSplit s.toList := by
  unfold emailRegexTest emailSplit
  simp only [List.any_eq_true, List.mem_range, Bool.and_eq_true, decide_eq_true_eq,
    beq_iff_eq, emailRun_iff]
  constructor
  · rintro ⟨i, -, j, -, ⟨⟨⟨⟨hij, hi⟩, hj⟩, hl⟩, hm⟩, ht⟩
    exact ⟨_, _, _, split_of_regex s.toList i j hij hi hj, hl, hm, ht⟩
  · rintro ⟨l, m, t, hcs, hl, hm, ht⟩
    have hlen : s.toList.length = l.length + 1 + (m.length + 1 + t.length) := by
      rw [hcs]
      simp only [List.length_append, List.length_cons]
      omega
    refine ⟨l.length, by omega, l.length + 1 + m.length, by omega, ?_⟩
    rw [hcs]
    refine ⟨⟨⟨⟨⟨by omega, ?_⟩, ?_⟩, ?_⟩, ?_⟩, ?_⟩
    · rw [List.get?_eq_getElem?, List.getElem?_append_right (by omega)]
      simp
    · rw [List.get?_eq_getElem?, List.getElem?_append_right (by omega)]
      have : l.length + 1 + m.length - l.length = m.length + 1 := by omega
      rw [this, List.getElem?_cons_succ, List.getElem?_append_right (by omega)]
      simp
    · simpa using hl
    · have h1 : List.take (l.length + 1 + m.length) (l ++ '@' :: (m ++ '.' :: t)) =
          l ++ '@' :: m := by
        rw [List.take_append_eq_append_take]
        have : l.length + 1 + m.length - l.length = m.length + 1 := by omega
        rw [this, List.take_of_length_le (by omega), List.take_succ_cons,
          List.take_left']
        rfl
      rw [h1, List.drop_append_eq_append_drop]
      have : l.length + 1 - l.length = 1 := by omega
      rw [this, List.drop_of_length_le (by omega)]
      simpa using hm
    · have h2 : List.drop (l.length + 1 + m.length + 1) (l ++ '@' :: (m ++ '.' :: t)) = t := by
        rw [List.drop_append_eq_append_drop, List.drop_of_length_le (by omega)]
        have : l.length + 1 + m.length + 1 - l.length = (m.length + 1) + 1 := by omega
        rw [this, List.nil_append, List.drop_succ_cons, List.drop_append_eq_append_drop,
          List.drop_of_length_le (by omega)]
        have : m.length + 1 - m.length = 1 := by omega
        rw [this]
        rfl
      rw [h2]
      exact ht

theorem split_iff_wellFormed (s : String) : emailSplit s.toList ↔ emailWellFormed s := by
  unfold emailSplit emailWellFormed
  generalize s.toList = cs
  constructor
  · rintro ⟨l, m, t, rfl, hl, hm, ht⟩
    have hp : ∀ c ∈ l, (fun c : Char => c != '@') c = true :=
      fun c hc => by simpa using (hl.2 c hc).2
    obtain ⟨htw, hdw⟩ := takeWhile_split (p := fun c : Char => c != '@') l '@'
      (m ++ '.' :: t) hp (by decide)
    refine ⟨?_, ?_, ?_, ?_⟩
    · intro c hc
      simp only [List.mem_append, List.mem_cons] at hc
      rcases hc with hc | rfl | hc | rfl | hc
      · exact (hl.2 c hc).1
      · decide
      · exact (hm.2 c hc).1
      · decide
      · exact (ht.2 c hc).1
    · have c0 : ∀ x : List Char, runOk x → x.count '@' = 0 :=
        fun x hx => List.count_eq_zero.2 (fun hmem => (hx.2 _ hmem).2 rfl)
      simp [List.count_append, List.count_cons, c0 l hl, c0 m hm, c0 t ht]
    · rw [htw]
      exact hl.1
    · rw [hdw]
      have hm0 := List.length_pos.2 hm.1
      have ht0 := List.length_pos.2 ht.1
      refine ⟨m.length, hm0, ?_, ?_⟩
      · simp only [List.drop_succ_cons, List.drop_zero, List.length_append, List.length_cons]
        omega
      · simp only [List.drop_succ_cons, List.drop_zero]
        rw [List.get?_eq_getElem?, List.getElem?_append_right (le_refl _)]
        simp
  · rintro ⟨hws, hcount, hlocal, k, hk0, hk1, hk⟩
    rcases dropWhile_head (p := fun c : Char => c != '@') cs with hnil | ⟨a, rest, hdw, ha⟩
    · rw [hnil] at hk1
      simp at hk1
    · have ha2 : a = '@' := by simpa using ha
      subst ha2
      rw [hdw] at hk hk1
      simp only [List.drop_succ_cons, List.drop_zero] at hk hk1
      have hcs : cs = cs.takeWhile (fun c : Char => c != '@') ++ '@' :: rest := by
        rw [← hdw]
        exact (List.takeWhile_append_dropWhile _ cs).symm
      have hrest : rest = rest.take k ++ '.' :: rest.drop (k + 1) := by
        rw [List.get?_eq_getElem?] at hk
        obtain ⟨hlt, hget⟩ := List.getElem?_eq_some_iff.1 hk
        conv_lhs => rw [← List.take_append_drop k rest, List.drop_eq_getElem_cons hlt, hget]
      have hl2 : ∀ c ∈ cs.takeWhile (fun c : Char => c != '@'), c ≠ '@' := by
        intro c hc
        simpa using List.mem_takeWhile_imp hc
      have hcr : rest.count '@' = 0 := by
        rw [hcs, List.count_append, List.count_cons] at hcount
        simp only [beq_self_eq_true, if_true] at hcount
        omega
      have hr2 : ∀ c ∈ rest, c ≠ '@' := by
        intro c hc hce
        subst hce
        exact (List.count_eq_zero.1 hcr) hc
      have hsub : ∀ c ∈ rest, c ∈ cs := by
        intro c hc
        rw [hcs]
        simp [hc]
      refine ⟨cs.takeWhile (fun c : Char => c != '@'), rest.take k, rest.drop (k + 1), ?_,
        ⟨hlocal, ?_⟩, ⟨?_, ?_⟩, ⟨?_, ?_⟩⟩
      · rw [← hrest]
        exact hcs
      · intro c hc
        exact ⟨hws c ((List.takeWhile_sublist _).subset hc), hl2 c hc⟩
      · intro h
        have := congrArg List.length h
        rw [List.length_take] at this
        simp only [List.length_nil] at this
        omega
      · intro c hc
        have hc2 := List.mem_of_mem_take hc
        exact ⟨hws c (hsub c hc2), hr2 c hc2⟩
      · intro h
        have := congrArg List.length h
        rw [List.length_drop] at this
        simp only [List.length_nil] at this
        omega
      · intro c hc
        have hc2 := List.mem_of_mem_drop hc
        exact ⟨hws c (hsub c hc2), hr2 c hc2⟩

theorem emailRegexTest_iff (s : String) : emailRegexTest s = true ↔ emailWellFormed s :=
  (regex_iff_split s).trans (split_iff_wellFormed s)

theorem profile_put_email (env : Env) (req : Request) (w : World) (h : String × String)
    (w0 : World) (hm : req.method = "PUT")
    (hconn : connectToDatabase env w = (.ok h, w0)) (hb : bodyPresent req)
    (hn : ∃ n, req.body.prop "name" = .str n ∧ n ≠ "")
    (ht : ∃ t, req.body.prop "title" = .str t ∧ t ≠ "") :
    handler .profile env req w =
      if (req.body.prop "email").truthy && !emailRegexTest (req.body.prop "email").toStr then
        ⟨json (corsHeaders "GET, PUT, OPTIONS") 400 (failure "Invalid email format"), w0⟩
      else if (req.body.prop "skills").truthy && !(req.body.prop "skills").isArray then
        ⟨json (corsHeaders "GET, PUT, OPTIONS") 400
          (failure "Invalid data type: skills must be an array"), w0⟩
      else afterUpsert (Profile.findOneAndUpdate env req.body w0) := by
  have hread := readProp_present req hb
  obtain ⟨n1, n2⟩ := (nonEmptyString_iff _).2 hn
  obtain ⟨t1, t2⟩ := (nonEmptyString_iff _).2 ht
  simp only [handler, profileHandler, hm, hconn, profilePut, hread, n1, n2, t1, t2,
    afterUpsert]
  simp only [reduceCtorEq, String.reduceEq, if_false, if_true, Bool.not_true, Bool.or_self,
    Bool.false_eq_true, ne_eq, not_true_eq_false, decide_False]
  split_ifs
  · rfl
  · rfl
  · rcases Profile.findOneAndUpdate env req.body w0 with ⟨res, w1⟩
    cases res <;> simp

theorem afterUpsert_body (result : Except JsError Doc × World) :
    (afterUpsert result).res.body ≠ some (failure "Invalid email format") := by
  unfold afterUpsert
  repeat' split
  all_goals
    simp [json, failure, validationFailure]

/-! ## Two runs that differ in the detail of an error -/

theorem sameKind_refl (e : JsError) : sameKind e e := ⟨rfl, fun _ => rfl⟩

theorem alike_refl {α : Type} (r : Except JsError α × World) : alike r r := by
  unfold alike
  rcases r with ⟨a | a, w⟩
  · exact sameKind_refl a
  · rfl

theorem dateOf_core {env1 env2 : Env} (h : sameButDetail env1 env2) (v : JsVal) :
    dateOf env1 v = dateOf env2 v := by
  cases v <;> simp [dateOf, h.dateParse]

theorem invalidDate_core {env1 env2 : Env} (h : sameButDetail env1 env2) (v : JsVal) :
    invalidDate env1 v = invalidDate env2 v := by
  unfold invalidDate
  rw [dateOf_core h]

theorem castDate_core {env1 env2 : Env} (h : sameButDetail env1 env2) (v : JsVal) :
    castDate env1 v = castDate env2 v := by
  cases v <;> simp [castDate, dateOf_core h, h.dateParse]

theorem castPath_core {env1 env2 : Env} (h : sameButDetail env1 env2) (t : SType)
    (v : JsVal) : castPath env1 t v = castPath env2 t v := by
  cases t <;> cases v <;> simp [castPath, castDate_core h]

theorem castObjectId_core {env1 env2 : Env} (h : sameButDetail env1 env2) (v : JsVal) :
    castObjectId env1 v = castObjectId env2 v := by
  cases v <;> simp [castObjectId, h.parseObjectId]

theorem castIds_core {env1 env2 : Env} (h : sameButDetail env1 env2) (vs : List JsVal) :
    castIds env1 vs = castIds env2 vs := by
  induction vs with
  | nil => rfl
  | cons v vs ih => simp only [castIds, ih, castObjectId_core h]

theorem castFields_core {env1 env2 : Env} (h : sameButDetail env1 env2)
    (schema : List SchemaPath) (data : JsVal) :
    castFields env1 schema data = castFields env2 schema data := by
  induction schema with
  | nil => rfl
  | cons p ps ih => simp only [castFields, ih, castPath_core h]

theorem construct_core {env1 env2 : Env} (h : sameButDetail env1 env2) (M : Model)
    (data : JsVal) : M.construct env1 data = M.construct env2 data := by
  simp only [Model.construct, draftId, draftCreated, castFields_core h, castObjectId_core h,
    castDate_core h, h.newId, h.now]

theorem castUpdate_core {env1 env2 : Env} (h : sameButDetail env1 env2)
    (schema : List SchemaPath) (kvs : List (String × JsVal)) :
    castUpdate env1 schema kvs = castUpdate env2 schema kvs := by
  induction kvs with
  | nil => rfl
  | cons kv rest ih =>
    obtain ⟨k, v⟩ := kv
    simp only [castUpdate, ih, castPath_core h]

theorem applyUpdate_core {env1 env2 : Env} (h : sameButDetail env1 env2) (d : Doc)
    (upd : List (String × FieldVal)) : applyUpdate env1 d upd = applyUpdate env2 d upd := by
  simp only [applyUpdate, h.now]

theorem alike_error {α : Type} {e1 e2 : JsError} {w1 w2 : World} (h : sameKind e1 e2) :
    alike ((.error e1, w1) : Except JsError α × World) (.error e2, w2) := h

theorem alike_ok {α : Type} (a : α) (w1 w2 : World) :
    alike ((.ok a, w1) : Except JsError α × World) (.ok a, w2) := rfl

theorem save_alike {env1 env2 : Env} (h : sameButDetail env1 env2) (M : Model)
    (data : JsVal) (w : World) :
    alike (M.save env1 (M.construct env1 data) w) (M.save env2 (M.construct env2 data) w) := by
  have hf := h.fault
  rw [construct_core h]
  unfold Model.save
  simp only
  rcases hf1 : env1.fault with _ | e1 <;> rcases hf2 : env2.fault with _ | e2 <;>
    rw [hf1, hf2] at hf
  · exact alike_refl _
  · exact absurd hf (by simp [faultAlike])
  · exact absurd hf (by simp [faultAlike])
  · simp only
    split_ifs
    · exact alike_refl _
    · exact alike_error hf

theorem findById_alike {env1 env2 : Env} (h : sameButDetail env1 env2) (M : Model)
    (id : JsVal) (w : World) : alike (M.findById env1 id w) (M.findById env2 id w) := by
  have hf := h.fault
  unfold Model.findById
  simp only [castObjectId_core h, castIds_core h]
  rcases hf1 : env1.fault with _ | e1 <;> rcases hf2 : env2.fault with _ | e2 <;>
    rw [hf1, hf2] at hf
  · exact alike_refl _
  · exact absurd hf (by simp [faultAlike])
  · exact absurd hf (by simp [faultAlike])
  · simp only
    repeat' split
    all_goals first
      | exact alike_refl _
      | exact alike_error hf

theorem findSorted_alike {env1 env2 : Env} (h : sameButDetail env1 env2) (M : Model)
    (key : String) (w : World) :
    alike (M.findSorted env1 key w) (M.findSorted env2 key w) := by
  have hf := h.fault
  unfold Model.findSorted
  simp only
  rcases hf1 : env1.fault with _ | e1 <;> rcases hf2 : env2.fault with _ | e2 <;>
    rw [hf1, hf2] at hf
  · exact alike_refl _
  · exact absurd hf (by simp [faultAlike])
  · exact absurd hf (by simp [faultAlike])
  · exact alike_error hf

theorem update_alike {env1 env2 : Env} (h : sameButDetail env1 env2) (M : Model)
    (id body : JsVal) (w : World) :
    alike (M.findByIdAndUpdate env1 id body w) (M.findByIdAndUpdate env2 id body w) := by
  have hf := h.fault
  unfold Model.findByIdAndUpdate
  simp only [castObjectId_core h, castIds_core h, castUpdate_core h, applyUpdate_core h]
  rcases hf1 : env1.fault with _ | e1 <;> rcases hf2 : env2.fault with _ | e2 <;>
    rw [hf1, hf2] at hf
  · exact alike_refl _
  · exact absurd hf (by simp [faultAlike])
  · exact absurd hf (by simp [faultAlike])
  · simp only
    repeat' split
    all_goals first
      | exact alike_refl _
      | exact alike_error hf

theorem delete_alike {env1 env2 : Env} (h : sameButDetail env1 env2) (M : Model)
    (id : JsVal) (w : World) :
    alike (M.findByIdAndDelete env1 id w) (M.findByIdAndDelete env2 id w) := by
  have hf := h.fault
  unfold Model.findByIdAndDelete
  simp only [castObjectId_core h, castIds_core h]
  rcases hf1 : env1.fault with _ | e1 <;> rcases hf2 : env2.fault with _ | e2 <;>
    rw [hf1, hf2] at hf
  · exact alike_refl _
  · exact absurd hf (by simp [faultAlike])
  · exact absurd hf (by simp [faultAlike])
  · simp only
    repeat' split
    all_goals first
      | exact alike_refl _
      | exact alike_error hf

theorem findOne_alike {env1 env2 : Env} (h : sameButDetail env1 env2) (M : Model)
    (w : World) : alike (M.findOne env1 w) (M.findOne env2 w) := by
  have hf := h.fault
  unfold Model.findOne
  simp only
  rcases hf1 : env1.fault with _ | e1 <;> rcases hf2 : env2.fault with _ | e2 <;>
    rw [hf1, hf2] at hf
  · exact alike_refl _
  · exact absurd hf (by simp [faultAlike])
  · exact absurd hf (by simp [faultAlike])
  · exact alike_error hf

theorem upsert_alike {env1 env2 : Env} (h : sameButDetail env1 env2) (M : Model)
    (body : JsVal) (w : World) :
    alike (M.findOneAndUpdate env1 body w) (M.findOneAndUpdate env2 body w) := by
  have hf := h.fault
  unfold Model.findOneAndUpdate
  simp only [castUpdate_core h, applyUpdate_core h, h.newId, h.now]
  rcases hf1 : env1.fault with _ | e1 <;> rcases hf2 : env2.fault with _ | e2 <;>
    rw [hf1, hf2] at hf
  · exact alike_refl _
  · exact absurd hf (by simp [faultAlike])
  · exact absurd hf (by simp [faultAlike])
  · simp only
    repeat' split
    all_goals first
      | exact alike_refl _
      | exact alike_error hf

theorem projectsGet_alike {env1 env2 : Env} (h : sameButDetail env1 env2)
    (hs : List (String × String)) (req : Request) (w : World) :
    alike (projectsGet env1 hs req w) (projectsGet env2 hs req w) := by
  have a1 := findById_alike h Project req.id w
  have a2 := findSorted_alike h Project "createdAt" w
  unfold projectsGet
  simp only
  split_ifs
  · revert a1
    generalize Project.findById env1 req.id w = x1
    generalize Project.findById env2 req.id w = x2
    intro a1
    rcases x1 with ⟨(e1 | r1), v1⟩ <;> rcases x2 with ⟨(e2 | r2), v2⟩
    · exact a1
    · exact a1.elim
    · exact a1.elim
    · have hr : r1 = r2 := a1
      subst hr
      first | rfl | (cases r1 <;> rfl)
  · revert a2
    generalize Project.findSorted env1 "createdAt" w = x1
    generalize Project.findSorted env2 "createdAt" w = x2
    intro a2
    rcases x1 with ⟨(e1 | r1), v1⟩ <;> rcases x2 with ⟨(e2 | r2), v2⟩
    · exact a2
    · exact a2.elim
    · exact a2.elim
    · have hr : r1 = r2 := a2
      subst hr
      rfl

theorem projectsPost_alike {env1 env2 : Env} (h : sameButDetail env1 env2)
    (hs : List (String × String)) (req : Request) (w : World) :
    alike (projectsPost env1 hs req w) (projectsPost env2 hs req w) := by
  have a1 := save_alike h Project req.body w
  unfold projectsPost
  simp only [invalidDate_core h]
  rcases hrp : readProp req.body "title" with e | v
  · exact alike_refl _
  · simp only
    split_ifs
    all_goals first
      | exact alike_refl _
      | skip
    revert a1
    generalize Project.save env1 (Project.construct env1 req.body) w = x1
    generalize Project.save env2 (Project.construct env2 req.body) w = x2
    intro a1
    rcases x1 with ⟨(e1 | r1), v1⟩ <;> rcases x2 with ⟨(e2 | r2), v2⟩
    · exact a1
    · exact a1.elim
    · exact a1.elim
    · have hr : r1 = r2 := a1
      subst hr
      rfl

theorem projectsPut_alike {env1 env2 : Env} (h : sameButDetail env1 env2)
    (hs : List (String × String)) (req : Request) (w : World) :
    alike (projectsPut env1 hs req w) (projectsPut env2 hs req w) := by
  have a1 := update_alike h Project req.id req.body w
  unfold projectsPut
  simp only [invalidDate_core h]
  rcases hrp : readProp req.body "title" with e | v
  · simp only
    split_ifs <;> exact alike_refl _
  · simp only
    split_ifs
    all_goals first
      | exact alike_refl _
      | skip
    revert a1
    generalize Project.findByIdAndUpdate env1 req.id req.body w = x1
    generalize Project.findByIdAndUpdate env2 req.id req.body w = x2
    intro a1
    rcases x1 with ⟨(e1 | r1), v1⟩ <;> rcases x2 with ⟨(e2 | r2), v2⟩
    · exact a1
    · exact a1.elim
    · exact a1.elim
    · have hr : r1 = r2 := a1
      subst hr
      first | rfl | (cases r1 <;> rfl)

theorem projectsDelete_alike {env1 env2 : Env} (h : sameButDetail env1 env2)
    (hs : List (String × String)) (req : Request) (w : World) :
    alike (projectsDelete env1 hs req w) (projectsDelete env2 hs req w) := by
  have a1 := delete_alike h Project req.id w
  unfold projectsDelete
  simp only
  split_ifs
  · exact alike_refl _
  · revert a1
    generalize Project.findByIdAndDelete env1 req.id w = x1
    generalize Project.findByIdAndDelete env2 req.id w = x2
    intro a1
    rcases x1 with ⟨(e1 | r1), v1⟩ <;> rcases x2 with ⟨(e2 | r2), v2⟩
    · exact a1
    · exact a1.elim
    · exact a1.elim
    · have hr : r1 = r2 := a1
      subst hr
      first | rfl | (cases r1 <;> rfl)

theorem venturesGet_alike {env1 env2 : Env} (h : sameButDetail env1 env2)
    (hs : List (String × String)) (req : Request) (w : World) :
    alike (venturesGet env1 hs req w) (venturesGet env2 hs req w) := by
  have a1 := findById_alike h Venture req.id w
  have a2 := findSorted_alike h Venture "createdAt" w
  unfold venturesGet
  simp only
  split_ifs
  · revert a1
    generalize Venture.findById env1 req.id w = x1
    generalize Venture.findById env2 req.id w = x2
    intro a1
    rcases x1 with ⟨(e1 | r1), v1⟩ <;> rcases x2 with ⟨(e2 | r2), v2⟩
    · exact a1
    · exact a1.elim
    · exact a1.elim
    · have hr : r1 = r2 := a1
      subst hr
      first | rfl | (cases r1 <;> rfl)
  · revert a2
    generalize Venture.findSorted env1 "createdAt" w = x1
    generalize Venture.findSorted env2 "createdAt" w = x2
    intro a2
    rcases x1 with ⟨(e1 | r1), v1⟩ <;> rcases x2 with ⟨(e2 | r2), v2⟩
    · exact a2
    · exact a2.elim
    · exact a2.elim
    · have hr : r1 = r2 := a2
      subst hr
      rfl

theorem venturesPost_alike {env1 env2 : Env} (h : sameButDetail env1 env2)
    (hs : List (String × String)) (req : Request) (w : World) :
    alike (venturesPost env1 hs req w) (venturesPost env2 hs req w) := by
  have a1 := save_alike h Venture req.body w
  unfold venturesPost
  simp only [invalidDate_core h]
  rcases hrp : readProp req.body "title" with e | v
  · exact alike_refl _
  · simp only
    split_ifs
    all_goals first
      | exact alike_refl _
      | skip
    revert a1
    generalize Venture.save env1 (Venture.construct env1 req.body) w = x1
    generalize Venture.save env2 (Venture.construct env2 req.body) w = x2
    intro a1
    rcases x1 with ⟨(e1 | r1), v1⟩ <;> rcases x2 with ⟨(e2 | r2), v2⟩
    · exact a1
    · exact a1.elim
    · exact a1.elim
    · have hr : r1 = r2 := a1
      subst hr
      rfl

theorem venturesPut_alike {env1 env2 : Env} (h : sameButDetail env1 env2)
    (hs : List (String × String)) (req : Request) (w : World) :
    alike (venturesPut env1 hs req w) (venturesPut env2 hs req w) := by
  have a1 := update_alike h Venture req.id req.body w
  unfold venturesPut
  simp only [invalidDate_core h]
  rcases hrp : readProp req.body "title" with e | v
  · simp only
    split_ifs <;> exact alike_refl _
  · simp only
    split_ifs
    all_goals first
      | exact alike_refl _
      | skip
    revert a1
    generalize Venture.findByIdAndUpdate env1 req.id req.body w = x1
    generalize Venture.findByIdAndUpdate env2 req.id req.body w = x2
    intro a1
    rcases x1 with ⟨(e1 | r1), v1⟩ <;> rcases x2 with ⟨(e2 | r2), v2⟩
    · exact a1
    · exact a1.elim
    · exact a1.elim
    · have hr : r1 = r2 := a1
      subst hr
      first | rfl | (cases r1 <;> rfl)

theorem venturesDelete_alike {env1 env2 : Env} (h : sameButDetail env1 env2)
    (hs : List (String × String)) (req : Request) (w : World) :
    alike (venturesDelete env1 hs req w) (venturesDelete env2 hs req w) := by
  have a1 := delete_alike h Venture req.id w
  unfold venturesDelete
  simp only
  split_ifs
  · exact alike_refl _
  · revert a1
    generalize Venture.findByIdAndDelete env1 req.id w = x1
    generalize Venture.findByIdAndDelete env2 req.id w = x2
    intro a1
    rcases x1 with ⟨(e1 | r1), v1⟩ <;> rcases x2 with ⟨(e2 | r2), v2⟩
    · exact a1
    · exact a1.elim
    · exact a1.elim
    · have hr : r1 = r2 := a1
      subst hr
      first | rfl | (cases r1 <;> rfl)

theorem milestonesGet_alike {env1 env2 : Env} (h : sameButDetail env1 env2)
    (hs : List (String × String)) (req : Request) (w : World) :
    alike (milestonesGet env1 hs req w) (milestonesGet env2 hs req w) := by
  have a1 := findById_alike h Milestone req.id w
  have a2 := findSorted_alike h Milestone "date" w
  unfold milestonesGet
  simp only
  split_ifs
  · revert a1
    generalize Milestone.findById env1 req.id w = x1
    generalize Milestone.findById env2 req.id w = x2
    intro a1
    rcases x1 with ⟨(e1 | r1), v1⟩ <;> rcases x2 with ⟨(e2 | r2), v2⟩
    · exact a1
    · exact a1.elim
    · exact a1.elim
    · have hr : r1 = r2 := a1
      subst hr
      first | rfl | (cases r1 <;> rfl)
  · revert a2
    generalize Milestone.findSorted env1 "date" w = x1
    generalize Milestone.findSorted env2 "date" w = x2
    intro a2
    rcases x1 with ⟨(e1 | r1), v1⟩ <;> rcases x2 with ⟨(e2 | r2), v2⟩
    · exact a2
    · exact a2.elim
    · exact a2.elim
    · have hr : r1 = r2 := a2
      subst hr
      rfl

theorem milestonesPost_alike {env1 env2 : Env} (h : sameButDetail env1 env2)
    (hs : List (String × String)) (req : Request) (w : World) :
    alike (milestonesPost env1 hs req w) (milestonesPost env2 hs req w) := by
  have a1 := save_alike h Milestone req.body w
  unfold milestonesPost
  simp only [invalidDate_core h]
  rcases hrp : readProp req.body "title" with e | v
  · exact alike_refl _
  · simp only
    split_ifs
    all_goals first
      | exact alike_refl _
      | skip
    revert a1
    generalize Milestone.save env1 (Milestone.construct env1 req.body) w = x1
    generalize Milestone.save env2 (Milestone.construct env2 req.body) w = x2
    intro a1
    rcases x1 with ⟨(e1 | r1), v1⟩ <;> rcases x2 with ⟨(e2 | r2), v2⟩
    · exact a1
    · exact a1.elim
    · exact a1.elim
    · have hr : r1 = r2 := a1
      subst hr
      rfl

theorem milestonesPut_alike {env1 env2 : Env} (h : sameButDetail env1 env2)
    (hs : List (String × String)) (req : Request) (w : World) :
    alike (milestonesPut env1 hs req w) (milestonesPut env2 hs req w) := by
  have a1 := update_alike h Milestone req.id req.body w
  unfold milestonesPut
  simp only [invalidDate_core h]
  rcases hrp : readProp req.body "title" with e | v
  · simp only
    split_ifs <;> exact alike_refl _
  · simp only
    split_ifs
    all_goals first
      | exact alike_refl _
      | skip
    revert a1
    generalize Milestone.findByIdAndUpdate env1 req.id req.body w = x1
    generalize Milestone.findByIdAndUpdate env2 req.id req.body w = x2
    intro a1
    rcases x1 with ⟨(e1 | r1), v1⟩ <;> rcases x2 with ⟨(e2 | r2), v2⟩
    · exact a1
    · exact a1.elim
    · exact a1.elim
    · have hr : r1 = r2 := a1
      subst hr
      first | rfl | (cases r1 <;> rfl)

theorem milestonesDelete_alike {env1 env2 : Env} (h : sameButDetail env1 env2)
    (hs : List (String × String)) (req : Request) (w : World) :
    alike (milestonesDelete env1 hs req w) (milestonesDelete env2 hs req w) := by
  have a1 := delete_alike h Milestone req.id w
  unfold milestonesDelete
  simp only
  split_ifs
  · exact alike_refl _
  · revert a1
    generalize Milestone.findByIdAndDelete env1 req.id w = x1
    generalize Milestone.findByIdAndDelete env2 req.id w = x2
    intro a1
    rcases x1 with ⟨(e1 | r1), v1⟩ <;> rcases x2 with ⟨(e2 | r2), v2⟩
    · exact a1
    · exact a1.elim
    · exact a1.elim
    · have hr : r1 = r2 := a1
      subst hr
      first | rfl | (cases r1 <;> rfl)

theorem profileGet_alike {env1 env2 : Env} (h : sameButDetail env1 env2)
    (hs : List (String × String)) (w : World) :
    alike (profileGet env1 hs w) (profileGet env2 hs w) := by
  have a1 := findOne_alike h Profile w
  unfold profileGet
  revert a1
  generalize Profile.findOne env1 w = x1
  generalize Profile.findOne env2 w = x2
  intro a1
  rcases x1 with ⟨(e1 | r1), v1⟩ <;> rcases x2 with ⟨(e2 | r2), v2⟩
  · exact a1
  · exact a1.elim
  · exact a1.elim
  · have hr : r1 = r2 := a1
    subst hr
    first | rfl | (cases r1 <;> rfl)

theorem profilePut_alike {env1 env2 : Env} (h : sameButDetail env1 env2)
    (hs : List (String × String)) (req : Request) (w : World) :
    alike (profilePut env1 hs req w) (profilePut env2 hs req w) := by
  have a1 := upsert_alike h Profile req.body w
  unfold profilePut
  simp only [invalidDate_core h]
  rcases hrp : readProp req.body "name" with e | v
  · exact alike_refl _
  · simp only
    split_ifs
    all_goals first
      | exact alike_refl _
      | skip
    revert a1
    generalize Profile.findOneAndUpdate env1 req.body w = x1
    generalize Profile.findOneAndUpdate env2 req.body w = x2
    intro a1
    rcases x1 with ⟨(e1 | r1), v1⟩ <;> rcases x2 with ⟨(e2 | r2), v2⟩
    · exact a1
    · exact a1.elim
    · exact a1.elim
    · have hr : r1 = r2 := a1
      subst hr
      rfl

theorem connect_alike {env1 env2 : Env} (h : sameButDetail env1 env2) (w : World) :
    (∃ hd w0, connectToDatabase env1 w = (.ok hd, w0) ∧
        connectToDatabase env2 w = (.ok hd, w0)) ∨
      (∃ e1 e2 w1 w2, connectToDatabase env1 w = (.error e1, w1) ∧
        connectToDatabase env2 w = (.error e2, w2)) := by
  have hc := h.client
  have hk := h.connect
  unfold connectToDatabase
  simp only [← h.uri]
  split
  · exact .inl ⟨_, _, rfl, rfl⟩
  · rcases env1.MONGODB_URI with _ | uri
    · exact .inr ⟨_, _, _, _, rfl, rfl⟩
    · simp only
      split_ifs
      · exact .inr ⟨_, _, _, _, rfl, rfl⟩
      · rcases hc1 : env1.clientError with _ | c1 <;>
          rcases hc2 : env2.clientError with _ | c2 <;> rw [hc1, hc2] at hc
        · rcases hk1 : env1.connectError with _ | k1 <;>
            rcases hk2 : env2.connectError with _ | k2 <;> rw [hk1, hk2] at hk
          · exact .inl ⟨_, _, rfl, rfl⟩
          · simp at hk
          · simp at hk
          · exact .inr ⟨_, _, _, _, rfl, rfl⟩
        · simp at hc
        · simp at hc
        · exact .inr ⟨_, _, _, _, rfl, rfl⟩

theorem projectsHandler_detail {env1 env2 : Env} (h : sameButDetail env1 env2) (req : Request)
    (w : World) : (projectsHandler env1 req w).res = (projectsHandler env2 req w).res := by
  rcases connect_alike h w with ⟨hd, w0, c1, c2⟩ | ⟨e1, e2, w1, w2, c1, c2⟩
  · simp only [projectsHandler, c1, c2]
    split_ifs with hopt h1 h2 h3 h4
    · rfl
    · have a := projectsGet_alike h (corsHeaders "GET, POST, PUT, DELETE, OPTIONS") req w0
      revert a
      generalize projectsGet env1 (corsHeaders "GET, POST, PUT, DELETE, OPTIONS") req w0 = x1
      generalize projectsGet env2 (corsHeaders "GET, POST, PUT, DELETE, OPTIONS") req w0 = x2
      intro a
      rcases x1 with ⟨(e1 | r1), v1⟩ <;> rcases x2 with ⟨(e2 | r2), v2⟩
      · rfl
      · exact a.elim
      · exact a.elim
      · have hr : r1 = r2 := a
        subst hr
        rfl
    · have a := projectsPost_alike h (corsHeaders "GET, POST, PUT, DELETE, OPTIONS") req w0
      revert a
      generalize projectsPost env1 (corsHeaders "GET, POST, PUT, DELETE, OPTIONS") req w0 = x1
      generalize projectsPost env2 (corsHeaders "GET, POST, PUT, DELETE, OPTIONS") req w0 = x2
      intro a
      rcases x1 with ⟨(e1 | r1), v1⟩ <;> rcases x2 with ⟨(e2 | r2), v2⟩
      · obtain ⟨hn, he⟩ := a
        simp only [← hn]
        split_ifs with hv
        · simp only [validationFailure, he hv]
        · rfl
      · exact a.elim
      · exact a.elim
      · have hr : r1 = r2 := a
        subst hr
        rfl
    · have a := projectsPut_alike h (corsHeaders "GET, POST, PUT, DELETE, OPTIONS") req w0
      revert a
      generalize projectsPut env1 (corsHeaders "GET, POST, PUT, DELETE, OPTIONS") req w0 = x1
      generalize projectsPut env2 (corsHeaders "GET, POST, PUT, DELETE, OPTIONS") req w0 = x2
      intro a
      rcases x1 with ⟨(e1 | r1), v1⟩ <;> rcases x2 with ⟨(e2 | r2), v2⟩
      · obtain ⟨hn, he⟩ := a
        simp only [← hn]
        split_ifs with hv hcst
        · simp only [validationFailure, he hv]
        · rfl
        · rfl
      · exact a.elim
      · exact a.elim
      · have hr : r1 = r2 := a
        subst hr
        rfl
    · have a := projectsDelete_alike h (corsHeaders "GET, POST, PUT, DELETE, OPTIONS") req w0
      revert a
      generalize projectsDelete env1 (corsHeaders "GET, POST, PUT, DELETE, OPTIONS") req w0 = x1
      generalize projectsDelete env2 (corsHeaders "GET, POST, PUT, DELETE, OPTIONS") req w0 = x2
      intro a
      rcases x1 with ⟨(e1 | r1), v1⟩ <;> rcases x2 with ⟨(e2 | r2), v2⟩
      · obtain ⟨hn, -⟩ := a
        simp only [← hn]
        split_ifs <;> rfl
      · exact a.elim
      · exact a.elim
      · have hr : r1 = r2 := a
        subst hr
        rfl
    · rfl
  · simp only [projectsHandler, c1, c2]
    split_ifs <;> rfl

theorem venturesHandler_detail {env1 env2 : Env} (h : sameButDetail env1 env2) (req : Request)
    (w : World) : (venturesHandler env1 req w).res = (venturesHandler env2 req w).res := by
  rcases connect_alike h w with ⟨hd, w0, c1, c2⟩ | ⟨e1, e2, w1, w2, c1, c2⟩
  · simp only [venturesHandler, c1, c2]
    split_ifs with hopt h1 h2 h3 h4
    · rfl
    · have a := venturesGet_alike h (corsHeaders "GET, POST, PUT, DELETE, OPTIONS") req w0
      revert a
      generalize venturesGet env1 (corsHeaders "GET, POST, PUT, DELETE, OPTIONS") req w0 = x1
      generalize venturesGet env2 (corsHeaders "GET, POST, PUT, DELETE, OPTIONS") req w0 = x2
      intro a
      rcases x1 with ⟨(e1 | r1), v1⟩ <;> rcases x2 with ⟨(e2 | r2), v2⟩
      · rfl
      · exact a.elim
      · exact a.elim
      · have hr : r1 = r2 := a
        subst hr
        rfl
    · have a := venturesPost_alike h (corsHeaders "GET, POST, PUT, DELETE, OPTIONS") req w0
      revert a
      generalize venturesPost env1 (corsHeaders "GET, POST, PUT, DELETE, OPTIONS") req w0 = x1
      generalize venturesPost env2 (corsHeaders "GET, POST, PUT, DELETE, OPTIONS") req w0 = x2
      intro a
      rcases x1 with ⟨(e1 | r1), v1⟩ <;> rcases x2 with ⟨(e2 | r2), v2⟩
      · obtain ⟨hn, he⟩ := a
        simp only [← hn]
        split_ifs with hv
        · simp only [validationFailure, he hv]
        · rfl
      · exact a.elim
      · exact a.elim
      · have hr : r1 = r2 := a
        subst hr
        rfl
    · have a := venturesPut_alike h (corsHeaders "GET, POST, PUT, DELETE, OPTIONS") req w0
      revert a
      generalize venturesPut env1 (corsHeaders "GET, POST, PUT, DELETE, OPTIONS") req w0 = x1
      generalize venturesPut env2 (corsHeaders "GET, POST, PUT, DELETE, OPTIONS") req w0 = x2
      intro a
      rcases x1 with ⟨(e1 | r1), v1⟩ <;> rcases x2 with ⟨(e2 | r2), v2⟩
      · obtain ⟨hn, he⟩ := a
        simp only [← hn]
        split_ifs with hv hcst
        · simp only [validationFailure, he hv]
        · rfl
        · rfl
      · exact a.elim
      · exact a.elim
      · have hr : r1 = r2 := a
        subst hr
        rfl
    · have a := venturesDelete_alike h (corsHeaders "GET, POST, PUT, DELETE, OPTIONS") req w0
      revert a
      generalize venturesDelete env1 (corsHeaders "GET, POST, PUT, DELETE, OPTIONS") req w0 = x1
      generalize venturesDelete env2 (corsHeaders "GET, POST, PUT, DELETE, OPTIONS") req w0 = x2
      intro a
      rcases x1 with ⟨(e1 | r1), v1⟩ <;> rcases x2 with ⟨(e2 | r2), v2⟩
      · obtain ⟨hn, -⟩ := a
        simp only [← hn]
        split_ifs <;> rfl
      · exact a.elim
      · exact a.elim
      · have hr : r1 = r2 := a
        subst hr
        rfl
    · rfl
  · simp only [venturesHandler, c1, c2]
    split_ifs <;> rfl

theorem milestonesHandler_detail {env1 env2 : Env} (h : sameButDetail env1 env2) (req : Request)
    (w : World) : (milestonesHandler env1 req w).res = (milestonesHandler env2 req w).res := by
  rcases connect_alike h w with ⟨hd, w0, c1, c2⟩ | ⟨e1, e2, w1, w2, c1, c2⟩
  · simp only [milestonesHandler, c1, c2]
    split_ifs with hopt h1 h2 h3 h4
    · rfl
    · have a := milestonesGet_alike h (corsHeaders "GET, POST, PUT, DELETE, OPTIONS") req w0
      revert a
      generalize milestonesGet env1 (corsHeaders "GET, POST, PUT, DELETE, OPTIONS") req w0 = x1
      generalize milestonesGet env2 (corsHeaders "GET, POST, PUT, DELETE, OPTIONS") req w0 = x2
      intro a
      rcases x1 with ⟨(e1 | r1), v1⟩ <;> rcases x2 with ⟨(e2 | r2), v2⟩
      · rfl
      · exact a.elim
      · exact a.elim
      · have hr : r1 = r2 := a
        subst hr
        rfl
    · have a := milestonesPost_alike h (corsHeaders "GET, POST, PUT, DELETE, OPTIONS") req w0
      revert a
      generalize milestonesPost env1 (corsHeaders "GET, POST, PUT, DELETE, OPTIONS") req w0 = x1
      generalize milestonesPost env2 (corsHeaders "GET, POST, PUT, DELETE, OPTIONS") req w0 = x2
      intro a
      rcases x1 with ⟨(e1 | r1), v1⟩ <;> rcases x2 with ⟨(e2 | r2), v2⟩
      · obtain ⟨hn, he⟩ := a
        simp only [← hn]
        split_ifs with hv
        · simp only [validationFailure, he hv]
        · rfl
      · exact a.elim
      · exact a.elim
      · have hr : r1 = r2 := a
        subst hr
        rfl
    · have a := milestonesPut_alike h (corsHeaders "GET, POST, PUT, DELETE, OPTIONS") req w0
      revert a
      generalize milestonesPut env1 (corsHeaders "GET, POST, PUT, DELETE, OPTIONS") req w0 = x1
      generalize milestonesPut env2 (corsHeaders "GET, POST, PUT, DELETE, OPTIONS") req w0 = x2
      intro a
      rcases x1 with ⟨(e1 | r1), v1⟩ <;> rcases x2 with ⟨(e2 | r2), v2⟩
      · obtain ⟨hn, he⟩ := a
        simp only [← hn]
        split_ifs with hv hcst
        · simp only [validationFailure, he hv]
        · rfl
        · rfl
      · exact a.elim
      · exact a.elim
      · have hr : r1 = r2 := a
        subst hr
        rfl
    · have a := milestonesDelete_alike h (corsHeaders "GET, POST, PUT, DELETE, OPTIONS") req w0
      revert a
      generalize milestonesDelete env1 (corsHeaders "GET, POST, PUT, DELETE, OPTIONS") req w0 = x1
      generalize milestonesDelete env2 (corsHeaders "GET, POST, PUT, DELETE, OPTIONS") req w0 = x2
      intro a
      rcases x1 with ⟨(e1 | r1), v1⟩ <;> rcases x2 with ⟨(e2 | r2), v2⟩
      · obtain ⟨hn, -⟩ := a
        simp only [← hn]
        split_ifs <;> rfl
      · exact a.elim
      · exact a.elim
      · have hr : r1 = r2 := a
        subst hr
        rfl
    · rfl
  · simp only [milestonesHandler, c1, c2]
    split_ifs <;> rfl

theorem profileHandler_detail {env1 env2 : Env} (h : sameButDetail env1 env2) (req : Request)
    (w : World) : (profileHandler env1 req w).res = (profileHandler env2 req w).res := by
  rcases connect_alike h w with ⟨hd, w0, c1, c2⟩ | ⟨e1, e2, w1, w2, c1, c2⟩
  · simp only [profileHandler, c1, c2]
    split_ifs with hopt h1 h2
    · rfl
    · have a := profileGet_alike h (corsHeaders "GET, PUT, OPTIONS") w0
      revert a
      generalize profileGet env1 (corsHeaders "GET, PUT, OPTIONS") w0 = x1
      generalize profileGet env2 (corsHeaders "GET, PUT, OPTIONS") w0 = x2
      intro a
      rcases x1 with ⟨(e1 | r1), v1⟩ <;> rcases x2 with ⟨(e2 | r2), v2⟩
      · rfl
      · exact a.elim
      · exact a.elim
      · have hr : r1 = r2 := a
        subst hr
        rfl
    · have a := profilePut_alike h (corsHeaders "GET, PUT, OPTIONS") req w0
      revert a
      generalize profilePut env1 (corsHeaders "GET, PUT, OPTIONS") req w0 = x1
      generalize profilePut env2 (corsHeaders "GET, PUT, OPTIONS") req w0 = x2
      intro a
      rcases x1 with ⟨(e1 | r1), v1⟩ <;> rcases x2 with ⟨(e2 | r2), v2⟩
      · obtain ⟨hn, he⟩ := a
        simp only [← hn]
        split_ifs with hv
        · simp only [validationFailure, he hv]
        · rfl
      · exact a.elim
      · exact a.elim
      · have hr : r1 = r2 := a
        subst hr
        rfl
    · rfl
  · simp only [profileHandler, c1, c2]
    split_ifs <;> rfl

theorem handler_detail {env1 env2 : Env} (h : sameButDetail env1 env2) (r : Resource)
    (req : Request) (w : World) : (handler r env1 req w).res = (handler r env2 req w).res := by
  cases r
  · exact projectsHandler_detail h req w
  · exact venturesHandler_detail h req w
  · exact milestonesHandler_detail h req w
  · exact profileHandler_detail h req w

theorem projectsGet_status (env : Env) (hs : List (String × String)) (req : Request)
    (w : World) : tryStatus (projectsGet env hs req w) := by
  intro r h
  unfold projectsGet at h
  simp only at h
  repeat' (split at h)
  all_goals
    simp only [reduceCtorEq, Except.ok.injEq] at h
  all_goals
    subst h
  all_goals
    simp [json]

theorem projectsPost_status (env : Env) (hs : List (String × String)) (req : Request)
    (w : World) : tryStatus (projectsPost env hs req w) := by
  intro r h
  unfold projectsPost at h
  simp only at h
  repeat' (split at h)
  all_goals
    simp only [reduceCtorEq, Except.ok.injEq] at h
  all_goals
    subst h
  all_goals
    simp [json]

theorem projectsPut_status (env : Env) (hs : List (String × String)) (req : Request)
    (w : World) : tryStatus (projectsPut env hs req w) := by
  intro r h
  unfold projectsPut at h
  simp only at h
  repeat' (split at h)
  all_goals
    simp only [reduceCtorEq, Except.ok.injEq] at h
  all_goals
    subst h
  all_goals
    simp [json]

theorem projectsDelete_status (env : Env) (hs : List (String × String)) (req : Request)
    (w : World) : tryStatus (projectsDelete env hs req w) := by
  intro r h
  unfold projectsDelete at h
  simp only at h
  repeat' (split at h)
  all_goals
    simp only [reduceCtorEq, Except.ok.injEq] at h
  all_goals
    subst h
  all_goals
    simp [json]

theorem venturesGet_status (env : Env) (hs : List (String × String)) (req : Request)
    (w : World) : tryStatus (venturesGet env hs req w) := by
  intro r h
  unfold venturesGet at h
  simp only at h
  repeat' (split at h)
  all_goals
    simp only [reduceCtorEq, Except.ok.injEq] at h
  all_goals
    subst h
  all_goals
    simp [json]

theorem venturesPost_status (env : Env) (hs : List (String × String)) (req : Request)
    (w : World) : tryStatus (venturesPost env hs req w) := by
  intro r h
  unfold venturesPost at h
  simp only at h
  repeat' (split at h)
  all_goals
    simp only [reduceCtorEq, Except.ok.injEq] at h
  all_goals
    subst h
  all_goals
    simp [json]

theorem venturesPut_status (env : Env) (hs : List (String × String)) (req : Request)
    (w : World) : tryStatus (venturesPut env hs req w) := by
  intro r h
  unfold venturesPut at h
  simp only at h
  repeat' (split at h)
  all_goals
    simp only [reduceCtorEq, Except.ok.injEq] at h
  all_goals
    subst h
  all_goals
    simp [json]

theorem venturesDelete_status (env : Env) (hs : List (String × String)) (req : Request)
    (w : World) : tryStatus (venturesDelete env hs req w) := by
  intro r h
  unfold venturesDelete at h
  simp only at h
  repeat' (split at h)
  all_goals
    simp only [reduceCtorEq, Except.ok.injEq] at h
  all_goals
    subst h
  all_goals
    simp [json]

theorem milestonesGet_status (env : Env) (hs : List (String × String)) (req : Request)
    (w : World) : tryStatus (milestonesGet env hs req w) := by
  intro r h
  unfold milestonesGet at h
  simp only at h
  repeat' (split at h)
  all_goals
    simp only [reduceCtorEq, Except.ok.injEq] at h
  all_goals
    subst h
  all_goals
    simp [json]

theorem milestonesPost_status (env : Env) (hs : List (String × String)) (req : Request)
    (w : World) : tryStatus (milestonesPost env hs req w) := by
  intro r h
  unfold milestonesPost at h
  simp only at h
  repeat' (split at h)
  all_goals
    simp only [reduceCtorEq, Except.ok.injEq] at h
  all_goals
    subst h
  all_goals
    simp [json]

theorem milestonesPut_status (env : Env) (hs : List (String × String)) (req : Request)
    (w : World) : tryStatus (milestonesPut env hs req w) := by
  intro r h
  unfold milestonesPut at h
  simp only at h
  repeat' (split at h)
  all_goals
    simp only [reduceCtorEq, Except.ok.injEq] at h
  all_goals
    subst h
  all_goals
    simp [json]

theorem milestonesDelete_status (env : Env) (hs : List (String × String)) (req : Request)
    (w : World) : tryStatus (milestonesDelete env hs req w) := by
  intro r h
  unfold milestonesDelete at h
  simp only at h
  repeat' (split at h)
  all_goals
    simp only [reduceCtorEq, Except.ok.injEq] at h
  all_goals
    subst h
  all_goals
    simp [json]

theorem profileGet_status (env : Env) (hs : List (String × String))
    (w : World) : tryStatus (profileGet env hs w) := by
  intro r h
  unfold profileGet at h
  repeat' (split at h)
  all_goals
    simp only [reduceCtorEq, Except.ok.injEq] at h
  all_goals
    subst h
  all_goals
    simp [json]

theorem profilePut_status (env : Env) (hs : List (String × String)) (req : Request)
    (w : World) : tryStatus (profilePut env hs req w) := by
  intro r h
  unfold profilePut at h
  simp only at h
  repeat' (split at h)
  all_goals
    simp only [reduceCtorEq, Except.ok.injEq] at h
  all_goals
    subst h
  all_goals
    simp [json]

theorem fixed_of_status {r : Resource} {method : String} {res : Response}
    (h : res.status ≠ 500 ∧ res.status ≠ 503) : fixedFailure r method res :=
  ⟨fun hs => absurd hs h.1, fun hs => absurd hs h.2⟩

theorem projectsHandler_fixed (env : Env) (req : Request) (w : World) :
    fixedFailure .projects req.method (projectsHandler env req w).res := by
  unfold projectsHandler
  simp only
  split_ifs with hopt h1 h2 h3 h4
  · exact fixed_of_status (by simp)
  · split
    · simp [fixedFailure, json, failure, connectionFailed]
    · split
      · next r w1 heq =>
        exact fixed_of_status (projectsGet_status _ _ _ _ r (by rw [heq]))
      · simp [fixedFailure, json, failure, connectionFailed, Resource.failureMessage,
        Resource.noun, h1]
  · split
    · simp [fixedFailure, json, failure, connectionFailed]
    · split
      · next r w1 heq =>
        exact fixed_of_status (projectsPost_status _ _ _ _ r (by rw [heq]))
      · split_ifs
        · exact fixed_of_status (by simp [json])
        · simp [fixedFailure, json, failure, connectionFailed, Resource.failureMessage,
          Resource.noun, h2]
  · split
    · simp [fixedFailure, json, failure, connectionFailed]
    · split
      · next r w1 heq =>
        exact fixed_of_status (projectsPut_status _ _ _ _ r (by rw [heq]))
      · split_ifs
        · exact fixed_of_status (by simp [json])
        · exact fixed_of_status (by simp [json])
        · simp [fixedFailure, json, failure, connectionFailed, Resource.failureMessage,
          Resource.noun, h3]
  · split
    · simp [fixedFailure, json, failure, connectionFailed]
    · split
      · next r w1 heq =>
        exact fixed_of_status (projectsDelete_status _ _ _ _ r (by rw [heq]))
      · split_ifs
        · exact fixed_of_status (by simp [json])
        · simp [fixedFailure, json, failure, connectionFailed, Resource.failureMessage,
          Resource.noun, h4]
  · split
    · simp [fixedFailure, json, failure, connectionFailed]
    · exact fixed_of_status (by simp [json])

theorem venturesHandler_fixed (env : Env) (req : Request) (w : World) :
    fixedFailure .ventures req.method (venturesHandler env req w).res := by
  unfold venturesHandler
  simp only
  split_ifs with hopt h1 h2 h3 h4
  · exact fixed_of_status (by simp)
  · split
    · simp [fixedFailure, json, failure, connectionFailed]
    · split
      · next r w1 heq =>
        exact fixed_of_status (venturesGet_status _ _ _ _ r (by rw [heq]))
      · simp [fixedFailure, json, failure, connectionFailed, Resource.failureMessage,
        Resource.noun, h1]
  · split
    · simp [fixedFailure, json, failure, connectionFailed]
    · split
      · next r w1 heq =>
        exact fixed_of_status (venturesPost_status _ _ _ _ r (by rw [heq]))
      · split_ifs
        · exact fixed_of_status (by simp [json])
        · simp [fixedFailure, json, failure, connectionFailed, Resource.failureMessage,
          Resource.noun, h2]
  · split
    · simp [fixedFailure, json, failure, connectionFailed]
    · split
      · next r w1 heq =>
        exact fixed_of_status (venturesPut_status _ _ _ _ r (by rw [heq]))
      · split_ifs
        · exact fixed_of_status (by simp [json])
        · exact fixed_of_status (by simp [json])
        · simp [fixedFailure, json, failure, connectionFailed, Resource.failureMessage,
          Resource.noun, h3]
  · split
    · simp [fixedFailure, json, failure, connectionFailed]
    · split
      · next r w1 heq =>
        exact fixed_of_status (venturesDelete_status _ _ _ _ r (by rw [heq]))
      · split_ifs
        · exact fixed_of_status (by simp [json])
        · simp [fixedFailure, json, failure, connectionFailed, Resource.failureMessage,
          Resource.noun, h4]
  · split
    · simp [fixedFailure, json, failure, connectionFailed]
    · exact fixed_of_status (by simp [json])

theorem milestonesHandler_fixed (env : Env) (req : Request) (w : World) :
    fixedFailure .milestones req.method (milestonesHandler env req w).res := by
  unfold milestonesHandler
  simp only
  split_ifs with hopt h1 h2 h3 h4
  · exact fixed_of_status (by simp)
  · split
    · simp [fixedFailure, json, failure, connectionFailed]
    · split
      · next r w1 heq =>
        exact fixed_of_status (milestonesGet_status _ _ _ _ r (by rw [heq]))
      · simp [fixedFailure, json, failure, connectionFailed, Resource.failureMessage,
        Resource.noun, h1]
  · split
    · simp [fixedFailure, json, failure, connectionFailed]
    · split
      · next r w1 heq =>
        exact fixed_of_status (milestonesPost_status _ _ _ _ r (by rw [heq]))
      · split_ifs
        · exact fixed_of_status (by simp [json])
        · simp [fixedFailure, json, failure, connectionFailed, Resource.failureMessage,
          Resource.noun, h2]
  · split
    · simp [fixedFailure, json, failure, connectionFailed]
    · split
      · next r w1 heq =>
        exact fixed_of_status (milestonesPut_status _ _ _ _ r (by rw [heq]))
      · split_ifs
        · exact fixed_of_status (by simp [json])
        · exact fixed_of_status (by simp [json])
        · simp [fixedFailure, json, failure, connectionFailed, Resource.failureMessage,
          Resource.noun, h3]
  · split
    · simp [fixedFailure, json, failure, connectionFailed]
    · split
      · next r w1 heq =>
        exact fixed_of_status (milestonesDelete_status _ _ _ _ r (by rw [heq]))
      · split_ifs
        · exact fixed_of_status (by simp [json])
        · simp [fixedFailure, json, failure, connectionFailed, Resource.failureMessage,
          Resource.noun, h4]
  · split
    · simp [fixedFailure, json, failure, connectionFailed]
    · exact fixed_of_status (by simp [json])

theorem profileHandler_fixed (env : Env) (req : Request) (w : World) :
    fixedFailure .profile req.method (profileHandler env req w).res := by
  unfold profileHandler
  simp only
  split_ifs with hopt h1 h2
  · exact fixed_of_status (by simp)
  · split
    · simp [fixedFailure, json, failure, connectionFailed]
    · split
      · next r w1 heq =>
        exact fixed_of_status (profileGet_status _ _ _ r (by rw [heq]))
      · simp [fixedFailure, json, failure, connectionFailed, Resource.failureMessage,
        Resource.noun, h1]
  · split
    · simp [fixedFailure, json, failure, connectionFailed]
    · split
      · next r w1 heq =>
        exact fixed_of_status (profilePut_status _ _ _ _ r (by rw [heq]))
      · split_ifs
        · exact fixed_of_status (by simp [json])
        · simp [fixedFailure, json, failure, connectionFailed, Resource.failureMessage,
          Resource.noun, h2]
  · split
    · simp [fixedFailure, json, failure, connectionFailed]
    · exact fixed_of_status (by simp [json])

theorem handler_fixed (r : Resource) (env : Env) (req : Request) (w : World) :
    fixedFailure r req.method (handler r env req w).res := by
  cases r
  · exact projectsHandler_fixed env req w
  · exact venturesHandler_fixed env req w
  · exact milestonesHandler_fixed env req w
  · exact profileHandler_fixed env req w

/-! ## C1: a create request that omits a required field -/

/-- C1. POST on projects, ventures or milestones, connection acquired, body present: if a
path the schema marks required is omitted from the body (or holds a falsy value), the
response is status 400 with body `{success: false, error}`, the error being the
required-field message of the handler; the only change of state is that of
`connectToDatabase`, so no storage call is made and every collection is unchanged. -/
theorem post_missing_required (r : Resource) (hr : r ≠ .profile) (env : Env) (req : Request)
    (w : World) (hm : req.method = "POST") (hc : acquired env w) (hb : bodyPresent req)
    (k : String) (hk : k ∈ requiredPaths r.model.schema)
    (hmiss : (req.body.prop k).truthy = false) :
    (handler r env req w).res =
        ⟨400, corsHeaders r.allowMethods,
          some { success := false, error := some r.missingMessage }⟩ ∧
      (handler r env req w).world = (connectToDatabase env w).2 ∧
      sameRecords (handler r env req w).world w ∧
      (handler r env req w).world.storageCalls = w.storageCalls := by
  obtain ⟨h, hc⟩ := hc
  have hcs := connect_sameRecords env w
  rcases hconn : connectToDatabase env w with ⟨res, w0⟩
  rw [hconn] at hc hcs
  simp only at hc hcs
  subst hc
  have hread := readProp_present req hb
  cases r with
  | profile => exact absurd rfl hr
  | projects =>
    have hk2 : k = "title" ∨ k = "description" := by
      simpa [requiredPaths, Resource.model, Project, projectSchema] using hk
    have hout : handler .projects env req w =
        ⟨json (corsHeaders "GET, POST, PUT, DELETE, OPTIONS") 400
          (failure "Missing required fields: title and description are required"), w0⟩ := by
      simp only [handler, projectsHandler, hm, hconn, projectsPost, hread]
      rcases hk2 with rfl | rfl <;> simp [hmiss]
    rw [hout]
    exact ⟨rfl, rfl, hcs.1, hcs.2⟩
  | ventures =>
    have hk2 : k = "title" ∨ k = "description" ∨ k = "type" := by
      simpa [requiredPaths, Resource.model, Venture, ventureSchema] using hk
    have hout : handler .ventures env req w =
        ⟨json (corsHeaders "GET, POST, PUT, DELETE, OPTIONS") 400
          (failure "Missing required fields: title, description, and type are required"),
          w0⟩ := by
      simp only [handler, venturesHandler, hm, hconn, venturesPost, hread]
      rcases hk2 with rfl | rfl | rfl <;> simp [hmiss]
    rw [hout]
    exact ⟨rfl, rfl, hcs.1, hcs.2⟩
  | milestones =>
    have hk2 : k = "title" ∨ k = "date" := by
      simpa [requiredPaths, Resource.model, Milestone, milestoneSchema] using hk
    have hout : handler .milestones env req w =
        ⟨json (corsHeaders "GET, POST, PUT, DELETE, OPTIONS") 400
          (failure "Missing required fields: title and date are required"), w0⟩ := by
      simp only [handler, milestonesHandler, hm, hconn, milestonesPost, hread]
      rcases hk2 with rfl | rfl <;> simp [hmiss]
    rw [hout]
    exact ⟨rfl, rfl, hcs.1, hcs.2⟩

/-- Witness of C1: a venture posted without `type` on a cold process. -/
theorem post_missing_required_witness :
    (handler .ventures env0 postVentureNoType world0).res =
        ⟨400, corsHeaders "GET, POST, PUT, DELETE, OPTIONS",
          some { success := false,
                 error := some
                   "Missing required fields: title, description, and type are required" }⟩ ∧
      (handler .ventures env0 postVentureNoType world0).world =
        (connectToDatabase env0 world0).2 ∧
      sameRecords (handler .ventures env0 postVentureNoType world0).world world0 ∧
      (handler .ventures env0 postVentureNoType world0).world.storageCalls =
        world0.storageCalls :=
  post_missing_required .ventures (by decide) env0 postVentureNoType world0
    rfl ⟨_, rfl⟩ ⟨by decide, by decide⟩ "type" (by decide) (by decide)

/-! ## C2: a create request that is saved -/

/-- C2, as amended. POST on projects, ventures or milestones, connection acquired: for
every present body that passes the pre-checks of the handler (all required fields present
and correctly typed) and for which the storage save succeeds, the response is status 201
with body `{success: true, data: <created record>}`; the save is the only storage call,
the record is appended to the collection and carries an identifier and both timestamps.
The identifier is the generated one when the body has no `_id`, and the body's own `_id`
otherwise; `createdAt` is the current time when the body has no `createdAt`. -/
theorem post_created (r : Resource) (hr : r ≠ .profile) (env : Env) (req : Request)
    (w : World) (hm : req.method = "POST") (hc : acquired env w)
    (hb : bodyPresent req) (hchk : postChecks env r req.body = true)
    (doc : Doc)
    (hsave : (r.model.save env (r.model.construct env req.body)
      (connectToDatabase env w).2).1 = .ok doc) :
    (handler r env req w).res =
        ⟨201, corsHeaders r.allowMethods,
          some { success := true, data := some (.one doc) }⟩ ∧
      (handler r env req w).world.storageCalls =
        w.storageCalls ++ [.save r.model.name req.body] ∧
      r.model.coll (handler r env req w).world = r.model.coll w ++ [doc] ∧
      doc.updatedAt = doc.createdAt ∧
      (req.body.prop "_id" = .undefined → doc.id = env.newId) ∧
      (req.body.prop "_id" ≠ .undefined →
        castObjectId env (req.body.prop "_id") = some doc.id) ∧
      (req.body.prop "createdAt" = .undefined → doc.createdAt = env.now) := by
  obtain ⟨h, hc⟩ := hc
  have hcs := connect_sameRecords env w
  rcases hconn : connectToDatabase env w with ⟨res, w0⟩
  rw [hconn] at hc hcs hsave
  simp only at hc hcs hsave
  subst hc
  obtain ⟨hdoc, hw2⟩ := save_ok r.model env _ w0 doc hsave
  have herr : (r.model.construct env req.body).errors = [] := by
    unfold Model.save at hsave
    by_contra hne
    simp [hne] at hsave
  have hcd := construct_doc r.model env req.body
  rw [← hdoc] at hcd
  have hs : r.model.save env (r.model.construct env req.body) w0 =
      (.ok doc, r.model.setColl (r.model.coll w0 ++ [doc])
        (w0.logCall (.save r.model.name (r.model.construct env req.body).source))) :=
    Prod.ext hsave hw2
  rw [post_accepted r hr env req w h w0 hm hconn hb hchk, hs]
  refine ⟨rfl, ?_, ?_, hcd.1, hcd.2.1, fun h => hcd.2.2.1 h herr, hcd.2.2.2⟩
  · simp only [afterSave]
    rw [storageCalls_setColl, storageCalls_logCall, hcs.2]
    rfl
  · simp only [afterSave]
    rw [coll_setColl_logCall, coll_of_sameRecords r w0 w hcs.1]

/-- Witness of C2: `POST /milestones {title: "Launched", date: "2024-06-01"}` on a cold
process with empty collections gives 201, and the title of the record is "Launched". -/
theorem post_created_witness :
    (handler .milestones env0 postMilestoneLaunched world0).res =
        ⟨201, corsHeaders "GET, POST, PUT, DELETE, OPTIONS",
          some { success := true, data := some (.one launchedDoc) }⟩ ∧
      launchedDoc.get "title" = some (.str "Launched") ∧
      launchedDoc.id = env0.newId :=
  ⟨(post_created .milestones (by decide) env0 postMilestoneLaunched world0 rfl ⟨_, rfl⟩
      ⟨by decide, by decide⟩ (by decide) launchedDoc (by decide)).1, by decide, by decide⟩

/-- Counterexample to C2 as stated: the body of `postProjectOwnId` has every required
field, present and correctly typed, and the save succeeds with status 201, but the
identifier of the created record is the `_id` of the body, not the generated one. -/
theorem post_identifier_from_body :
    postChecks env0 .projects postProjectOwnId.body = true ∧
      (handler .projects env0 postProjectOwnId world0).res =
        ⟨201, corsHeaders "GET, POST, PUT, DELETE, OPTIONS",
          some { success := true, data := some (.one ownIdDoc) }⟩ ∧
      (handler .projects env0 postProjectOwnId world0).world.projects = [ownIdDoc] ∧
      postProjectOwnId.body.prop "_id" = .str ownIdDoc.id ∧
      ownIdDoc.id ≠ env0.newId := by
  decide

/-! ## C3: a create request with an ill-typed field -/

/-- C3, as amended. POST on projects, ventures or milestones, connection acquired, body
present: if a path that the handler checks (`title`, `description`, `type`,
`technologies`, `featured`, `date`, as the resource has them) is present in the body
without having its declared type, a `technologies` value counting only when it is truthy,
then the response is status 400 with body `{success: false, error}` where the message
names a field of the body that is missing or ill-typed; the only change of state is that
of `connectToDatabase`, so no storage call is made. -/
theorem post_ill_typed (r : Resource) (hr : r ≠ .profile) (env : Env) (req : Request)
    (w : World) (hm : req.method = "POST") (hc : acquired env w) (hb : bodyPresent req)
    (p : SchemaPath) (hp : p ∈ r.model.schema) (hchk : p.name ∈ r.checkedPaths)
    (hdef : (req.body.prop p.name).isDefined = true)
    (hty : hasDeclaredType env p.type (req.body.prop p.name) = false)
    (hseq : p.name = "technologies" → (req.body.prop p.name).truthy = true) :
    (handler r env req w).res.status = 400 ∧
      (∃ msg k, (handler r env req w).res.body = some { success := false, error := some msg } ∧
        offending r env req.body k ∧ includes msg k = true) ∧
      (handler r env req w).world = (connectToDatabase env w).2 ∧
      sameRecords (handler r env req w).world w ∧
      (handler r env req w).world.storageCalls = w.storageCalls := by
  obtain ⟨h, hc⟩ := hc
  have hcs := connect_sameRecords env w
  rcases hconn : connectToDatabase env w with ⟨res, w0⟩
  rw [hconn] at hc hcs
  simp only at hc hcs
  subst hc
  have hread := readProp_present req hb
  cases r with
  | profile => exact absurd rfl hr
  | projects =>
    have key : ∃ msg k, handler .projects env req w =
        ⟨json (corsHeaders "GET, POST, PUT, DELETE, OPTIONS") 400 (failure msg), w0⟩ ∧
        offending .projects env req.body k ∧ includes msg k = true := by
      simp only [handler, projectsHandler, hm, hconn, projectsPost, hread]
      simp only [Resource.model, Project, projectSchema, List.mem_cons, List.mem_singleton,
        List.not_mem_nil, or_false] at hp
      by_cases h1 : (req.body.prop "title").truthy = true
      · by_cases h2 : (req.body.prop "description").truthy = true
        · by_cases h3 : (req.body.prop "title").typeof = "string"
          · by_cases h4 : (req.body.prop "description").typeof = "string"
            · by_cases h5 : (req.body.prop "technologies").truthy = true ∧
                  (req.body.prop "technologies").isArray = false
              · refine ⟨"Invalid data type: technologies must be an array", "technologies", ?_,
                  Or.inr ⟨⟨"technologies", .strings true, false, some (.strs [])⟩, ?_, rfl, ?_, ?_⟩,
                  by decide⟩
                · simp [h1, h2, h3, h4, h5]
                · simp [Resource.model, Project, projectSchema]
                · rcases hv : req.body.prop "technologies" with _ | _ | _ | _ | _ | _ | _ <;>
                    simp_all [JsVal.isDefined, JsVal.truthy]
                · simpa [hasDeclaredType] using h5.2
              · by_cases h6 : (req.body.prop "featured").isDefined = true ∧
                    (req.body.prop "featured").typeof ≠ "boolean"
                · refine ⟨"Invalid data type: featured must be a boolean", "featured", ?_,
                    Or.inr ⟨⟨"featured", .boolean, false, some (.bool false)⟩, ?_, rfl, h6.1, ?_⟩,
                    by decide⟩
                  · have h5a : ((req.body.prop "technologies").truthy &&
                        !(req.body.prop "technologies").isArray) = false := by
                      rcases ht : (req.body.prop "technologies").truthy <;>
                        rcases ha : (req.body.prop "technologies").isArray <;> simp_all
                    simp [h1, h2, h3, h4, h5a, h6.1, h6.2]
                  · simp [Resource.model, Project, projectSchema]
                  · simpa [hasDeclaredType] using h6.2
                · exfalso
                  simp only [Resource.checkedPaths, List.mem_cons, List.mem_singleton,
                    List.not_mem_nil, or_false] at hchk
                  rcases hp with rfl | rfl | rfl | rfl | rfl | rfl | rfl | rfl | rfl | rfl <;>
                    simp [hasDeclaredType] at hchk hty hdef hseq
                  · exact hty h3
                  · exact hty h4
                  · exact h5 ⟨hseq, hty⟩
                  · exact h6 ⟨hdef, hty⟩
            · refine ⟨"Invalid data types: title and description must be strings",
                "description", ?_,
                Or.inr ⟨⟨"description", .string true false, true, none⟩, ?_, rfl, ?_, ?_⟩,
                by decide⟩
              · simp [h1, h2, h3, h4]
              · simp [Resource.model, Project, projectSchema]
              · rcases hv : req.body.prop "description" with _ | _ | _ | _ | _ | _ | _ <;>
                  simp_all [JsVal.isDefined, JsVal.truthy]
              · simpa [hasDeclaredType] using h4
          · refine ⟨"Invalid data types: title and description must be strings",
              "title", ?_,
              Or.inr ⟨⟨"title", .string true false, true, none⟩, ?_, rfl, ?_, ?_⟩,
              by decide⟩
            · simp [h1, h2, h3]
            · simp [Resource.model, Project, projectSchema]
            · rcases hv : req.body.prop "title" with _ | _ | _ | _ | _ | _ | _ <;>
                simp_all [JsVal.isDefined, JsVal.truthy]
            · simpa [hasDeclaredType] using h3
        · refine ⟨"Missing required fields: title and description are required",
            "description", ?_, Or.inl ⟨by decide, by simpa using h2⟩, by decide⟩
          simp [h1, h2]
      · refine ⟨"Missing required fields: title and description are required",
          "title", ?_, Or.inl ⟨by decide, by simpa using h1⟩, by decide⟩
        simp [h1]
    obtain ⟨msg, k, hout, hoff, hinc⟩ := key
    rw [hout]
    exact ⟨rfl, ⟨msg, k, rfl, hoff, hinc⟩, rfl, hcs.1, hcs.2⟩
  | ventures =>
    have key : ∃ msg k, handler .ventures env req w =
        ⟨json (corsHeaders "GET, POST, PUT, DELETE, OPTIONS") 400 (failure msg), w0⟩ ∧
        offending .ventures env req.body k ∧ includes msg k = true := by
      simp only [handler, venturesHandler, hm, hconn, venturesPost, hread]
      simp only [Resource.model, Venture, ventureSchema, List.mem_cons, List.mem_singleton,
        List.not_mem_nil, or_false] at hp
      by_cases h1 : (req.body.prop "title").truthy = true
      · by_cases h2 : (req.body.prop "description").truthy = true
        · by_cases h2b : (req.body.prop "type").truthy = true
          · by_cases h3 : (req.body.prop "title").typeof = "string"
            · by_cases h4 : (req.body.prop "description").typeof = "string"
              · by_cases h4b : (req.body.prop "type").typeof = "string"
                · by_cases h6 : (req.body.prop "featured").isDefined = true ∧
                      (req.body.prop "featured").typeof ≠ "boolean"
                  · refine ⟨"Invalid data type: featured must be a boolean", "featured", ?_,
                      Or.inr ⟨⟨"featured", .boolean, false, some (.bool false)⟩, ?_, rfl, h6.1,
                        ?_⟩,
                      by decide⟩
                    · simp [h1, h2, h2b, h3, h4, h4b, h6.1, h6.2]
                    · simp [Resource.model, Venture, ventureSchema]
                    · simpa [hasDeclaredType] using h6.2
                  · exfalso
                    simp only [Resource.checkedPaths, List.mem_cons, List.mem_singleton,
                      List.not_mem_nil, or_false] at hchk
                    rcases hp with rfl | rfl | rfl | rfl | rfl | rfl <;>
                      simp [hasDeclaredType] at hchk hty hdef hseq
                    · exact hty h3
                    · exact hty h4
                    · exact hty h4b
                    · exact h6 ⟨hdef, hty⟩
                · refine ⟨"Invalid data types: title, description, and type must be strings",
                    "type", ?_,
                    Or.inr ⟨⟨"type", .string true false, true, none⟩, ?_, rfl, ?_, ?_⟩,
                    by decide⟩
                  · simp [h1, h2, h2b, h3, h4, h4b]
                  · simp [Resource.model, Venture, ventureSchema]
                  · rcases hv : req.body.prop "type" with _ | _ | _ | _ | _ | _ | _ <;>
                      simp_all [JsVal.isDefined, JsVal.truthy]
                  · simpa [hasDeclaredType] using h4b
              · refine ⟨"Invalid data types: title, description, and type must be strings",
                  "description", ?_,
                  Or.inr ⟨⟨"description", .string true false, true, none⟩, ?_, rfl, ?_, ?_⟩,
                  by decide⟩
                · simp [h1, h2, h2b, h3, h4]
                · simp [Resource.model, Venture, ventureSchema]
                · rcases hv : req.body.prop "description" with _ | _ | _ | _ | _ | _ | _ <;>
                    simp_all [JsVal.isDefined, JsVal.truthy]
                · simpa [hasDeclaredType] using h4
            · refine ⟨"Invalid data types: title, description, and type must be strings",
                "title", ?_,
                Or.inr ⟨⟨"title", .string true false, true, none⟩, ?_, rfl, ?_, ?_⟩,
                by decide⟩
              · simp [h1, h2, h2b, h3]
              · simp [Resource.model, Venture, ventureSchema]
              · rcases hv : req.body.prop "title" with _ | _ | _ | _ | _ | _ | _ <;>
                  simp_all [JsVal.isDefined, JsVal.truthy]
              · simpa [hasDeclaredType] using h3
          · refine ⟨"Missing required fields: title, description, and type are required",
              "type", ?_, Or.inl ⟨by decide, by simpa using h2b⟩, by decide⟩
            simp [h1, h2, h2b]
        · refine ⟨"Missing required fields: title, description, and type are required",
            "description", ?_, Or.inl ⟨by decide, by simpa using h2⟩, by decide⟩
          simp [h1, h2]
      · refine ⟨"Missing required fields: title, description, and type are required",
          "title", ?_, Or.inl ⟨by decide, by simpa using h1⟩, by decide⟩
        simp [h1]
    obtain ⟨msg, k, hout, hoff, hinc⟩ := key
    rw [hout]
    exact ⟨rfl, ⟨msg, k, rfl, hoff, hinc⟩, rfl, hcs.1, hcs.2⟩
  | milestones =>
    have key : ∃ msg k, handler .milestones env req w =
        ⟨json (corsHeaders "GET, POST, PUT, DELETE, OPTIONS") 400 (failure msg), w0⟩ ∧
        offending .milestones env req.body k ∧ includes msg k = true := by
      simp only [handler, milestonesHandler, hm, hconn, milestonesPost, hread]
      simp only [Resource.model, Milestone, milestoneSchema, List.mem_cons,
        List.mem_singleton, List.not_mem_nil, or_false] at hp
      by_cases h1 : (req.body.prop "title").truthy = true
      · by_cases h2 : (req.body.prop "date").truthy = true
        · by_cases h3 : (req.body.prop "title").typeof = "string"
          · by_cases h4 : invalidDate env (req.body.prop "date") = true
            · refine ⟨"Invalid data type: date must be a valid date", "date", ?_,
                Or.inr ⟨⟨"date", .date, true, none⟩, ?_, rfl, ?_, ?_⟩, by decide⟩
              · simp [h1, h2, h3, h4]
              · simp [Resource.model, Milestone, milestoneSchema]
              · rcases hv : req.body.prop "date" with _ | _ | _ | _ | _ | _ | _ <;>
                  simp_all [JsVal.isDefined, JsVal.truthy]
              · simpa [hasDeclaredType] using h4
            · exfalso
              simp only [Resource.checkedPaths, List.mem_cons, List.mem_singleton,
                List.not_mem_nil, or_false] at hchk
              rcases hp with rfl | rfl | rfl | rfl | rfl <;>
                simp [hasDeclaredType] at hchk hty hdef hseq
              · exact hty h3
              · exact h4 hty
          · refine ⟨"Invalid data type: title must be a string", "title", ?_,
              Or.inr ⟨⟨"title", .string true false, true, none⟩, ?_, rfl, ?_, ?_⟩,
              by decide⟩
            · simp [h1, h2, h3]
            · simp [Resource.model, Milestone, milestoneSchema]
            · rcases hv : req.body.prop "title" with _ | _ | _ | _ | _ | _ | _ <;>
                simp_all [JsVal.isDefined, JsVal.truthy]
            · simpa [hasDeclaredType] using h3
        · refine ⟨"Missing required fields: title and date are required",
            "date", ?_, Or.inl ⟨by decide, by simpa using h2⟩, by decide⟩
          simp [h1, h2]
      · refine ⟨"Missing required fields: title and date are required",
          "title", ?_, Or.inl ⟨by decide, by simpa using h1⟩, by decide⟩
        simp [h1]
    obtain ⟨msg, k, hout, hoff, hinc⟩ := key
    rw [hout]
    exact ⟨rfl, ⟨msg, k, rfl, hoff, hinc⟩, rfl, hcs.1, hcs.2⟩

/-- Witness of C3: a project posted with `featured: "yes"`. -/
theorem post_ill_typed_witness :
    (handler .projects env0 postProjectFeaturedString world0).res.status = 400 ∧
      (handler .projects env0 postProjectFeaturedString world0).world.storageCalls =
        world0.storageCalls :=
  ⟨(post_ill_typed .projects (by decide) env0 postProjectFeaturedString world0 rfl ⟨_, rfl⟩
      ⟨by decide, by decide⟩ ⟨"featured", .boolean, false, some (.bool false)⟩ (by decide)
      (by decide) (by decide) (by decide) (by decide)).1,
    (post_ill_typed .projects (by decide) env0 postProjectFeaturedString world0 rfl ⟨_, rfl⟩
      ⟨by decide, by decide⟩ ⟨"featured", .boolean, false, some (.bool false)⟩ (by decide)
      (by decide) (by decide) (by decide) (by decide)).2.2.2.2⟩

/-- Counterexample to C3 as stated: in the body of `postProjectNumericUrl` the field
`imageUrl`, declared a string, is present and is a number, yet the handler does not answer
400: it issues the `save`, and the response is 201. -/
theorem post_optional_field_not_checked :
    (postProjectNumericUrl.body.prop "imageUrl").isDefined = true ∧
      hasDeclaredType env0 (.string true false)
        (postProjectNumericUrl.body.prop "imageUrl") = false ∧
      (handler .projects env0 postProjectNumericUrl world0).world.storageCalls =
        [.save "Project" postProjectNumericUrl.body] ∧
      (handler .projects env0 postProjectNumericUrl world0).res.status = 201 := by
  decide

/-! ## C4: the connection cannot be acquired -/

/-- C4. For each of the four handlers and every request whose method is not OPTIONS,
whatever its method, query and body: if `connectToDatabase` fails, the response is status
503 with body exactly `{success: false, error: "Database connection failed. Please try
again later."}`, no storage call is made and every collection is unchanged. -/
theorem connection_failure (r : Resource) (env : Env) (req : Request) (w : World)
    (hm : req.method ≠ "OPTIONS") (e : JsError)
    (hf : (connectToDatabase env w).1 = .error e) :
    (handler r env req w).res =
        ⟨503, corsHeaders r.allowMethods,
          some { success := false,
                 error := some "Database connection failed. Please try again later." }⟩ ∧
      (handler r env req w).world = (connectToDatabase env w).2 ∧
      sameRecords (handler r env req w).world w ∧
      (handler r env req w).world.storageCalls = w.storageCalls := by
  have hcs := connect_sameRecords env w
  rcases hconn : connectToDatabase env w with ⟨res, w0⟩
  rw [hconn] at hf hcs
  simp only at hf hcs
  subst hf
  cases r <;>
    simp [handler, projectsHandler, venturesHandler, milestonesHandler, profileHandler, hm,
      hconn, connectionFailed, json, failure, Resource.allowMethods, hcs.1, hcs.2]

/-- Witness of C4: a DELETE on the profile path when `MONGODB_URI` is not configured. -/
theorem connection_failure_witness :
    (handler .profile envNoUri deleteProfile world0).res =
        ⟨503, corsHeaders "GET, PUT, OPTIONS",
          some { success := false,
                 error := some "Database connection failed. Please try again later." }⟩ ∧
      (handler .profile envNoUri deleteProfile world0).world =
        (connectToDatabase envNoUri world0).2 ∧
      sameRecords (handler .profile envNoUri deleteProfile world0).world world0 ∧
      (handler .profile envNoUri deleteProfile world0).world.storageCalls =
        world0.storageCalls :=
  connection_failure .profile envNoUri deleteProfile world0 (by decide) missingUriError rfl

/-! ## C5: read by identifier -/

/-- C5. GET with an identifier on projects, ventures or milestones, connection acquired,
the identifier well-formed and the storage lookup not failing: if the collection holds a
record with that identifier (and no other with the same one), the response is status 200
with body `{success: true, data: <that record>}`; if it holds none, the response is status
404 with body `{success: false, error: "<Resource> not found"}`. The collections are
unchanged. -/
theorem get_by_id (r : Resource) (hr : r ≠ .profile) (env : Env) (req : Request)
    (w : World) (hm : req.method = "GET") (hc : acquired env w)
    (s oid : String) (hid : req.id = .str s) (hs : s ≠ "")
    (hparse : env.parseObjectId s = some oid) (hfault : env.fault = none) :
    (∀ d ∈ r.model.coll w, d.id = oid → (∀ d2 ∈ r.model.coll w, d2.id = oid → d2 = d) →
        (handler r env req w).res =
          ⟨200, corsHeaders r.allowMethods,
            some { success := true, data := some (.one d) }⟩) ∧
      ((∀ d ∈ r.model.coll w, d.id ≠ oid) →
        (handler r env req w).res =
          ⟨404, corsHeaders r.allowMethods,
            some { success := false, error := some (r.label ++ " not found") }⟩) ∧
      sameRecords (handler r env req w).world w := by
  obtain ⟨h, hc⟩ := hc
  have hcs := connect_sameRecords env w
  rcases hconn : connectToDatabase env w with ⟨res, w0⟩
  rw [hconn] at hc hcs
  simp only at hc hcs
  subst hc
  have htr : req.id.truthy = true := by simp [hid, JsVal.truthy, hs]
  have hcoll := coll_of_sameRecords r w0 w hcs.1
  have hfind : r.model.findById env req.id w0 =
      (.ok ((r.model.coll w).find? (fun x => x.id == oid)),
        w0.logCall (.findById r.model.name req.id)) := by
    simp [Model.findById, hid, castObjectId, hparse, hfault, hcoll]
  rw [get_dispatch r hr env req w h w0 hm hconn, if_pos htr, hfind]
  refine ⟨fun d hd hdo hu => ?_, fun hno => ?_, ?_⟩
  · cases hf : (r.model.coll w).find? (fun x => x.id == oid) with
    | none =>
      rw [List.find?_eq_none] at hf
      exact absurd (by simpa using hdo) (hf d hd)
    | some x =>
      have hx := List.find?_some hf
      have hxm := List.mem_of_find?_eq_some hf
      rw [hu x hxm (by simpa using hx)]
      rfl
  · have hf : (r.model.coll w).find? (fun x => x.id == oid) = none := by
      rw [List.find?_eq_none]
      intro x hx
      simpa using hno x hx
    rw [hf]
    rfl
  · cases hf : (r.model.coll w).find? (fun x => x.id == oid) <;>
      exact sameRecords_trans (sameRecords_logCall _ _) hcs.1

/-- Witness of C5: `GET /milestones?id=665af0000000000000000001` where that milestone is
stored. -/
theorem get_by_id_witness :
    (handler .milestones env0 getMilestoneLaunched worldTwoMilestones).res =
      ⟨200, corsHeaders "GET, POST, PUT, DELETE, OPTIONS",
        some { success := true, data := some (.one launchedDoc) }⟩ :=
  (get_by_id .milestones (by decide) env0 getMilestoneLaunched worldTwoMilestones rfl
    ⟨_, rfl⟩ "665af0000000000000000001" "665af0000000000000000001" rfl (by decide)
    (by decide) rfl).1 launchedDoc (by decide) rfl (by decide)

/-! ## C6: read by a malformed identifier -/

/-- C6, the code at the failing input. `GET /projects?id=abc`: the identifier is malformed,
the lookup raises a cast error, and the response is status 500 with "Failed to retrieve
project data", not status 400 with "Invalid project ID format"; the DELETE handler of the
same file answers the same identifier with that 400. -/
theorem get_malformed_id_is_500 :
    hexObjectId "abc" = none ∧
      (handler .projects env0 getProjectAbc world0).res =
        ⟨500, corsHeaders "GET, POST, PUT, DELETE, OPTIONS",
          some { success := false, error := some "Failed to retrieve project data" }⟩ ∧
      (handler .projects env0 deleteProjectAbc world0).res =
        ⟨400, corsHeaders "GET, POST, PUT, DELETE, OPTIONS",
          some { success := false, error := some "Invalid project ID format" }⟩ := by
  decide

/-! ## C7: list -/

/-- C7. GET without an identifier on projects, ventures or milestones, connection acquired
and the storage query not failing: the response is status 200 with body
`{success: true, data}` where `data` holds every record of the collection (it is a
permutation of the collection) in the order of `sort({ key: -1 })`: descending creation
time for projects and ventures, descending event date for milestones. When the collection
is empty, `data` is the empty sequence, still with status 200. The collections are
unchanged. -/
theorem get_list (r : Resource) (hr : r ≠ .profile) (env : Env) (req : Request)
    (w : World) (hm : req.method = "GET") (hc : acquired env w)
    (hid : req.id.truthy = false) (hfault : env.fault = none) :
    ∃ ds, (handler r env req w).res =
        ⟨200, corsHeaders r.allowMethods,
          some { success := true, data := some (.many ds) }⟩ ∧
      ds.Perm (r.model.coll w) ∧
      ds.Sorted (descBy r.sortField) ∧
      (r ≠ .milestones → ds.Sorted (fun a b => b.createdAt ≤ a.createdAt)) ∧
      (r = .milestones → ∀ date : Doc → Int,
        (∀ d ∈ r.model.coll w, d.get "date" = some (.date (date d))) →
        ds.Sorted (fun a b => date b ≤ date a)) ∧
      (r.model.coll w = [] → ds = []) ∧
      sameRecords (handler r env req w).world w := by
  obtain ⟨h, hc⟩ := hc
  have hcs := connect_sameRecords env w
  rcases hconn : connectToDatabase env w with ⟨res, w0⟩
  rw [hconn] at hc hcs
  simp only at hc hcs
  subst hc
  have hcoll := coll_of_sameRecords r w0 w hcs.1
  have hfind : r.model.findSorted env r.sortField w0 =
      (.ok ((r.model.coll w).insertionSort (descBy r.sortField)),
        w0.logCall (.findSorted r.model.name r.sortField)) := by
    simp [Model.findSorted, hfault, hcoll]
  have hperm := List.perm_insertionSort (descBy r.sortField) (r.model.coll w)
  have hsorted := List.sorted_insertionSort (descBy r.sortField) (r.model.coll w)
  refine ⟨(r.model.coll w).insertionSort (descBy r.sortField), ?_, hperm, hsorted, ?_, ?_, ?_, ?_⟩
  · rw [get_dispatch r hr env req w h w0 hm hconn, hfind]
    simp [hid, afterFindSorted, json]
  · intro hnm
    have hkey : r.sortField = "createdAt" := by
      cases r <;> first | rfl | exact absurd rfl hnm
    rw [hkey] at hsorted ⊢
    refine List.Pairwise.imp ?_ hsorted
    intro a b hab
    simpa [descBy, sortKey] using hab
  · intro hmil date hdate
    subst hmil
    refine List.Pairwise.imp_of_mem ?_ hsorted
    intro a b ha hb hab
    have ha2 := hdate a (hperm.subset ha)
    have hb2 := hdate b (hperm.subset hb)
    simpa [descBy, sortKey, Resource.sortField, ha2, hb2] using hab
  · intro hnil
    simp [hnil]
  · rw [get_dispatch r hr env req w h w0 hm hconn, hfind]
    simp only [hid, afterFindSorted]
    exact sameRecords_trans (sameRecords_logCall _ _) hcs.1

/-- Witness of C7: `GET /milestones` on two milestones stored with the earlier date
first; the later one comes first in the response. -/
theorem get_list_witness :
    (handler .milestones env0 getMilestones worldTwoMilestones).res =
        ⟨200, corsHeaders "GET, POST, PUT, DELETE, OPTIONS",
          some { success := true, data := some (.many [launchedDoc, foundedDoc]) }⟩ ∧
      [launchedDoc, foundedDoc].Perm [foundedDoc, launchedDoc] ∧
      [launchedDoc, foundedDoc].Sorted (descBy "date") := by
  obtain ⟨ds, h1, h2, h3, -⟩ :=
    get_list .milestones (by decide) env0 getMilestones worldTwoMilestones rfl ⟨_, rfl⟩
      (by decide) rfl
  have hres : (handler .milestones env0 getMilestones worldTwoMilestones).res =
      ⟨200, corsHeaders "GET, POST, PUT, DELETE, OPTIONS",
        some { success := true, data := some (.many [launchedDoc, foundedDoc]) }⟩ := by
    decide
  have hds : ds = [launchedDoc, foundedDoc] := by
    rw [hres] at h1
    simpa [Resource.allowMethods] using h1.symm
  subst hds
  exact ⟨hres, h2, h3⟩

/-! ## C8: update and delete without an identifier -/

/-- C8. PUT and DELETE on projects, ventures and milestones, connection acquired: when the
`id` query parameter is absent (or empty), the response is status 400 with the error
"<Resource> ID is required for update" (PUT) or "<Resource> ID is required for deletion"
(DELETE), whatever the body is; no storage call is made and every collection is
unchanged. -/
theorem put_delete_without_id (r : Resource) (hr : r ≠ .profile) (env : Env) (req : Request)
    (w : World) (hc : acquired env w) (hid : req.id.truthy = false) :
    (req.method = "PUT" →
        (handler r env req w).res =
          ⟨400, corsHeaders r.allowMethods,
            some { success := false,
                   error := some (r.label ++ " ID is required for update") }⟩) ∧
      (req.method = "DELETE" →
        (handler r env req w).res =
          ⟨400, corsHeaders r.allowMethods,
            some { success := false,
                   error := some (r.label ++ " ID is required for deletion") }⟩) ∧
      (req.method = "PUT" ∨ req.method = "DELETE" →
        (handler r env req w).world = (connectToDatabase env w).2 ∧
          sameRecords (handler r env req w).world w ∧
          (handler r env req w).world.storageCalls = w.storageCalls) := by
  obtain ⟨h, hc⟩ := hc
  have hcs := connect_sameRecords env w
  rcases hconn : connectToDatabase env w with ⟨res, w0⟩
  rw [hconn] at hc hcs
  simp only at hc hcs
  subst hc
  cases r with
  | profile => exact absurd rfl hr
  | projects =>
    refine ⟨fun hm => ?_, fun hm => ?_, fun hm => ?_⟩
    · simp [handler, projectsHandler, hm, hconn, projectsPut, hid, json, failure,
        Resource.allowMethods, Resource.label]
    · simp [handler, projectsHandler, hm, hconn, projectsDelete, hid, json, failure,
        Resource.allowMethods, Resource.label]
    · rcases hm with hm | hm <;>
        simp [handler, projectsHandler, hm, hconn, projectsPut, projectsDelete, hid, hcs.1,
          hcs.2]
  | ventures =>
    refine ⟨fun hm => ?_, fun hm => ?_, fun hm => ?_⟩
    · simp [handler, venturesHandler, hm, hconn, venturesPut, hid, json, failure,
        Resource.allowMethods, Resource.label]
    · simp [handler, venturesHandler, hm, hconn, venturesDelete, hid, json, failure,
        Resource.allowMethods, Resource.label]
    · rcases hm with hm | hm <;>
        simp [handler, venturesHandler, hm, hconn, venturesPut, venturesDelete, hid, hcs.1,
          hcs.2]
  | milestones =>
    refine ⟨fun hm => ?_, fun hm => ?_, fun hm => ?_⟩
    · simp [handler, milestonesHandler, hm, hconn, milestonesPut, hid, json, failure,
        Resource.allowMethods, Resource.label]
    · simp [handler, milestonesHandler, hm, hconn, milestonesDelete, hid, json, failure,
        Resource.allowMethods, Resource.label]
    · rcases hm with hm | hm <;>
        simp [handler, milestonesHandler, hm, hconn, milestonesPut, milestonesDelete, hid,
          hcs.1, hcs.2]

/-- Witness of C8: a PUT on milestones with a body and no `id`. -/
theorem put_delete_without_id_witness :
    (handler .milestones env0 putMilestoneNoId world0).res =
        ⟨400, corsHeaders "GET, POST, PUT, DELETE, OPTIONS",
          some { success := false, error := some "Milestone ID is required for update" }⟩ ∧
      (handler .milestones env0 putMilestoneNoId world0).world.storageCalls = [] :=
  ⟨(put_delete_without_id .milestones (by decide) env0 putMilestoneNoId world0 ⟨_, rfl⟩
      (by decide)).1 rfl,
    ((put_delete_without_id .milestones (by decide) env0 putMilestoneNoId world0 ⟨_, rfl⟩
      (by decide)).2.2 (Or.inl rfl)).2.2⟩

/-! ## C9: update by identifier -/

/-- C9. PUT with a well-formed identifier on projects, ventures or milestones, connection
acquired, the body present and passing the type checks of the handler, and the storage
call not failing, which it does when the body is not an object (a string, a number, an
array): the body is then an object and, if no record has that identifier, the response is status 404 with body
`{success: false, error: "<Resource> not found"}` and the collections are unchanged
(nothing is created); otherwise the response is status 200 with body
`{success: true, data}` where `data` is the record as the collection holds it after the
update, with `updatedAt` set to the time of the update. -/
theorem put_by_id (r : Resource) (hr : r ≠ .profile) (env : Env) (req : Request)
    (w : World) (hm : req.method = "PUT") (hc : acquired env w)
    (s oid : String) (hid : req.id = .str s) (hs : s ≠ "")
    (hparse : env.parseObjectId s = some oid)
    (hb : bodyPresent req) (hchk : putChecks env r req.body = true)
    (o : Option Doc)
    (hok : (r.model.findByIdAndUpdate env req.id req.body (connectToDatabase env w).2).1 =
      .ok o) :
    ((∀ d ∈ r.model.coll w, d.id ≠ oid) →
        (handler r env req w).res =
          ⟨404, corsHeaders r.allowMethods,
            some { success := false, error := some (r.label ++ " not found") }⟩ ∧
        sameRecords (handler r env req w).world w) ∧
      ((∃ d ∈ r.model.coll w, d.id = oid) →
        ∃ d1, (handler r env req w).res =
            ⟨200, corsHeaders r.allowMethods,
              some { success := true, data := some (.one d1) }⟩ ∧
          (r.model.coll (handler r env req w).world).find? (fun x => x.id == oid) = some d1 ∧
          d1.id = oid ∧ d1.updatedAt = env.now) ∧
      req.body.isObject = true := by
  have hobj := update_ok_object r.model env req.id req.body _ o hok
  obtain ⟨h, hc⟩ := hc
  have hcs := connect_sameRecords env w
  rcases hconn : connectToDatabase env w with ⟨res, w0⟩
  rw [hconn] at hc hcs hok
  simp only at hc hcs hok
  subst hc
  have htr : req.id.truthy = true := by simp [hid, JsVal.truthy, hs]
  have hcoll := coll_of_sameRecords r w0 w hcs.1
  rw [put_accepted r hr env req w h w0 hm hconn htr hb hchk]
  rw [hid] at hok ⊢
  obtain ⟨upd, -, -, -, hres⟩ := update_ok r.model env s oid req.body w0 o hparse hok
  rw [hres, hcoll]
  refine ⟨?_, ?_, hobj⟩
  · intro hno
    have hf : (r.model.coll w).find? (fun x => x.id == oid) = none := by
      rw [List.find?_eq_none]
      intro x hx
      simpa using hno x hx
    rw [hf]
    exact ⟨rfl, sameRecords_trans (sameRecords_logCall _ _) hcs.1⟩
  · rintro ⟨d, hd, hdo⟩
    cases hf : (r.model.coll w).find? (fun x => x.id == oid) with
    | none =>
      rw [List.find?_eq_none] at hf
      exact absurd (by simpa using hdo) (hf d hd)
    | some x =>
      have hx : x.id = oid := by simpa using List.find?_some hf
      refine ⟨applyUpdate env x upd, rfl, ?_, hx, rfl⟩
      simp only [afterUpdate]
      rw [coll_setColl]
      exact find_replaceDoc oid (applyUpdate env x upd) hx _ x hf

/-- Witness of C9: `PUT /projects?id=665af0000000000000000001 {title: "  New  "}` where
that project is stored, one second after its last write. -/
theorem put_by_id_witness :
    (handler .projects envLater putTitlePadded worldOneProject).res =
        ⟨200, corsHeaders "GET, POST, PUT, DELETE, OPTIONS",
          some { success := true, data := some (.one renamedProject) }⟩ ∧
      ((handler .projects envLater putTitlePadded worldOneProject).world.projects).find?
        (fun x => x.id == "665af0000000000000000001") = some renamedProject ∧
      renamedProject.updatedAt = envLater.now := by
  obtain ⟨d1, h1, h2, -, h4⟩ :=
    (put_by_id .projects (by decide) envLater putTitlePadded worldOneProject rfl ⟨_, rfl⟩
      "665af0000000000000000001" "665af0000000000000000001" rfl (by decide) (by decide)
      ⟨by decide, by decide⟩ (by decide) (some renamedProject) (by decide)).2.1
      ⟨oldProject, by decide, rfl⟩
  have hres : (handler .projects envLater putTitlePadded worldOneProject).res =
      ⟨200, corsHeaders "GET, POST, PUT, DELETE, OPTIONS",
        some { success := true, data := some (.one renamedProject) }⟩ := by
    decide
  have hd : d1 = renamedProject := by
    rw [hres] at h1
    simpa [Resource.allowMethods] using h1.symm
  subst hd
  exact ⟨hres, h2, h4⟩

/-! ## C10: partial update -/

/-- C10, as amended. For a stored project and a PUT, with its well-formed identifier,
whose body contains only a string `title` that is not empty once trimmed, the connection
acquired and the storage not failing: the response is 200 and the stored record after the
update has the trimmed title, every other field unchanged (`description` among them), the
same identifier and `createdAt`, and `updatedAt` equal to the time of the update, hence
strictly later than before when the clock has advanced since; the other records are
untouched. The update handed to the storage layer is the body itself, and this holds for
every PUT on projects that reaches the storage layer. -/
theorem put_title_only (env : Env) (req : Request) (w : World)
    (hm : req.method = "PUT") (hc : acquired env w)
    (s oid : String) (hid : req.id = .str s) (hs : s ≠ "")
    (hparse : env.parseObjectId s = some oid)
    (t : String) (hbody : req.body = .obj [("title", .str t)]) (ht : jsTrim t ≠ "")
    (hfault : env.fault = none)
    (d : Doc) (hd : w.projects.find? (fun x => x.id == oid) = some d) :
    (∃ d1, (handler .projects env req w).res =
          ⟨200, corsHeaders "GET, POST, PUT, DELETE, OPTIONS",
            some { success := true, data := some (.one d1) }⟩ ∧
        (handler .projects env req w).world.projects = replaceDoc oid d1 w.projects ∧
        d1.get "title" = some (.str (jsTrim t)) ∧
        (∀ k, k ≠ "title" → d1.get k = d.get k) ∧
        d1.id = d.id ∧ d1.createdAt = d.createdAt ∧ d1.updatedAt = env.now ∧
        (d.updatedAt < env.now → d.updatedAt < d1.updatedAt)) ∧
      (handler .projects env req w).world.storageCalls =
        w.storageCalls ++ [.findByIdAndUpdate "Project" req.id req.body true true] ∧
      (∀ (req2 : Request) (w2 : World), req2.method = "PUT" → acquired env w2 →
        (handler .projects env req2 w2).world.storageCalls = w2.storageCalls ∨
        (handler .projects env req2 w2).world.storageCalls =
          w2.storageCalls ++ [.findByIdAndUpdate "Project" req2.id req2.body true true]) := by
  have hgen := fun (req2 : Request) (w2 : World) (h2 : req2.method = "PUT")
    (hc2 : acquired env w2) => projects_put_calls env req2 w2 h2 hc2
  obtain ⟨h, hc⟩ := hc
  have hcs := connect_sameRecords env w
  rcases hconn : connectToDatabase env w with ⟨res, w0⟩
  rw [hconn] at hc hcs
  simp only at hc hcs
  subst hc
  have htr : req.id.truthy = true := by simp [hid, JsVal.truthy, hs]
  have hb : bodyPresent req := by simp [bodyPresent, hbody]
  have hchk : putChecks env .projects req.body = true := by
    simp [putChecks, hbody, JsVal.prop, List.lookup, JsVal.isDefined, JsVal.typeof,
      JsVal.truthy]
  have hcoll : w0.projects = w.projects := hcs.1.1
  have hcast : castUpdate env projectSchema [("title", JsVal.str t)] =
      .ok [("title", .str (jsTrim t))] := by
    simp [castUpdate, projectSchema, castPath, castStr, applySetters]
  have hue : updateErrors projectSchema [("title", FieldVal.str (jsTrim t))] = [] := by
    simp [updateErrors, projectSchema, FieldVal.isEmpty, ht]
  have hres : Project.findByIdAndUpdate env (.str s) (.obj [("title", .str t)]) w0 =
      (.ok (some (applyUpdate env d [("title", .str (jsTrim t))])),
        Project.setColl (replaceDoc oid (applyUpdate env d [("title", .str (jsTrim t))])
          (Project.coll w0))
          (w0.logCall (.findByIdAndUpdate "Project" (.str s) (.obj [("title", .str t)])
            true true))) := by
    simp only [Model.findByIdAndUpdate, castObjectId, hparse, JsVal.entries]
    have hs2 : Project.schema = projectSchema := rfl
    have hc2 : Project.coll w0 = w.projects := hcoll
    rw [hs2, hcast]
    simp only [hue, ne_eq, not_true_eq_false, if_false, hfault, hc2, hd]
    rfl
  rw [put_accepted .projects (by decide) env req w h w0 hm hconn htr hb hchk]
  simp only [Resource.model]
  rw [hid, hbody, hres]
  refine ⟨⟨applyUpdate env d [("title", .str (jsTrim t))], rfl, ?_, ?_, ?_, rfl, rfl, rfl,
    fun hlt => hlt⟩, ?_, hgen⟩
  · simp only [afterUpdate, Project]
    rw [hcoll]
  · simp [applyUpdate, Doc.get, setFields, lookup_setField]
  · intro k hk
    simp [applyUpdate, Doc.get, setFields, lookup_setField, hk]
  · simp only [afterUpdate]
    have := storageCalls_setColl .projects
      (replaceDoc oid (applyUpdate env d [("title", .str (jsTrim t))]) (Project.coll w0))
      (w0.logCall (.findByIdAndUpdate "Project" (.str s) (.obj [("title", .str t)])
        true true))
    simp only [Resource.model] at this
    rw [this, storageCalls_logCall, hcs.2]
    rfl

/-- Witness of C10: `PUT /projects?id=665af0000000000000000001 {title: "  New  "}` one
second after the record was written. -/
theorem put_title_only_witness :
    (handler .projects envLater putTitlePadded worldOneProject).res =
        ⟨200, corsHeaders "GET, POST, PUT, DELETE, OPTIONS",
          some { success := true, data := some (.one renamedProject) }⟩ ∧
      (handler .projects envLater putTitlePadded worldOneProject).world.projects =
        [renamedProject] ∧
      renamedProject.get "title" = some (.str "New") ∧
      renamedProject.get "description" = oldProject.get "description" ∧
      renamedProject.id = oldProject.id ∧
      renamedProject.createdAt = oldProject.createdAt ∧
      oldProject.updatedAt < renamedProject.updatedAt := by
  obtain ⟨⟨d1, h1, h2, h3, h4, h5, h6, -, h8⟩, -, -⟩ :=
    put_title_only envLater putTitlePadded worldOneProject rfl ⟨_, rfl⟩
      "665af0000000000000000001" "665af0000000000000000001" rfl (by decide) (by decide)
      "  New  " rfl (by decide) rfl oldProject (by decide)
  have hres : (handler .projects envLater putTitlePadded worldOneProject).res =
      ⟨200, corsHeaders "GET, POST, PUT, DELETE, OPTIONS",
        some { success := true, data := some (.one renamedProject) }⟩ := by
    decide
  have hd : d1 = renamedProject := by
    rw [hres] at h1
    simpa [Resource.allowMethods] using h1.symm
  subst hd
  exact ⟨hres, h2, h3, h4 "description" (by decide), h5, h6, h8 (by decide)⟩

/-- Counterexample to C10 as stated: `PUT {title: "  New  "}` on a stored project, in the
same millisecond as its last write. The update succeeds, but the stored title is the
trimmed "New", not the title of the body, and `updatedAt` is not strictly later than
before. -/
theorem put_title_trimmed_same_instant :
    (handler .projects env0 putTitlePadded worldOneProject).res.status = 200 ∧
      (handler .projects env0 putTitlePadded worldOneProject).world.projects =
        [{ oldProject with
            fields := [("title", .str "New"), ("description", .str "Desc"),
              ("technologies", .strs []), ("featured", .bool false)] }] ∧
      putTitlePadded.body.prop "title" = .str "  New  " ∧
      FieldVal.str "New" ≠ FieldVal.str "  New  " ∧
      ¬ (oldProject.updatedAt < oldProject.updatedAt) := by
  decide

/-! ## C11: update and delete by a malformed identifier -/

/-- C11. PUT and DELETE on projects, ventures and milestones, connection acquired, with an
identifier that is a non-empty string and does not parse as a storage key, so that the
storage call raises a cast error (for PUT the call reaches the cast of the identifier when
the body is an object and passes the type checks of the handler): the response is exactly
status 400 with body `{success: false, error: "Invalid <resource> ID format"}`, hence
neither 404 nor 500, and the collections are unchanged. -/
theorem malformed_id_put_delete (r : Resource) (hr : r ≠ .profile) (env : Env)
    (req : Request) (w : World) (hc : acquired env w)
    (s : String) (hid : req.id = .str s) (hs : s ≠ "")
    (hbad : env.parseObjectId s = none) :
    (req.method = "DELETE" →
        (handler r env req w).res =
          ⟨400, corsHeaders r.allowMethods,
            some { success := false,
                   error := some ("Invalid " ++ r.noun ++ " ID format") }⟩ ∧
        sameRecords (handler r env req w).world w) ∧
      (req.method = "PUT" → req.body.isObject = true → putChecks env r req.body = true →
        (handler r env req w).res =
          ⟨400, corsHeaders r.allowMethods,
            some { success := false,
                   error := some ("Invalid " ++ r.noun ++ " ID format") }⟩ ∧
        sameRecords (handler r env req w).world w) := by
  obtain ⟨h, hc⟩ := hc
  have hcs := connect_sameRecords env w
  rcases hconn : connectToDatabase env w with ⟨res, w0⟩
  rw [hconn] at hc hcs
  simp only at hc hcs
  subst hc
  have htr : req.id.truthy = true := by simp [hid, JsVal.truthy, hs]
  constructor
  · intro hm
    rw [delete_dispatch r hr env req w h w0 hm hconn htr, hid]
    simp only [Model.findByIdAndDelete, castObjectId, hbad, afterDelete, castError]
    exact ⟨rfl, sameRecords_trans (sameRecords_logCall _ _) hcs.1⟩
  · intro hm hobj hchk
    have hb : bodyPresent req := by
      constructor <;> intro hbody <;> simp [hbody, JsVal.isObject] at hobj
    rw [put_accepted r hr env req w h w0 hm hconn htr hb hchk, hid]
    simp only [Model.findByIdAndUpdate, hobj, Bool.not_true, Bool.false_eq_true, if_false,
      castObjectId, hbad, afterUpdate, castError]
    exact ⟨rfl, sameRecords_trans (sameRecords_logCall _ _) hcs.1⟩

/-- Witness of C11: `DELETE /projects?id=abc` and `PUT /projects?id=abc {title: "X"}`. -/
theorem malformed_id_put_delete_witness :
    (handler .projects env0 deleteProjectAbc world0).res =
        ⟨400, corsHeaders "GET, POST, PUT, DELETE, OPTIONS",
          some { success := false, error := some "Invalid project ID format" }⟩ ∧
      (handler .projects env0 putProjectAbc world0).res =
        ⟨400, corsHeaders "GET, POST, PUT, DELETE, OPTIONS",
          some { success := false, error := some "Invalid project ID format" }⟩ :=
  ⟨((malformed_id_put_delete .projects (by decide) env0 deleteProjectAbc world0 ⟨_, rfl⟩
      "abc" rfl (by decide) (by decide)).1 rfl).1,
    ((malformed_id_put_delete .projects (by decide) env0 putProjectAbc world0 ⟨_, rfl⟩
      "abc" rfl (by decide) (by decide)).2 rfl rfl (by decide)).1⟩

/-! ## C12: the storage layer rejects a write with a validation error -/

/-- C12. Create and update on every resource (POST and PUT on projects, ventures and
milestones, PUT on profile), connection acquired, the write issued: when the storage call
raises an error `e` named `ValidationError`, the response is status 400 with body
`{success: false, error: "Validation failed", details}` where `details` is the sequence
of the messages of the per-field errors of `e`, one per failing field, in the order of
the field map `e.errors`. -/
theorem validation_rejected (r : Resource) (env : Env) (req : Request) (w : World)
    (hc : acquired env w) (hb : bodyPresent req) (e : JsError)
    (hname : e.name = "ValidationError") :
    (r ≠ .profile → req.method = "POST" → postChecks env r req.body = true →
        (r.model.save env (r.model.construct env req.body) (connectToDatabase env w).2).1 =
          .error e →
        (handler r env req w).res =
          ⟨400, corsHeaders r.allowMethods,
            some { success := false, error := some "Validation failed",
                   details := some (e.errors.map Prod.snd) }⟩) ∧
      (r ≠ .profile → req.method = "PUT" → req.id.truthy = true →
        putChecks env r req.body = true →
        (r.model.findByIdAndUpdate env req.id req.body (connectToDatabase env w).2).1 =
          .error e →
        (handler r env req w).res =
          ⟨400, corsHeaders r.allowMethods,
            some { success := false, error := some "Validation failed",
                   details := some (e.errors.map Prod.snd) }⟩) ∧
      (r = .profile → req.method = "PUT" → profileChecks req.body = true →
        (Profile.findOneAndUpdate env req.body (connectToDatabase env w).2).1 = .error e →
        (handler r env req w).res =
          ⟨400, corsHeaders r.allowMethods,
            some { success := false, error := some "Validation failed",
                   details := some (e.errors.map Prod.snd) }⟩) := by
  obtain ⟨h, hc⟩ := hc
  rcases hconn : connectToDatabase env w with ⟨res, w0⟩
  rw [hconn] at hc
  simp only at hc
  subst hc
  refine ⟨fun hr hm hchk hres => ?_, fun hr hm hid hchk hres => ?_,
    fun hr hm hchk hres => ?_⟩
  · rw [post_accepted r hr env req w h w0 hm hconn hb hchk]
    rcases hs : r.model.save env (r.model.construct env req.body) w0 with ⟨res, w1⟩
    rw [hs] at hres
    simp only at hres
    subst hres
    simp [afterSave, hname, json, validationFailure]
  · rw [put_accepted r hr env req w h w0 hm hconn hid hb hchk]
    rcases hs : r.model.findByIdAndUpdate env req.id req.body w0 with ⟨res, w1⟩
    rw [hs] at hres
    simp only at hres
    subst hres
    simp [afterUpdate, hname, json, validationFailure]
  · subst hr
    rw [profile_put_accepted env req w h w0 hm hconn hb hchk]
    rcases hs : Profile.findOneAndUpdate env req.body w0 with ⟨res, w1⟩
    rw [hs] at hres
    simp only at hres
    subst hres
    simp [afterUpsert, hname, json, validationFailure, Resource.allowMethods]

/-- Witness of C12: `POST /projects {title: "  ", description: "  "}`; the two required
fields fail validation, in the order of the schema. -/
theorem validation_rejected_witness :
    (handler .projects env0 postProjectBlank world0).res =
      ⟨400, corsHeaders "GET, POST, PUT, DELETE, OPTIONS",
        some { success := false, error := some "Validation failed",
               details := some ["Path `title` is required.",
                 "Path `description` is required."] }⟩ :=
  (validation_rejected .projects env0 postProjectBlank world0 ⟨_, rfl⟩
    ⟨by decide, by decide⟩ blankError rfl).1 (by decide) rfl (by decide) (by decide)

/-! ## C13: delete by identifier -/

/-- C13. DELETE with a well-formed identifier on projects, ventures or milestones,
connection acquired and the storage call not failing: if the collection (whose identifiers
are pairwise distinct) holds a record with that identifier, the response is status 200
with body `{success: true, data: <the deleted record>, message: "<Resource> deleted
successfully"}` and the record is removed, every other record of every collection being
kept; if it holds none, the response is status 404 with body
`{success: false, error: "<Resource> not found"}` and the collections are unchanged. -/
theorem delete_by_id (r : Resource) (hr : r ≠ .profile) (env : Env) (req : Request)
    (w : World) (hm : req.method = "DELETE") (hc : acquired env w)
    (s oid : String) (hid : req.id = .str s) (hs : s ≠ "")
    (hparse : env.parseObjectId s = some oid) (hfault : env.fault = none) :
    (∀ d ∈ r.model.coll w, d.id = oid → uniqueIds (r.model.coll w) →
        (handler r env req w).res =
          ⟨200, corsHeaders r.allowMethods,
            some { success := true, data := some (.one d),
                   message := some (r.label ++ " deleted successfully") }⟩ ∧
        r.model.coll (handler r env req w).world =
          (r.model.coll w).filter (fun x => x.id != oid) ∧
        (∀ r2, r2 ≠ r → r2.model.coll (handler r env req w).world = r2.model.coll w)) ∧
      ((∀ d ∈ r.model.coll w, d.id ≠ oid) →
        (handler r env req w).res =
          ⟨404, corsHeaders r.allowMethods,
            some { success := false, error := some (r.label ++ " not found") }⟩ ∧
        sameRecords (handler r env req w).world w) := by
  obtain ⟨h, hc⟩ := hc
  have hcs := connect_sameRecords env w
  rcases hconn : connectToDatabase env w with ⟨res, w0⟩
  rw [hconn] at hc hcs
  simp only at hc hcs
  subst hc
  have htr : req.id.truthy = true := by simp [hid, JsVal.truthy, hs]
  have hcoll := coll_of_sameRecords r w0 w hcs.1
  rw [delete_dispatch r hr env req w h w0 hm hconn htr, hid,
    delete_result r.model env s oid w0 hparse hfault, hcoll]
  constructor
  · intro d hd hdo hu
    rw [find_of_unique oid _ d hd hdo hu]
    refine ⟨rfl, ?_, fun r2 hne => ?_⟩
    · simp only [afterDelete]
      rw [coll_setColl, removeDoc_eq_filter oid _ hu]
    · simp only [afterDelete]
      rw [coll_setColl_ne r r2 hne]
      exact coll_of_sameRecords r2 _ w (sameRecords_trans (sameRecords_logCall _ _) hcs.1)
  · intro hno
    rw [find_none_of_absent oid _ hno]
    exact ⟨rfl, sameRecords_trans (sameRecords_logCall _ _) hcs.1⟩

/-- Witness of C13: `DELETE /milestones?id=665af0000000000000000001` where that milestone
and another one are stored. -/
theorem delete_by_id_witness :
    (handler .milestones env0 deleteMilestoneLaunched worldTwoMilestones).res =
        ⟨200, corsHeaders "GET, POST, PUT, DELETE, OPTIONS",
          some { success := true, data := some (.one launchedDoc),
                 message := some "Milestone deleted successfully" }⟩ ∧
      (handler .milestones env0 deleteMilestoneLaunched worldTwoMilestones).world.milestones =
        [foundedDoc] :=
  ⟨((delete_by_id .milestones (by decide) env0 deleteMilestoneLaunched worldTwoMilestones
      rfl ⟨_, rfl⟩ "665af0000000000000000001" "665af0000000000000000001" rfl (by decide)
      (by decide) rfl).1 launchedDoc (by decide) rfl (by decide)).1,
    ((delete_by_id .milestones (by decide) env0 deleteMilestoneLaunched worldTwoMilestones
      rfl ⟨_, rfl⟩ "665af0000000000000000001" "665af0000000000000000001" rfl (by decide)
      (by decide) rfl).1 launchedDoc (by decide) rfl (by decide)).2.1⟩

/-! ## C14: a deleted record is gone -/

/-- C14. For every record of projects, ventures or milestones (identifiers pairwise
distinct in the collection): after a successful DELETE by its identifier (status 200, with
that record as `data`), a subsequent GET by the same identifier is answered 404 and a
second DELETE by the same identifier is answered 404, not 500, the storage calls of these
two requests not failing; the record is gone, and every other record of the collection
and of the other collections is unchanged. -/
theorem delete_then_absent (r : Resource) (hr : r ≠ .profile) (env env2 env3 : Env)
    (reqDel reqGet reqDel2 : Request) (w : World) (s oid : String) (d : Doc)
    (hd : d ∈ r.model.coll w) (hdo : d.id = oid) (hu : uniqueIds (r.model.coll w))
    (hs : s ≠ "")
    (hm1 : reqDel.method = "DELETE") (hid1 : reqDel.id = .str s)
    (hp1 : env.parseObjectId s = some oid)
    (hok : (handler r env reqDel w).res.status = 200)
    (hm2 : reqGet.method = "GET") (hid2 : reqGet.id = .str s)
    (hp2 : env2.parseObjectId s = some oid) (hf2 : env2.fault = none)
    (hm3 : reqDel2.method = "DELETE") (hid3 : reqDel2.id = .str s)
    (hp3 : env3.parseObjectId s = some oid) (hf3 : env3.fault = none) :
    (handler r env reqDel w).res =
        ⟨200, corsHeaders r.allowMethods,
          some { success := true, data := some (.one d),
                 message := some (r.label ++ " deleted successfully") }⟩ ∧
      (handler r env2 reqGet (handler r env reqDel w).world).res =
        ⟨404, corsHeaders r.allowMethods,
          some { success := false, error := some (r.label ++ " not found") }⟩ ∧
      (handler r env3 reqDel2 (handler r env reqDel w).world).res =
        ⟨404, corsHeaders r.allowMethods,
          some { success := false, error := some (r.label ++ " not found") }⟩ ∧
      d ∉ r.model.coll (handler r env reqDel w).world ∧
      r.model.coll (handler r env reqDel w).world =
        (r.model.coll w).filter (fun x => x.id != oid) ∧
      (∀ r2, r2 ≠ r → r2.model.coll (handler r env reqDel w).world = r2.model.coll w) := by
  obtain ⟨h, w0, d0, hconn, hfind, hout⟩ :=
    delete_success r hr env reqDel w hm1 s oid hid1 hs hp1 hok
  have hcs := connect_sameRecords env w
  rw [hconn] at hcs
  simp only at hcs
  have hw0 := warm_of_connect env w h w0 hconn
  have hw1 : warm (handler r env reqDel w).world := by
    rw [hout]
    exact warm_setColl_logCall r _ w0 _ hw0
  have hcoll : r.model.coll (handler r env reqDel w).world =
      (r.model.coll w).filter (fun x => x.id != oid) := by
    rw [hout]
    simp only
    rw [coll_setColl, removeDoc_eq_filter oid _ hu]
  have hno : ∀ x ∈ r.model.coll (handler r env reqDel w).world, x.id ≠ oid := by
    intro x hx
    rw [hcoll] at hx
    simpa using (List.mem_filter.mp hx).2
  have hd0 : d0 = d := by
    have := find_of_unique oid _ d hd hdo hu
    rw [hfind] at this
    exact Option.some.inj this
  rw [hd0] at hout
  refine ⟨by rw [hout]; rfl, get_absent r hr env2 reqGet _ hm2 hw1 s oid hid2 hs hp2 hf2 hno,
    delete_absent r hr env3 reqDel2 _ hm3 hw1 s oid hid3 hs hp3 hf3 hno,
    fun hmem => hno d hmem hdo, hcoll, fun r2 hne => ?_⟩
  rw [hout]
  simp only
  rw [coll_setColl_ne r r2 hne]
  exact coll_of_sameRecords r2 _ w (sameRecords_trans (sameRecords_logCall _ _) hcs.1)

/-- Witness of C14: the milestone `launchedDoc` is deleted from `worldTwoMilestones`; the
GET and the second DELETE by its identifier are then answered 404, and the other milestone
is still stored. -/
theorem delete_then_absent_witness :
    (handler .milestones env0 getMilestoneLaunched
        (handler .milestones env0 deleteMilestoneLaunched worldTwoMilestones).world).res =
        ⟨404, corsHeaders "GET, POST, PUT, DELETE, OPTIONS",
          some { success := false, error := some "Milestone not found" }⟩ ∧
      (handler .milestones env0 deleteMilestoneLaunched
        (handler .milestones env0 deleteMilestoneLaunched worldTwoMilestones).world).res =
        ⟨404, corsHeaders "GET, POST, PUT, DELETE, OPTIONS",
          some { success := false, error := some "Milestone not found" }⟩ ∧
      (handler .milestones env0 deleteMilestoneLaunched worldTwoMilestones).world.milestones =
        [foundedDoc] :=
  ⟨(delete_then_absent .milestones (by decide) env0 env0 env0 deleteMilestoneLaunched
      getMilestoneLaunched deleteMilestoneLaunched worldTwoMilestones
      "665af0000000000000000001" "665af0000000000000000001" launchedDoc (by decide) rfl
      (by decide) (by decide) rfl rfl (by decide) (by decide) rfl rfl (by decide) rfl rfl rfl
      (by decide) rfl).2.1,
    (delete_then_absent .milestones (by decide) env0 env0 env0 deleteMilestoneLaunched
      getMilestoneLaunched deleteMilestoneLaunched worldTwoMilestones
      "665af0000000000000000001" "665af0000000000000000001" launchedDoc (by decide) rfl
      (by decide) (by decide) rfl rfl (by decide) (by decide) rfl rfl (by decide) rfl rfl rfl
      (by decide) rfl).2.2.1,
    (delete_then_absent .milestones (by decide) env0 env0 env0 deleteMilestoneLaunched
      getMilestoneLaunched deleteMilestoneLaunched worldTwoMilestones
      "665af0000000000000000001" "665af0000000000000000001" launchedDoc (by decide) rfl
      (by decide) (by decide) rfl rfl (by decide) (by decide) rfl rfl (by decide) rfl rfl rfl
      (by decide) rfl).2.2.2.2.1⟩

/-! ## C15: other storage failures -/

/-- C15, as amended. For each resource, connection acquired, when the storage call of the
request raises an error that is named neither `ValidationError` nor `CastError`, the
response is status 500 with body `{success: false, error}` where `error` is exactly
"Failed to retrieve <resource> data" for a read, "Failed to create <resource>" for a
create, "Failed to update <resource>" for an update of a project, venture or milestone,
"Failed to update profile data" for the update of the profile, and
"Failed to delete <resource>" for a delete. -/
theorem storage_failure (r : Resource) (env : Env) (req : Request) (w : World)
    (hc : acquired env w) (e : JsError)
    (hv : e.name ≠ "ValidationError") (hcast : e.name ≠ "CastError") :
    (r ≠ .profile → req.method = "GET" → req.id.truthy = true →
        (r.model.findById env req.id (connectToDatabase env w).2).1 = .error e →
        (handler r env req w).res =
          ⟨500, corsHeaders r.allowMethods,
            some { success := false,
                   error := some ("Failed to retrieve " ++ r.noun ++ " data") }⟩) ∧
      (r ≠ .profile → req.method = "GET" → req.id.truthy = false →
        (r.model.findSorted env r.sortField (connectToDatabase env w).2).1 = .error e →
        (handler r env req w).res =
          ⟨500, corsHeaders r.allowMethods,
            some { success := false,
                   error := some ("Failed to retrieve " ++ r.noun ++ " data") }⟩) ∧
      (r = .profile → req.method = "GET" →
        (Profile.findOne env (connectToDatabase env w).2).1 = .error e →
        (handler r env req w).res =
          ⟨500, corsHeaders r.allowMethods,
            some { success := false, error := some "Failed to retrieve profile data" }⟩) ∧
      (r ≠ .profile → req.method = "POST" → bodyPresent req →
        postChecks env r req.body = true →
        (r.model.save env (r.model.construct env req.body) (connectToDatabase env w).2).1 =
          .error e →
        (handler r env req w).res =
          ⟨500, corsHeaders r.allowMethods,
            some { success := false, error := some ("Failed to create " ++ r.noun) }⟩) ∧
      (r ≠ .profile → req.method = "PUT" → req.id.truthy = true → bodyPresent req →
        putChecks env r req.body = true →
        (r.model.findByIdAndUpdate env req.id req.body (connectToDatabase env w).2).1 =
          .error e →
        (handler r env req w).res =
          ⟨500, corsHeaders r.allowMethods,
            some { success := false, error := some ("Failed to update " ++ r.noun) }⟩) ∧
      (r = .profile → req.method = "PUT" → bodyPresent req →
        profileChecks req.body = true →
        (Profile.findOneAndUpdate env req.body (connectToDatabase env w).2).1 = .error e →
        (handler r env req w).res =
          ⟨500, corsHeaders r.allowMethods,
            some { success := false, error := some "Failed to update profile data" }⟩) ∧
      (r ≠ .profile → req.method = "DELETE" → req.id.truthy = true →
        (r.model.findByIdAndDelete env req.id (connectToDatabase env w).2).1 = .error e →
        (handler r env req w).res =
          ⟨500, corsHeaders r.allowMethods,
            some { success := false, error := some ("Failed to delete " ++ r.noun) }⟩) := by
  obtain ⟨h, hc⟩ := hc
  rcases hconn : connectToDatabase env w with ⟨res, w0⟩
  rw [hconn] at hc
  simp only at hc
  subst hc
  refine ⟨fun hr hm hid hres => ?_, fun hr hm hid hres => ?_, fun hr hm hres => ?_,
    fun hr hm hb hchk hres => ?_, fun hr hm hid hb hchk hres => ?_,
    fun hr hm hb hchk hres => ?_, fun hr hm hid hres => ?_⟩
  · rw [get_dispatch r hr env req w h w0 hm hconn, if_pos hid]
    rcases hs : r.model.findById env req.id w0 with ⟨res, w1⟩
    rw [hs] at hres
    simp only at hres
    subst hres
    rfl
  · rw [get_dispatch r hr env req w h w0 hm hconn, hid]
    rcases hs : r.model.findSorted env r.sortField w0 with ⟨res, w1⟩
    rw [hs] at hres
    simp only at hres
    subst hres
    rfl
  · subst hr
    rw [profile_get_dispatch env req w h w0 hm hconn]
    rcases hs : Profile.findOne env w0 with ⟨res, w1⟩
    rw [hs] at hres
    simp only at hres
    subst hres
    rfl
  · rw [post_accepted r hr env req w h w0 hm hconn hb hchk]
    rcases hs : r.model.save env (r.model.construct env req.body) w0 with ⟨res, w1⟩
    rw [hs] at hres
    simp only at hres
    subst hres
    simp [afterSave, hv, json, failure]
  · rw [put_accepted r hr env req w h w0 hm hconn hid hb hchk]
    rcases hs : r.model.findByIdAndUpdate env req.id req.body w0 with ⟨res, w1⟩
    rw [hs] at hres
    simp only at hres
    subst hres
    simp [afterUpdate, hv, hcast, json, failure]
  · subst hr
    rw [profile_put_accepted env req w h w0 hm hconn hb hchk]
    rcases hs : Profile.findOneAndUpdate env req.body w0 with ⟨res, w1⟩
    rw [hs] at hres
    simp only at hres
    subst hres
    simp [afterUpsert, hv, json, failure, Resource.allowMethods]
  · rw [delete_dispatch r hr env req w h w0 hm hconn hid]
    rcases hs : r.model.findByIdAndDelete env req.id w0 with ⟨res, w1⟩
    rw [hs] at hres
    simp only at hres
    subst hres
    simp [afterDelete, hcast, json, failure]

/-- Witness of C15: `GET /projects` when the query fails with a network error. -/
theorem storage_failure_witness :
    (handler .projects envFault getProjects world0).res =
      ⟨500, corsHeaders "GET, POST, PUT, DELETE, OPTIONS",
        some { success := false, error := some "Failed to retrieve project data" }⟩ :=
  (storage_failure .projects envFault getProjects world0 ⟨_, rfl⟩ networkError (by decide)
    (by decide)).2.1 (by decide) rfl (by decide) rfl

/-- Counterexample to C15 as stated: `PUT /profile {name: "A", title: "B"}` when the
storage call fails with a network error. The response is status 500, but its error is
"Failed to update profile data", not "Failed to update profile". -/
theorem profile_update_failure_message :
    networkError.name ≠ "ValidationError" ∧ networkError.name ≠ "CastError" ∧
      (handler .profile envFault putProfileAB world0).res =
        ⟨500, corsHeaders "GET, PUT, OPTIONS",
          some { success := false, error := some "Failed to update profile data" }⟩ ∧
      "Failed to update profile data" ≠ "Failed to update " ++ Resource.profile.noun := by
  decide

/-! ## C16: methods outside the supported set -/

/-- C16. With the connection acquired, a request whose method is outside the supported set
of the handler (`GET, POST, PUT, DELETE, OPTIONS` for projects, ventures and milestones;
`GET, PUT, OPTIONS` for the profile) is answered with status 405 and
`{success:false, error:"Method <M> not allowed"}`, `<M>` being the request method; the state
after it is the state `connectToDatabase` leaves, so no storage call is logged and the
collections are unchanged. As `DELETE` is outside the set of the profile handler and the
other handlers never write the profile collection, no request to any handler removes a
profile record: the identifiers of the profile records before the request are still there
after it, in the same order. -/
theorem method_not_allowed (r : Resource) (env : Env) (req : Request) (w : World)
    (hc : acquired env w) (hm : req.method ∉ r.methods) :
    handler r env req w =
        ⟨⟨405, corsHeaders r.allowMethods,
            some { success := false,
                   error := some ("Method " ++ req.method ++ " not allowed") }⟩,
          (connectToDatabase env w).2⟩ ∧
      (handler r env req w).world.storageCalls = w.storageCalls ∧
      sameRecords (handler r env req w).world w ∧
      ∀ (r1 : Resource) (env1 : Env) (req1 : Request) (w1 : World),
        profilesKept w1 (handler r1 env1 req1 w1).world := by
  obtain ⟨h, hc⟩ := hc
  have hcs := connect_sameRecords env w
  rcases hconn : connectToDatabase env w with ⟨res, w0⟩
  rw [hconn] at hc hcs
  simp only at hc hcs
  subst hc
  have hout : handler r env req w =
      ⟨⟨405, corsHeaders r.allowMethods,
          some { success := false,
                 error := some ("Method " ++ req.method ++ " not allowed") }⟩, w0⟩ := by
    cases r <;>
      simp only [Resource.methods, List.mem_cons, List.mem_singleton, List.not_mem_nil,
        or_false, not_or] at hm <;>
      simp [handler, projectsHandler, venturesHandler, milestonesHandler, profileHandler,
        hm, hconn, json, failure, Resource.allowMethods]
  refine ⟨hout, ?_, ?_, handler_profiles⟩
  · rw [hout]
    exact hcs.2
  · rw [hout]
    exact hcs.1

/-- C16, on `DELETE /profile` and `POST /profile` with the connection acquired: both are
answered 405 with the method named, and neither logs a storage call. -/
theorem method_not_allowed_witness :
    (handler .profile env0 deleteProfile world0).res =
        ⟨405, corsHeaders "GET, PUT, OPTIONS",
          some { success := false, error := some "Method DELETE not allowed" }⟩ ∧
      (handler .profile env0 deleteProfile world0).world.storageCalls = [] ∧
      (handler .profile env0 postProfile world0).res =
        ⟨405, corsHeaders "GET, PUT, OPTIONS",
          some { success := false, error := some "Method POST not allowed" }⟩ ∧
      profilesKept worldOneProfile
        (handler .profile env0 deleteProfile worldOneProfile).world :=
  ⟨congrArg Outcome.res
      (method_not_allowed .profile env0 deleteProfile world0 ⟨_, rfl⟩ (by decide)).1,
    (method_not_allowed .profile env0 deleteProfile world0 ⟨_, rfl⟩ (by decide)).2.1,
    congrArg Outcome.res
      (method_not_allowed .profile env0 postProfile world0 ⟨_, rfl⟩ (by decide)).1,
    (method_not_allowed .profile env0 deleteProfile world0 ⟨_, rfl⟩ (by decide)).2.2.2
      .profile env0 deleteProfile worldOneProfile⟩

/-! ## C17: the profile upsert -/

/-- C17. Profile PUT is an upsert that answers 200. With the connection acquired, a body
that is present and passes the checks of the handler (name and title non-empty strings,
email and skills well-formed when given), and the storage operation succeeding with the
record `d`: the response is status 200 with `{success:true, data:d}`, never 201; the one
storage call is `findOneAndUpdate({}, body, {new, upsert, runValidators})`; when the
collection is empty the collection afterwards holds exactly the new record `d`, stamped
with the time of the request; when it is not, its first record is replaced by `d`, which
is that record with the fields of the body set, the same identifier and `createdAt`, and
`updatedAt` the time of the request, and the rest of the collection is untouched. -/
theorem profile_upsert (env : Env) (req : Request) (w : World)
    (hm : req.method = "PUT") (hc : acquired env w)
    (hb : bodyPresent req) (hchk : profileChecks req.body = true) (d : Doc)
    (hok : (Profile.findOneAndUpdate env req.body (connectToDatabase env w).2).1 = .ok d) :
    (handler .profile env req w).res =
        ⟨200, corsHeaders "GET, PUT, OPTIONS",
          some { success := true, data := some (.one d) }⟩ ∧
      (handler .profile env req w).res.status ≠ 201 ∧
      (handler .profile env req w).world.storageCalls =
        w.storageCalls ++ [.findOneAndUpdate "Profile" req.body true true true] ∧
      (w.profiles = [] →
        (handler .profile env req w).world.profiles = [d] ∧
          d.createdAt = env.now ∧ d.updatedAt = env.now) ∧
      (∀ d0 ds, w.profiles = d0 :: ds →
        (handler .profile env req w).world.profiles = d :: ds ∧
          (∃ upd, castUpdate env profileSchema req.body.entries = .ok upd ∧
            d = applyUpdate env d0 upd) ∧
          d.id = d0.id ∧ d.createdAt = d0.createdAt ∧ d.updatedAt = env.now) := by
  obtain ⟨h, hc⟩ := hc
  have hcs := connect_sameRecords env w
  rcases hconn : connectToDatabase env w with ⟨res, w0⟩
  rw [hconn] at hc hcs hok
  simp only at hc hcs hok
  subst hc
  have hcoll : w0.profiles = w.profiles := hcs.1.2.2.2
  obtain ⟨upd, hcu, -, -, hres⟩ := upsert_ok env req.body w0 d hok
  rw [profile_put_accepted env req w h w0 hm hconn hb hchk]
  rw [hres] at hok ⊢
  rw [hcoll] at hok ⊢
  have hcalls : ∀ ds : List Doc,
      (Profile.setColl ds
        (w0.logCall (.findOneAndUpdate "Profile" req.body true true true))).storageCalls =
        w.storageCalls ++ [.findOneAndUpdate "Profile" req.body true true true] := by
    intro ds
    have := storageCalls_setColl .profile ds
      (w0.logCall (.findOneAndUpdate "Profile" req.body true true true))
    simp only [Resource.model] at this
    rw [this, storageCalls_logCall, hcs.2]
    rfl
  cases hp : w.profiles with
  | nil =>
    simp only [hp] at hok ⊢
    simp only [Except.ok.injEq] at hok
    subst hok
    refine ⟨rfl, by simp [afterUpsert, json], hcalls _, fun _ => ⟨rfl, rfl, rfl⟩, ?_⟩
    intro d0 ds hne
    exact absurd hne (by simp)
  | cons d1 ds1 =>
    simp only [hp] at hok ⊢
    simp only [Except.ok.injEq] at hok
    subst hok
    refine ⟨rfl, by simp [afterUpsert, json], hcalls _, fun hnil => absurd hnil (by simp), ?_⟩
    intro d0 ds hne
    simp only [List.cons.injEq] at hne
    obtain ⟨rfl, rfl⟩ := hne
    exact ⟨rfl, ⟨upd, hcu, rfl⟩, rfl, rfl, rfl⟩

/-- C17, on `PUT /profile {name: "A", title: "B"}` with an empty collection: status 200,
not 201, and the collection then holds the one record of the response, which is new; with
one stored profile the same request answers 200 with that record updated. -/
theorem profile_upsert_witness :
    world0.profiles = [] ∧
      (∃ d, (handler .profile env0 putProfileAB world0).res =
          ⟨200, corsHeaders "GET, PUT, OPTIONS",
            some { success := true, data := some (.one d) }⟩ ∧
        (handler .profile env0 putProfileAB world0).world.profiles = [d] ∧
        d.get "name" = some (.str "A") ∧ d.get "title" = some (.str "B")) ∧
      (∃ d, (handler .profile env0 putProfileAB worldOneProfile).res =
          ⟨200, corsHeaders "GET, PUT, OPTIONS",
            some { success := true, data := some (.one d) }⟩ ∧
        (handler .profile env0 putProfileAB worldOneProfile).world.profiles = [d] ∧
        d.id = storedProfile.id ∧ d.get "name" = some (.str "A")) :=
  ⟨rfl, ⟨_,
    (profile_upsert env0 putProfileAB world0 rfl ⟨_, rfl⟩ ⟨by decide, by decide⟩
      (by decide) _ rfl).1,
    ((profile_upsert env0 putProfileAB world0 rfl ⟨_, rfl⟩ ⟨by decide, by decide⟩
      (by decide) _ rfl).2.2.2.1 rfl).1, by decide, by decide⟩,
    ⟨_,
      (profile_upsert env0 putProfileAB worldOneProfile rfl ⟨_, rfl⟩ ⟨by decide, by decide⟩
        (by decide) _ rfl).1,
      ((profile_upsert env0 putProfileAB worldOneProfile rfl ⟨_, rfl⟩
        ⟨by decide, by decide⟩ (by decide) _ rfl).2.2.2.2 storedProfile [] rfl).1,
      by decide, by decide⟩⟩

/-! ## C18: the preflight -/

/-- C18. A request with method OPTIONS, to any of the four handlers, with any query and
body and in any environment (database reachable or not, configured or not): the response
is status 200 with no body and the cross-origin headers set (`Access-Control-Allow-Origin:
*`, `Access-Control-Allow-Methods` with the method list of the handler,
`Access-Control-Allow-Headers: Content-Type`), and the state after the request is the
state before it, so the log holds no new call, neither of
`connectToDatabase` nor of the storage layer, and the connection cache is as it was. The
outcome is the same in every environment. (On a cold cache a call of `connectToDatabase`
would have left its read of `MONGODB_URI` in the log.) -/
theorem options_preflight (r : Resource) (env : Env) (req : Request) (w : World)
    (hm : req.method = "OPTIONS") :
    handler r env req w = ⟨⟨200, corsHeaders r.allowMethods, none⟩, w⟩ ∧
      (handler r env req w).world.log.filter Call.isConnect = w.log.filter Call.isConnect ∧
      (handler r env req w).world.storageCalls = w.storageCalls ∧
      (∀ env2 : Env, handler r env2 req w = handler r env req w) ∧
      (¬ warm w → (connectToDatabase env w).2.log ≠ (handler r env req w).world.log) ∧
      (handler r env req w).res.headers =
        [("Access-Control-Allow-Origin", "*"),
          ("Access-Control-Allow-Methods",
            match r with
            | .profile => "GET, PUT, OPTIONS"
            | _ => "GET, POST, PUT, DELETE, OPTIONS"),
          ("Access-Control-Allow-Headers", "Content-Type")] := by
  have hout : ∀ e : Env,
      handler r e req w = ⟨⟨200, corsHeaders r.allowMethods, none⟩, w⟩ := by
    intro e
    cases r <;>
      simp [handler, projectsHandler, venturesHandler, milestonesHandler, profileHandler,
        hm, Resource.allowMethods]
  refine ⟨hout env, ?_, ?_, fun env2 => (hout env2).trans (hout env).symm, ?_, ?_⟩
  · rw [hout env]
  · rw [hout env]
  · intro hw
    rw [hout env]
    obtain ⟨cs, hcs⟩ := connect_cold_logs env w hw
    rw [hcs]
    intro h
    have := congrArg List.length h
    simp at this
  · rw [hout env]
    cases r <;> rfl

/-- C18, on an OPTIONS request with a query and a body, the database not configured: 200,
no body, the three cross-origin headers, and nothing logged, for a collection handler and
for the profile handler. -/
theorem options_preflight_witness :
    envNoUri.MONGODB_URI = none ∧
      (handler .projects envNoUri preflightRequest world0).res =
        ⟨200, corsHeaders "GET, POST, PUT, DELETE, OPTIONS", none⟩ ∧
      (handler .projects envNoUri preflightRequest world0).world.log = [] ∧
      (handler .profile envNoUri preflightRequest world0).res =
        ⟨200, corsHeaders "GET, PUT, OPTIONS", none⟩ ∧
      (handler .projects envNoUri preflightRequest world0).res.headers =
        [("Access-Control-Allow-Origin", "*"),
          ("Access-Control-Allow-Methods", "GET, POST, PUT, DELETE, OPTIONS"),
          ("Access-Control-Allow-Headers", "Content-Type")] ∧
      (handler .profile envNoUri preflightRequest world0).res.headers =
        [("Access-Control-Allow-Origin", "*"),
          ("Access-Control-Allow-Methods", "GET, PUT, OPTIONS"),
          ("Access-Control-Allow-Headers", "Content-Type")] :=
  ⟨rfl,
    congrArg Outcome.res
      (options_preflight .projects envNoUri preflightRequest world0 rfl).1,
    congrArg (fun o => o.world.log)
      (options_preflight .projects envNoUri preflightRequest world0 rfl).1,
    congrArg Outcome.res (options_preflight .profile envNoUri preflightRequest world0 rfl).1,
    (options_preflight .projects envNoUri preflightRequest world0 rfl).2.2.2.2.2,
    (options_preflight .profile envNoUri preflightRequest world0 rfl).2.2.2.2.2⟩

/-! ## C19: the cross-origin headers -/

/-- C19, as amended. Every response of every one of the four handlers (success, 4xx, 5xx
and the preflight alike) carries the three headers set at the top of the handler:
`Access-Control-Allow-Origin` with value `*`, `Access-Control-Allow-Headers`, and an
`Access-Control-Allow-Methods` that lists the methods of that handler, which is
`GET, POST, PUT, DELETE, OPTIONS` for projects, ventures and milestones and
`GET, PUT, OPTIONS` for the profile. -/
theorem cors_headers (r : Resource) (env : Env) (req : Request) (w : World) :
    (handler r env req w).res.headers = corsHeaders r.allowMethods ∧
      (handler r env req w).res.headers.lookup "Access-Control-Allow-Origin" = some "*" ∧
      (handler r env req w).res.headers.lookup "Access-Control-Allow-Methods" =
        some (", ".intercalate r.methods) ∧
      (handler r env req w).res.headers.lookup "Access-Control-Allow-Methods" =
        some (match r with
          | .profile => "GET, PUT, OPTIONS"
          | _ => "GET, POST, PUT, DELETE, OPTIONS") := by
  have h := shape_headers (handler_shape r env req w)
  rw [h]
  cases r <;> exact ⟨rfl, rfl, by decide, rfl⟩

/-- C19, counterexample: the response to `GET /profile` carries
`Access-Control-Allow-Methods: GET, PUT, OPTIONS`, which names neither POST nor DELETE. -/
theorem profile_allow_methods :
    (handler .profile env0 getProfile world0).res.headers.lookup
        "Access-Control-Allow-Methods" = some "GET, PUT, OPTIONS" ∧
      includes "GET, PUT, OPTIONS" "POST" = false ∧
      includes "GET, PUT, OPTIONS" "DELETE" = false ∧
      (handler .profile env0 getProfile world0).res.headers.lookup
        "Access-Control-Allow-Methods" ≠ some "GET, POST, PUT, DELETE, OPTIONS" := by
  decide

/-! ## C20: the envelope -/

/-- C20. Envelope invariant: every response of every handler to a request that is not the
OPTIONS preflight has a JSON body with the boolean `success`; its status is one of 200,
201, 400, 404, 405, 500 and 503; `success` is true exactly when the status is 200 or 201,
and then `data` is present (and `error` is not); otherwise `success` is false, and then
`error` is present, a string (and `data` is not); `details` appears only on a status 400
whose error is "Validation failed", and `message` only on a status 200 of a DELETE. -/
theorem envelope (r : Resource) (env : Env) (req : Request) (w : World)
    (hm : req.method ≠ "OPTIONS") :
    ∃ b, (handler r env req w).res.body = some b ∧
      (handler r env req w).res.status ∈ [200, 201, 400, 404, 405, 500, 503] ∧
      (b.success = true ↔
        (handler r env req w).res.status = 200 ∨ (handler r env req w).res.status = 201) ∧
      (b.success = true → b.data.isSome = true ∧ b.error = none) ∧
      (b.success = false → b.error.isSome = true ∧ b.data = none) ∧
      (b.details.isSome = true →
        (handler r env req w).res.status = 400 ∧ b.error = some "Validation failed") ∧
      (b.message.isSome = true →
        req.method = "DELETE" ∧ (handler r env req w).res.status = 200 ∧
          b.success = true) := by
  have h := handler_shape r env req w
  generalize (handler r env req w).res = res at h
  cases h with
  | preflight h0 => exact absurd h0 hm
  | failed status msg hs =>
    refine ⟨failure msg, rfl, ?_, ?_, ?_, ?_, ?_, ?_⟩
    · rcases hs with h | h | h | h | h <;> simp [h]
    · rcases hs with h | h | h | h | h <;> simp [h, failure]
    · simp [failure]
    · simp [failure]
    · simp [failure]
    · simp [failure]
  | invalid e =>
    refine ⟨validationFailure e, rfl, ?_, ?_, ?_, ?_, ?_, ?_⟩ <;> simp [validationFailure]
  | found status d hs =>
    refine ⟨_, rfl, ?_, ?_, ?_, ?_, ?_, ?_⟩
    · rcases hs with h | h <;> simp [h]
    · rcases hs with h | h <;> simp [h]
    · simp
    · simp
    · simp
    · simp
  | deleted d msg hd =>
    refine ⟨_, rfl, ?_, ?_, ?_, ?_, ?_, ?_⟩ <;> simp [hd]

/-- C20, on a successful delete, on a rejected creation and on a 405: the three bodies
have the form of the envelope. -/
theorem envelope_witness :
    (handler .milestones env0 deleteMilestoneLaunched worldTwoMilestones).res.body =
        some { success := true, data := some (.one launchedDoc),
               message := some "Milestone deleted successfully" } ∧
      (∃ b, (handler .projects env0 postProjectBlank world0).res.body = some b ∧
        b.success = false ∧ b.details.isSome = true ∧
        (handler .projects env0 postProjectBlank world0).res.status = 400) ∧
      ∃ b, (handler .profile env0 deleteProfile world0).res.body = some b ∧
        (b.success = true ↔
          (handler .profile env0 deleteProfile world0).res.status = 200 ∨
            (handler .profile env0 deleteProfile world0).res.status = 201) := by
  refine ⟨by decide, ⟨validationFailure blankError, by decide, by decide, by decide,
    by decide⟩, ?_⟩
  obtain ⟨b, hb, -, hiff, -⟩ := envelope .profile env0 deleteProfile world0 (by decide)
  exact ⟨b, hb, hiff⟩

/-! ## C21: failure detail is not returned -/

/-- C21. Internal failure detail is never returned. Take two environments that differ at
most in the detail of the errors raised: a connection step fails in one exactly when it
fails in the other, whatever the two errors are, and the storage operation fails in one
exactly when it fails in the other, with errors of the same name and any message (for an
error named `ValidationError` the per-field messages, which the 400 returns as `details`,
are the same). Then every request to every handler gets the same response in both. And in
every environment a response of status 500 has the body `{success:false, error}` with the
message fixed for the resource and the method, and a response of status 503 the one fixed
connection message: no part of the error raised is in them. -/
theorem failure_detail_hidden (r : Resource) (env1 env2 : Env) (req : Request) (w : World)
    (h : sameButDetail env1 env2) :
    (handler r env1 req w).res = (handler r env2 req w).res ∧
      (∀ env : Env, (handler r env req w).res.status = 500 →
        (handler r env req w).res.body =
          some { success := false, error := some (r.failureMessage req.method) }) ∧
      (∀ env : Env, (handler r env req w).res.status = 503 →
        (handler r env req w).res.body =
          some { success := false,
                 error := some "Database connection failed. Please try again later." }) :=
  ⟨handler_detail h r req w, fun env => (handler_fixed r env req w).1,
    fun env => (handler_fixed r env req w).2⟩

/-- C21, on a read that fails with a network error, under two different messages, and on
a connection that fails for two different reasons: the two responses are the same, the
500 and the 503 with their fixed messages. -/
theorem failure_detail_hidden_witness :
    (handler .projects envFault getProjects world0).res =
        (handler .projects envFaultOther getProjects world0).res ∧
      (handler .projects envFault getProjects world0).res =
        ⟨500, corsHeaders "GET, POST, PUT, DELETE, OPTIONS",
          some { success := false, error := some "Failed to retrieve project data" }⟩ ∧
      (handler .profile envAuth putProfileAB world0).res =
        (handler .profile envUnreachable putProfileAB world0).res ∧
      (handler .profile envAuth putProfileAB world0).res.status = 503 :=
  ⟨(failure_detail_hidden .projects envFault envFaultOther getProjects world0
      ⟨rfl, rfl, rfl, rfl, rfl, rfl, rfl, rfl, fun _ => rfl⟩).1,
    by decide,
    (failure_detail_hidden .profile envAuth envUnreachable putProfileAB world0
      ⟨rfl, rfl, rfl, rfl, rfl, rfl, rfl, trivial⟩).1,
    by decide⟩

/-! ## C22: what the storage layer is handed -/

/-- C22, as amended. For create and update on every resource, with the connection
acquired, the handler hands the request body to the storage layer as it is. Take two
requests that differ in their bodies only, and these in the values of `_id`, `createdAt`
or `updatedAt` only: the checks of the handler do not read these keys, so when the first
request reaches the write (its body passes the checks) the second does too, and each
storage call carries the whole body of its request: `save` of a document built from the
body for POST, `findByIdAndUpdate(id, body)` for PUT, `findOneAndUpdate({}, body)` for the
profile. The two calls therefore differ whenever the bodies do: the handler neither
ignores nor rejects those keys. -/
theorem body_handed_over (r : Resource) (env : Env) (req1 req2 : Request) (w : World)
    (hc : acquired env w) (hm : req2.method = req1.method) (hq : req2.query = req1.query)
    (hb1 : bodyPresent req1) (hb2 : bodyPresent req2)
    (hagree : agreeOutside ["_id", "createdAt", "updatedAt"] req1.body req2.body) :
    (r ≠ .profile → req1.method = "POST" → postChecks env r req1.body = true →
        (handler r env req1 w).world.storageCalls =
          w.storageCalls ++ [.save r.model.name req1.body] ∧
        (handler r env req2 w).world.storageCalls =
          w.storageCalls ++ [.save r.model.name req2.body] ∧
        (req1.body ≠ req2.body →
          (handler r env req1 w).world.storageCalls ≠
            (handler r env req2 w).world.storageCalls)) ∧
      (r ≠ .profile → req1.method = "PUT" → req1.id.truthy = true →
        putChecks env r req1.body = true →
        (handler r env req1 w).world.storageCalls =
          w.storageCalls ++ [.findByIdAndUpdate r.model.name req1.id req1.body true true] ∧
        (handler r env req2 w).world.storageCalls =
          w.storageCalls ++ [.findByIdAndUpdate r.model.name req1.id req2.body true true] ∧
        (req1.body ≠ req2.body →
          (handler r env req1 w).world.storageCalls ≠
            (handler r env req2 w).world.storageCalls)) ∧
      (r = .profile → req1.method = "PUT" → profileChecks req1.body = true →
        (handler r env req1 w).world.storageCalls =
          w.storageCalls ++ [.findOneAndUpdate "Profile" req1.body true true true] ∧
        (handler r env req2 w).world.storageCalls =
          w.storageCalls ++ [.findOneAndUpdate "Profile" req2.body true true true] ∧
        (req1.body ≠ req2.body →
          (handler r env req1 w).world.storageCalls ≠
            (handler r env req2 w).world.storageCalls)) := by
  obtain ⟨h, hc⟩ := hc
  have hcs := connect_sameRecords env w
  rcases hconn : connectToDatabase env w with ⟨res, w0⟩
  rw [hconn] at hc hcs
  simp only at hc hcs
  subst hc
  obtain ⟨k1, k2, k3⟩ := checks_agree env req1.body req2.body hagree r
  have hid : req2.id = req1.id := by
    unfold Request.id
    rw [hq]
  refine ⟨fun hr hm1 hchk => ?_, fun hr hm1 hidt hchk => ?_, fun hr hm1 hchk => ?_⟩
  · have e1 : (handler r env req1 w).world.storageCalls =
        w.storageCalls ++ [.save r.model.name req1.body] := by
      rw [post_accepted r hr env req1 w h w0 hm1 hconn hb1 hchk, afterSave_world,
        save_storageCalls, hcs.2]
      rfl
    have e2 : (handler r env req2 w).world.storageCalls =
        w.storageCalls ++ [.save r.model.name req2.body] := by
      rw [post_accepted r hr env req2 w h w0 (hm.trans hm1) hconn hb2 (k1 ▸ hchk),
        afterSave_world, save_storageCalls, hcs.2]
      rfl
    refine ⟨e1, e2, fun hne => ?_⟩
    rw [e1, e2]
    exact append_singleton_ne _ (fun hcall => hne (by simpa using hcall))
  · have e1 : (handler r env req1 w).world.storageCalls =
        w.storageCalls ++ [.findByIdAndUpdate r.model.name req1.id req1.body true true] := by
      rw [put_accepted r hr env req1 w h w0 hm1 hconn hidt hb1 hchk, afterUpdate_world,
        update_storageCalls, hcs.2]
    have e2 : (handler r env req2 w).world.storageCalls =
        w.storageCalls ++ [.findByIdAndUpdate r.model.name req1.id req2.body true true] := by
      rw [put_accepted r hr env req2 w h w0 (hm.trans hm1) hconn (hid ▸ hidt) hb2
        (k2 ▸ hchk), afterUpdate_world, update_storageCalls, hcs.2, hid]
    refine ⟨e1, e2, fun hne => ?_⟩
    rw [e1, e2]
    exact append_singleton_ne _ (fun hcall => hne (by simpa using hcall))
  · subst hr
    have e1 : (handler .profile env req1 w).world.storageCalls =
        w.storageCalls ++ [.findOneAndUpdate "Profile" req1.body true true true] := by
      rw [profile_put_accepted env req1 w h w0 hm1 hconn hb1 hchk, afterUpsert_world]
      have := upsert_storageCalls .profile env req1.body w0
      simp only [Resource.model] at this
      rw [this, hcs.2]
      rfl
    have e2 : (handler .profile env req2 w).world.storageCalls =
        w.storageCalls ++ [.findOneAndUpdate "Profile" req2.body true true true] := by
      rw [profile_put_accepted env req2 w h w0 (hm.trans hm1) hconn hb2 (k3 ▸ hchk),
        afterUpsert_world]
      have := upsert_storageCalls .profile env req2.body w0
      simp only [Resource.model] at this
      rw [this, hcs.2]
      rfl
    refine ⟨e1, e2, fun hne => ?_⟩
    rw [e1, e2]
    exact append_singleton_ne _ (fun hcall => hne (by simpa using hcall))

/-- C22, on the two requests `POST /projects {title: "T", description: "D", _id: …}` that
differ in the value of `_id` only: each storage call carries its own body. -/
theorem body_handed_over_witness :
    (handler .projects env0 postProjectOwnId world0).world.storageCalls =
        [.save "Project" postProjectOwnId.body] ∧
      (handler .projects env0 postProjectOtherId world0).world.storageCalls =
        [.save "Project" postProjectOtherId.body] :=
  ⟨((body_handed_over .projects env0 postProjectOwnId postProjectOtherId world0 ⟨_, rfl⟩
      rfl rfl ⟨by decide, by decide⟩ ⟨by decide, by decide⟩
      ownId_agree).1 (by decide) rfl (by decide)).1,
    ((body_handed_over .projects env0 postProjectOwnId postProjectOtherId world0 ⟨_, rfl⟩
      rfl rfl ⟨by decide, by decide⟩ ⟨by decide, by decide⟩
      ownId_agree).1 (by decide) rfl (by decide)).2.1⟩

/-- C22, counterexample: the two requests `POST /projects` whose bodies differ in the
value of `_id` only are both answered 201, the data handed to the storage layer differs,
and each record is stored under the identifier its body gave. -/
theorem body_identifier_handed_over :
    agreeOutside ["_id", "createdAt", "updatedAt"] postProjectOwnId.body
        postProjectOtherId.body ∧
      (handler .projects env0 postProjectOwnId world0).res.status = 201 ∧
      (handler .projects env0 postProjectOtherId world0).res.status = 201 ∧
      (handler .projects env0 postProjectOwnId world0).world.storageCalls ≠
        (handler .projects env0 postProjectOtherId world0).world.storageCalls ∧
      (handler .projects env0 postProjectOwnId world0).world.projects.map Doc.id =
        ["0123456789abcdef01234567"] ∧
      (handler .projects env0 postProjectOtherId world0).world.projects.map Doc.id =
        ["0123456789abcdef01234568"] :=
  ⟨ownId_agree, by decide, by decide, by decide, by decide, by decide⟩

/-! ## C23: the email pattern -/

/-- C23. Profile PUT with the connection acquired, a body that is present and a valid
name and title (non-empty strings). An email that is a non-empty string is rejected with
status 400 and "Invalid email format", before any storage access, unless it contains no
white space, contains exactly one `@` with a non-empty local part before it, and has
after the `@` a domain with a `.` that is neither its first nor its last character; an
email of that form is not rejected for its format, and neither is an email that is absent
or empty (falsy). -/
theorem email_checked (env : Env) (req : Request) (w : World)
    (hm : req.method = "PUT") (hc : acquired env w) (hb : bodyPresent req)
    (hn : ∃ n, req.body.prop "name" = .str n ∧ n ≠ "")
    (ht : ∃ t, req.body.prop "title" = .str t ∧ t ≠ "") :
    (∀ s : String, req.body.prop "email" = .str s → s ≠ "" → ¬ emailWellFormed s →
        handler .profile env req w =
          ⟨⟨400, corsHeaders "GET, PUT, OPTIONS",
              some { success := false, error := some "Invalid email format" }⟩,
            (connectToDatabase env w).2⟩ ∧
        (handler .profile env req w).world.storageCalls = w.storageCalls) ∧
      (∀ s : String, req.body.prop "email" = .str s → emailWellFormed s →
        (handler .profile env req w).res.body ≠ some (failure "Invalid email format")) ∧
      ((req.body.prop "email").truthy = false →
        (handler .profile env req w).res.body ≠ some (failure "Invalid email format")) ∧
      (∀ s : String, emailRegexTest s = true ↔ emailWellFormed s) := by
  obtain ⟨h, hc⟩ := hc
  have hcs := connect_sameRecords env w
  rcases hconn : connectToDatabase env w with ⟨res, w0⟩
  rw [hconn] at hc hcs
  simp only at hc hcs
  subst hc
  rw [profile_put_email env req w h w0 hm hconn hb hn ht]
  have hpass : ((req.body.prop "email").truthy &&
        !emailRegexTest (req.body.prop "email").toStr) = false →
      (if ((req.body.prop "email").truthy &&
          !emailRegexTest (req.body.prop "email").toStr) = true then
        (⟨json (corsHeaders "GET, PUT, OPTIONS") 400 (failure "Invalid email format"),
          w0⟩ : Outcome)
      else if ((req.body.prop "skills").truthy && !(req.body.prop "skills").isArray) = true
        then
        ⟨json (corsHeaders "GET, PUT, OPTIONS") 400
          (failure "Invalid data type: skills must be an array"), w0⟩
      else afterUpsert (Profile.findOneAndUpdate env req.body w0)).res.body ≠
        some (failure "Invalid email format") := by
    intro hf
    rw [hf]
    simp only [Bool.false_eq_true, if_false]
    split_ifs
    · simp [json, failure]
    · exact afterUpsert_body _
  refine ⟨fun s he hs hbad => ?_, fun s he hgood => ?_, fun hfalsy => ?_, emailRegexTest_iff⟩
  · have hre : emailRegexTest s = false := by
      rw [← Bool.not_eq_true, emailRegexTest_iff]
      exact hbad
    have hcond : ((req.body.prop "email").truthy &&
        !emailRegexTest (req.body.prop "email").toStr) = true := by
      simp [he, JsVal.truthy, JsVal.toStr, hre, hs]
    rw [if_pos hcond]
    exact ⟨rfl, hcs.2⟩
  · apply hpass
    simp [he, JsVal.toStr, (emailRegexTest_iff s).2 hgood]
  · apply hpass
    simp [hfalsy]

/-- C23, on `a@b` and on `a@b.c.`: the first is rejected with "Invalid email format" and
no storage call, the second is accepted and the update is made. -/
theorem email_checked_witness :
    (handler .profile env0 putProfileNoDot world0).res =
        ⟨400, corsHeaders "GET, PUT, OPTIONS",
          some { success := false, error := some "Invalid email format" }⟩ ∧
      (handler .profile env0 putProfileNoDot world0).world.storageCalls = [] ∧
      (handler .profile env0 putProfileDotEnd world0).res.body ≠
        some (failure "Invalid email format") ∧
      (handler .profile env0 putProfileDotEnd world0).res.status = 200 := by
  have h1 := (email_checked env0 putProfileNoDot world0 rfl ⟨_, rfl⟩ ⟨by decide, by decide⟩
    ⟨_, rfl, by decide⟩ ⟨_, rfl, by decide⟩).1 "a@b" rfl (by decide)
    (fun hw => by
      have := (emailRegexTest_iff "a@b").2 hw
      revert this
      decide)
  have h2 := (email_checked env0 putProfileDotEnd world0 rfl ⟨_, rfl⟩
    ⟨by decide, by decide⟩ ⟨_, rfl, by decide⟩ ⟨_, rfl, by decide⟩).2.1 "a@b.c." rfl
    ((emailRegexTest_iff "a@b.c.").1 (by decide))
  exact ⟨congrArg Outcome.res h1.1, h1.2, h2, by decide⟩

/-! ## C24: connection reuse -/

/-- C24. Connection reuse: once a call of `connectToDatabase` has succeeded with the pair
`h`, every later call, in whatever environment (the configuration may be gone, the server
unreachable) and in whatever state of the process that holds the cache this call left,
returns the same pair `h` and leaves the state as it is: the cache is unchanged and the
log gains no read of the configuration, no client construction and no connect. Requests
handled in between keep the cache, so this covers every later call in the process. -/
theorem connection_reuse (env : Env) (w : World) (h : String × String)
    (hok : (connectToDatabase env w).1 = .ok h) :
    (∀ (env2 : Env) (w2 : World), w2.cache = (connectToDatabase env w).2.cache →
        connectToDatabase env2 w2 = (.ok h, w2)) ∧
      (∀ (r : Resource) (env2 : Env) (req : Request) (w2 : World),
        w2.cache = (connectToDatabase env w).2.cache →
        (handler r env2 req w2).world.cache = w2.cache) := by
  have hcache := connect_ok_cache env w h hok
  have hre : ∀ (env2 : Env) (w2 : World), w2.cache = (connectToDatabase env w).2.cache →
      connectToDatabase env2 w2 = (.ok h, w2) := by
    intro env2 w2 hw2
    rw [hcache] at hw2
    exact connect_warm_eq env2 w2 h.2 h.1 hw2
  refine ⟨hre, ?_⟩
  intro r env2 req w2 hw2
  rcases handler_cache r env2 req w2 with hc | hc
  · exact hc
  · rw [hc, hre env2 w2 hw2]

/-- C24, on a cold process: the first call connects; a second call, made when the
configuration is no longer there, returns the same pair and logs nothing more. -/
theorem connection_reuse_witness :
    (connectToDatabase env0 world0).1 =
        .ok ("mongodb://localhost/portfolio", "mongodb://localhost/portfolio") ∧
      (connectToDatabase envNoUri (connectToDatabase env0 world0).2).1 =
        .ok ("mongodb://localhost/portfolio", "mongodb://localhost/portfolio") ∧
      (connectToDatabase envNoUri (connectToDatabase env0 world0).2).2.log =
        (connectToDatabase env0 world0).2.log :=
  ⟨rfl,
    congrArg Prod.fst
      ((connection_reuse env0 world0 _ rfl).1 envNoUri (connectToDatabase env0 world0).2 rfl),
    congrArg (fun p => p.2.log)
      ((connection_reuse env0 world0 _ rfl).1 envNoUri (connectToDatabase env0 world0).2
        rfl)⟩

/-! ## C25: a failed acquire caches nothing -/

/-- C25. When `connectToDatabase` fails (configuration missing, client constructor or
connect raising), `cachedClient` and `cachedDb` are exactly as they were, hence empty on a
cold process; the next call starts from scratch: it reads the configuration again and, in
an environment where the connection can be made, runs the whole sequence and succeeds.
The cache is non-empty only if a call succeeded: a call, or a request, that starts with an
empty cache and ends with a non-empty one has acquired the connection. -/
theorem failed_acquire_caches_nothing (env : Env) (w : World) (e : JsError)
    (herr : (connectToDatabase env w).1 = .error e) :
    (connectToDatabase env w).2.cache = w.cache ∧
      (∀ env2 : Env, ∃ cs, (connectToDatabase env2 (connectToDatabase env w).2).2.log =
        (connectToDatabase env w).2.log ++ .readEnv "MONGODB_URI" :: cs) ∧
      (∀ (env2 : Env) (uri : String), env2.MONGODB_URI = some uri → uri ≠ "" →
        env2.clientError = none → env2.connectError = none →
        (connectToDatabase env2 (connectToDatabase env w).2).1 = .ok (uri, uri) ∧
        (connectToDatabase env2 (connectToDatabase env w).2).2.log =
          (connectToDatabase env w).2.log ++
            [.readEnv "MONGODB_URI", .newMongoClient uri 10 1 60000 5000 45000,
              .clientConnect, .clientDb]) ∧
      (∀ (env1 : Env) (w1 : World), w1.cache = (none, none) →
        (connectToDatabase env1 w1).2.cache ≠ (none, none) → acquired env1 w1) ∧
      (∀ (r : Resource) (env1 : Env) (req : Request) (w1 : World), w1.cache = (none, none) →
        (handler r env1 req w1).world.cache ≠ (none, none) → acquired env1 w1) := by
  obtain ⟨hcold, hcache⟩ := connect_error_world env w e herr
  have hcold2 : ¬ warm (connectToDatabase env w).2 := by
    rw [warm_iff_cache] at hcold ⊢
    rw [hcache]
    exact hcold
  have hacq : ∀ (env1 : Env) (w1 : World), w1.cache = (none, none) →
      (connectToDatabase env1 w1).2.cache ≠ (none, none) → acquired env1 w1 := by
    intro env1 w1 h1 h2
    cases hres : (connectToDatabase env1 w1).1 with
    | ok h => exact ⟨h, hres⟩
    | error e1 =>
      rw [(connect_error_world env1 w1 e1 hres).2] at h2
      exact absurd h1 h2
  refine ⟨hcache, fun env2 => connect_cold_logs env2 _ hcold2,
    fun env2 uri hu hne hc hk => connect_fresh env2 _ hcold2 uri hu hne hc hk, hacq, ?_⟩
  intro r env1 req w1 h1 h2
  rcases handler_cache r env1 req w1 with hc | hc
  · rw [hc] at h2
    exact absurd h1 h2
  · rw [hc] at h2
    exact hacq env1 w1 h1 h2

/-- C25, on a cold process whose connect is refused: the cache is still empty after the
failure, and a call in an environment that can connect then succeeds. -/
theorem failed_acquire_caches_nothing_witness :
    (connectToDatabase envAuth world0).1 =
        .error ⟨"Error", authenticationMessage "bad auth : authentication failed", []⟩ ∧
      (connectToDatabase envAuth world0).2.cache = (none, none) ∧
      (connectToDatabase env0 (connectToDatabase envAuth world0).2).1 =
        .ok ("mongodb://localhost/portfolio", "mongodb://localhost/portfolio") :=
  ⟨by decide,
    (failed_acquire_caches_nothing envAuth world0 _ rfl).1,
    ((failed_acquire_caches_nothing envAuth world0 _ rfl).2.2.1 env0 _ rfl
      (by decide) rfl rfl).1⟩

/-! ## C26: the configuration is missing -/

/-- C26, as amended. A call of `connectToDatabase` with an empty cache, `MONGODB_URI`
being absent or empty, fails before any client is constructed or any connection is
attempted (the only call logged is the read of the configuration) and the cache stays as
it was. The error thrown is a plain `Error` whose message is "MONGODB_URI environment
variable is not defined. Please configure it in your .env file or Vercel environment
variables."; it has the name of the errors thrown for a failed connection and is told
apart from each of them by its message. -/
theorem missing_uri (env : Env) (w : World) (hw : ¬ warm w)
    (huri : env.MONGODB_URI = none ∨ env.MONGODB_URI = some "") :
    connectToDatabase env w =
        (.error missingUriError, w.logCall (.readEnv "MONGODB_URI")) ∧
      (connectToDatabase env w).2.log = w.log ++ [.readEnv "MONGODB_URI"] ∧
      (connectToDatabase env w).2.cache = w.cache ∧
      missingUriError.name = "Error" ∧
      missingUriError.message =
        "MONGODB_URI environment variable is not defined. Please configure it in your " ++
          ".env file or Vercel environment variables." ∧
      ∀ e : JsError, (connectionError e).name = missingUriError.name ∧
        (connectionError e).message ≠ missingUriError.message := by
  have hres : connectToDatabase env w =
      (.error missingUriError, w.logCall (.readEnv "MONGODB_URI")) := by
    unfold connectToDatabase
    split
    · next c d hc hd =>
      exact absurd ⟨by simp [hc], by simp [hd]⟩ hw
    · rcases huri with h | h <;> simp [h]
  refine ⟨hres, ?_, ?_, rfl, by decide, fun e => ⟨?_, connection_message_ne_missing e⟩⟩
  · rw [hres]
    rfl
  · rw [hres]
    rfl
  · unfold connectionError
    split_ifs <;> rfl

/-- C26, on a cold process without `MONGODB_URI`, and with an empty one: the call fails
after the read of the configuration alone, and the cache is empty. -/
theorem missing_uri_witness :
    (connectToDatabase envNoUri world0).1 = .error missingUriError ∧
      (connectToDatabase envNoUri world0).2.log = [.readEnv "MONGODB_URI"] ∧
      (connectToDatabase envEmptyUri world0).1 = .error missingUriError ∧
      (connectToDatabase envEmptyUri world0).2.cache = (none, none) :=
  ⟨congrArg Prod.fst (missing_uri envNoUri world0 (by decide) (.inl rfl)).1,
    (missing_uri envNoUri world0 (by decide) (.inl rfl)).2.1,
    congrArg Prod.fst (missing_uri envEmptyUri world0 (by decide) (.inr rfl)).1,
    (missing_uri envEmptyUri world0 (by decide) (.inr rfl)).2.2.1⟩

/-- C26, counterexample: on a cold process without `MONGODB_URI` the error thrown is
named `Error`, not `ConfigurationError`, as is the error thrown for a refused connect, and
its message is not "connection target not configured". -/
theorem unconfigured_is_plain_error :
    ∃ e, (connectToDatabase envNoUri world0).1 = .error e ∧
      e.name = "Error" ∧ e.name ≠ "ConfigurationError" ∧
      e.message ≠ "connection target not configured" ∧
      ∃ e2, (connectToDatabase envAuth world0).1 = .error e2 ∧ e2.name = e.name :=
  ⟨missingUriError, rfl, rfl, by decide, by decide, _, rfl, rfl⟩

/-! ## C27: classification of connection failures -/

/-- C27. When the client constructor or `client.connect()` raises an error `e` (empty
cache, `MONGODB_URI` set), `connectToDatabase` fails with an error whose message is,
in this order of tests: the `MongoServerSelectionError` message, which begins "Unable to
connect to MongoDB Atlas", if `e.name` is `MongoServerSelectionError`; else the message
that begins "Invalid MongoDB connection string format" if `e.name` is `MongoParseError`;
else the message that begins "MongoDB authentication failed" if `e.message` contains
"authentication"; else "MongoDB connection error: " followed by `e.message`. One of the
four always applies; each message ends with the original `e.message`, and messages of two
different classes are different, whatever the original messages. -/
theorem connection_classified (env : Env) (w : World) (hw : ¬ warm w) (uri : String)
    (huri : env.MONGODB_URI = some uri) (hne : uri ≠ "") (e : JsError)
    (hraise : env.clientError = some e ∨
      (env.clientError = none ∧ env.connectError = some e)) :
    (connectToDatabase env w).1 = .error (connectionError e) ∧
      (e.name = "MongoServerSelectionError" →
        (connectionError e).message = serverSelectionMessage e.message) ∧
      (e.name ≠ "MongoServerSelectionError" → e.name = "MongoParseError" →
        (connectionError e).message = parseErrorMessage e.message) ∧
      (e.name ≠ "MongoServerSelectionError" → e.name ≠ "MongoParseError" →
        includes e.message "authentication" = true →
        (connectionError e).message = authenticationMessage e.message) ∧
      (e.name ≠ "MongoServerSelectionError" → e.name ≠ "MongoParseError" →
        includes e.message "authentication" = false →
        (connectionError e).message = "MongoDB connection error: " ++ e.message) ∧
      (∀ m : String,
        (∃ rest, serverSelectionMessage m =
          "Unable to connect to MongoDB Atlas" ++ (rest ++ m)) ∧
        (∃ rest, parseErrorMessage m =
          "Invalid MongoDB connection string format" ++ (rest ++ m)) ∧
        (∃ rest, authenticationMessage m =
          "MongoDB authentication failed" ++ (rest ++ m))) ∧
      (∀ m1 m2 : String,
        serverSelectionMessage m1 ≠ parseErrorMessage m2 ∧
        serverSelectionMessage m1 ≠ authenticationMessage m2 ∧
        serverSelectionMessage m1 ≠ "MongoDB connection error: " ++ m2 ∧
        parseErrorMessage m1 ≠ authenticationMessage m2 ∧
        parseErrorMessage m1 ≠ "MongoDB connection error: " ++ m2 ∧
        authenticationMessage m1 ≠ "MongoDB connection error: " ++ m2) := by
  have hres : (connectToDatabase env w).1 = .error (connectionError e) := by
    unfold connectToDatabase
    split
    · next c d hc hd =>
      exact absurd ⟨by simp [hc], by simp [hd]⟩ hw
    · rcases hraise with h | ⟨h1, h2⟩
      · simp [huri, hne, h]
      · simp [huri, hne, h1, h2]
  obtain ⟨c1, c2, c3, c4⟩ := connectionError_cases e
  refine ⟨hres, fun h1 => by rw [c1 h1], fun h1 h2 => by rw [c2 h1 h2],
    fun h1 h2 h3 => by rw [c3 h1 h2 h3], fun h1 h2 h3 => by rw [c4 h1 h2 h3]; rfl,
    fun m => ?_, connection_messages_distinct⟩
  obtain ⟨b1, b2, b3⟩ := connection_message_begins m
  exact ⟨⟨". Please check: 1) Your connection string is correct, " ++
      "2) Your IP address is whitelisted in MongoDB Atlas, " ++
      "3) Your cluster is running. Original error: ", b1⟩,
    ⟨". Please verify your MONGODB_URI environment variable. Original error: ", b2⟩,
    ⟨". Please verify your username and password. Original error: ", b3⟩⟩

/-- C27, on a cold process whose connect is refused with a message that contains
"authentication": the call fails with the authentication message, which ends with the
original message. -/
theorem connection_classified_witness :
    (connectToDatabase envAuth world0).1 =
      .error ⟨"Error", "MongoDB authentication failed. Please verify your username and " ++
        "password. Original error: bad auth : authentication failed", []⟩ :=
  (connection_classified envAuth world0 (by decide) _ rfl (by decide)
    ⟨"MongoServerError", "bad auth : authentication failed", []⟩ (.inr ⟨rfl, rfl⟩)).1.trans
    (by decide)

/-! ## C28: cast errors of an update -/

/-- C28. In PUT on projects, ventures and milestones (connection acquired, identifier
given, body present and passing the type checks of the handler), every error named
`CastError` that the storage call raises is answered with status 400 and
`{success:false, error:"Invalid <resource> ID format"}`, whichever path failed to cast. In
particular, when the identifier is well-formed and a value of the body cannot be cast to
the type of its schema path, the response is that same 400 and the collections are
unchanged: the response does not imply that the identifier was malformed. -/
theorem put_cast_error (r : Resource) (hr : r ≠ .profile) (env : Env) (req : Request)
    (w : World) (hm : req.method = "PUT") (hc : acquired env w)
    (hid : req.id.truthy = true) (hb : bodyPresent req)
    (hchk : putChecks env r req.body = true) :
    (∀ e : JsError, e.name = "CastError" →
        (r.model.findByIdAndUpdate env req.id req.body (connectToDatabase env w).2).1 =
          .error e →
        (handler r env req w).res =
          ⟨400, corsHeaders r.allowMethods,
            some { success := false,
                   error := some ("Invalid " ++ r.noun ++ " ID format") }⟩) ∧
      (∀ (oid : String) (e : JsError), castObjectId env req.id = some oid →
        castUpdate env r.model.schema req.body.entries = .error e →
        (handler r env req w).res =
          ⟨400, corsHeaders r.allowMethods,
            some { success := false,
                   error := some ("Invalid " ++ r.noun ++ " ID format") }⟩ ∧
        sameRecords (handler r env req w).world w) := by
  obtain ⟨h, hc⟩ := hc
  have hcs := connect_sameRecords env w
  rcases hconn : connectToDatabase env w with ⟨res, w0⟩
  rw [hconn] at hc hcs
  simp only at hc hcs
  subst hc
  rw [put_accepted r hr env req w h w0 hm hconn hid hb hchk]
  have hgen : ∀ (e : JsError) (w1 : World), e.name = "CastError" →
      afterUpdate r (.error e, w1) =
        ⟨⟨400, corsHeaders r.allowMethods,
          some { success := false,
                 error := some ("Invalid " ++ r.noun ++ " ID format") }⟩, w1⟩ := by
    intro e w1 he
    simp [afterUpdate, he, json, failure]
  constructor
  · intro e he hraise
    rcases hres : r.model.findByIdAndUpdate env req.id req.body w0 with ⟨res1, w1⟩
    rw [hres] at hraise
    simp only at hraise
    subst hraise
    rw [hgen e w1 he]
  · intro oid e hoid hcast
    rw [update_cast_failure r.model env req.id req.body w0 oid e hoid hcast,
      hgen e _ (castUpdate_error env _ _ e hcast)]
    exact ⟨rfl, sameRecords_trans (sameRecords_logCall _ _) hcs.1⟩

/-- C28, on `PUT /projects?id=<id of the stored project> {startDate: "soon"}`: the
identifier is well-formed and the record exists, and the response is the 400 of a
malformed identifier. -/
theorem put_cast_error_witness :
    castObjectId env0 putStartDateSoon.id = some oldProject.id ∧
      oldProject ∈ worldOneProject.projects ∧
      (handler .projects env0 putStartDateSoon worldOneProject).res =
        ⟨400, corsHeaders "GET, POST, PUT, DELETE, OPTIONS",
          some { success := false, error := some "Invalid project ID format" }⟩ :=
  ⟨by decide, by decide,
    ((put_cast_error .projects (by decide) env0 putStartDateSoon worldOneProject rfl
      ⟨_, rfl⟩ (by decide) ⟨by decide, by decide⟩ (by decide)).2
      oldProject.id (castError "startDate") (by decide) (by decide)).1⟩

/-! ## C29: the body is absent -/

/-- C29. With the connection acquired and the request body absent (`undefined` or
`null`): POST on projects, ventures and milestones is answered with status 500 and
"Failed to create <resource>", PUT with an id on those resources with status 500 and
"Failed to update <resource>", PUT on the profile with status 500 and "Failed to update
profile data": the first read of a field of the body throws, and the `catch` block
answers with the generic message of the operation, not with a 400. The state after the
request is the state `connectToDatabase` leaves: no storage call is made and the
collections are unchanged. -/
theorem absent_body (r : Resource) (env : Env) (req : Request) (w : World)
    (hc : acquired env w) (hb : req.body = .undefined ∨ req.body = .null) :
    (r ≠ .profile → req.method = "POST" →
        handler r env req w =
          ⟨⟨500, corsHeaders r.allowMethods,
              some { success := false, error := some ("Failed to create " ++ r.noun) }⟩,
            (connectToDatabase env w).2⟩) ∧
      (r ≠ .profile → req.method = "PUT" → req.id.truthy = true →
        handler r env req w =
          ⟨⟨500, corsHeaders r.allowMethods,
              some { success := false, error := some ("Failed to update " ++ r.noun) }⟩,
            (connectToDatabase env w).2⟩) ∧
      (r = .profile → req.method = "PUT" →
        handler r env req w =
          ⟨⟨500, corsHeaders r.allowMethods,
              some { success := false, error := some "Failed to update profile data" }⟩,
            (connectToDatabase env w).2⟩) ∧
      (connectToDatabase env w).2.storageCalls = w.storageCalls ∧
      sameRecords (connectToDatabase env w).2 w := by
  obtain ⟨h, hc⟩ := hc
  have hcs := connect_sameRecords env w
  rcases hconn : connectToDatabase env w with ⟨res, w0⟩
  rw [hconn] at hc hcs
  simp only at hc hcs
  subst hc
  refine ⟨fun hr hm => ?_, fun hr hm hid => ?_, fun hr hm => ?_, hcs.2, hcs.1⟩
  · cases r with
    | profile => exact absurd rfl hr
    | projects =>
      rcases hb with hb | hb <;>
        simp [handler, projectsHandler, hm, hconn, projectsPost, hb, readProp, json, failure,
          Resource.allowMethods, Resource.noun]
    | ventures =>
      rcases hb with hb | hb <;>
        simp [handler, venturesHandler, hm, hconn, venturesPost, hb, readProp, json, failure,
          Resource.allowMethods, Resource.noun]
    | milestones =>
      rcases hb with hb | hb <;>
        simp [handler, milestonesHandler, hm, hconn, milestonesPost, hb, readProp, json,
          failure, Resource.allowMethods, Resource.noun]
  · cases r with
    | profile => exact absurd rfl hr
    | projects =>
      rcases hb with hb | hb <;>
        simp [handler, projectsHandler, hm, hconn, projectsPut, hid, hb, readProp, json,
          failure, Resource.allowMethods, Resource.noun]
    | ventures =>
      rcases hb with hb | hb <;>
        simp [handler, venturesHandler, hm, hconn, venturesPut, hid, hb, readProp, json,
          failure, Resource.allowMethods, Resource.noun]
    | milestones =>
      rcases hb with hb | hb <;>
        simp [handler, milestonesHandler, hm, hconn, milestonesPut, hid, hb, readProp, json,
          failure, Resource.allowMethods, Resource.noun]
  · subst hr
    rcases hb with hb | hb <;>
      simp [handler, profileHandler, hm, hconn, profilePut, hb, readProp, json, failure,
        Resource.allowMethods]

/-- C29, on a POST without a body, a PUT with an id and without a body, and a PUT on the
profile with the body `null`: each is answered 500 with the generic message, and no
storage call is logged. -/
theorem absent_body_witness :
    (handler .ventures env0 postVentureNoBody world0).res =
        ⟨500, corsHeaders "GET, POST, PUT, DELETE, OPTIONS",
          some { success := false, error := some "Failed to create venture" }⟩ ∧
      (handler .milestones env0 putMilestoneNoBody world0).res =
        ⟨500, corsHeaders "GET, POST, PUT, DELETE, OPTIONS",
          some { success := false, error := some "Failed to update milestone" }⟩ ∧
      (handler .profile env0 putProfileNull world0).res =
        ⟨500, corsHeaders "GET, PUT, OPTIONS",
          some { success := false, error := some "Failed to update profile data" }⟩ ∧
      (handler .profile env0 putProfileNull world0).world.storageCalls = [] :=
  ⟨congrArg Outcome.res
      ((absent_body .ventures env0 postVentureNoBody world0 ⟨_, rfl⟩ (.inl rfl)).1
        (by decide) rfl),
    congrArg Outcome.res
      ((absent_body .milestones env0 putMilestoneNoBody world0 ⟨_, rfl⟩ (.inl rfl)).2.1
        (by decide) rfl (by decide)),
    congrArg Outcome.res
      ((absent_body .profile env0 putProfileNull world0 ⟨_, rfl⟩ (.inr rfl)).2.2.1 rfl rfl),
    (congrArg (fun o => o.world.storageCalls)
      ((absent_body .profile env0 putProfileNull world0 ⟨_, rfl⟩ (.inr rfl)).2.2.1 rfl
        rfl)).trans
      (absent_body .profile env0 putProfileNull world0 ⟨_, rfl⟩ (.inr rfl)).2.2.2.1⟩

/-! ## C30: acceptance condition of Project create -/

/-- C30. Exact acceptance condition of Project create. With the connection acquired,
`POST /projects` reaches the storage write, which is the call `save` of a document built
from the whole body, if and only if the title and the description of the body are
non-empty strings, `technologies` is falsy or an array and `featured` is `undefined` or a
boolean; otherwise no storage call is made. No other field is inspected: two bodies that
agree on these four fields both reach the write or both do not. -/
theorem project_create_acceptance (env : Env) (req : Request) (w : World)
    (hm : req.method = "POST") (hc : acquired env w) :
    (projectCreateAccepted req.body →
        (handler .projects env req w).world.storageCalls =
          w.storageCalls ++ [.save "Project" req.body]) ∧
      (¬ projectCreateAccepted req.body →
        (handler .projects env req w).world.storageCalls = w.storageCalls) ∧
      ((handler .projects env req w).world.storageCalls ≠ w.storageCalls ↔
        projectCreateAccepted req.body) ∧
      (∀ (req2 : Request) (w2 : World), req2.method = "POST" → acquired env w2 →
        req2.body.prop "title" = req.body.prop "title" →
        req2.body.prop "description" = req.body.prop "description" →
        req2.body.prop "technologies" = req.body.prop "technologies" →
        req2.body.prop "featured" = req.body.prop "featured" →
        ((handler .projects env req2 w2).world.storageCalls ≠ w2.storageCalls ↔
          (handler .projects env req w).world.storageCalls ≠ w.storageCalls)) := by
  have key : ∀ (rq : Request) (v : World), rq.method = "POST" → acquired env v →
      (projectCreateAccepted rq.body →
        (handler .projects env rq v).world.storageCalls =
          v.storageCalls ++ [.save "Project" rq.body]) ∧
      (¬ projectCreateAccepted rq.body →
        (handler .projects env rq v).world.storageCalls = v.storageCalls) := by
    intro rq v hmq hcq
    obtain ⟨h, hcq⟩ := hcq
    have hcs := connect_sameRecords env v
    rcases hconn : connectToDatabase env v with ⟨res, w0⟩
    rw [hconn] at hcq hcs
    simp only at hcq hcs
    subst hcq
    constructor
    · intro hacc
      have hb : bodyPresent rq := by
        constructor
        · intro hu
          exact absent_not_accepted rq.body (.inl hu) hacc
        · intro hn
          exact absent_not_accepted rq.body (.inr hn) hacc
      rw [post_accepted .projects (by decide) env rq v h w0 hmq hconn hb
        ((projectChecks_iff env rq.body).2 hacc), afterSave_world, save_storageCalls, hcs.2]
      rfl
    · intro hrej
      rw [projects_post_rejected env rq v h w0 hmq hconn hrej]
      exact hcs.2
  have hiff : ∀ (rq : Request) (v : World), rq.method = "POST" → acquired env v →
      ((handler .projects env rq v).world.storageCalls ≠ v.storageCalls ↔
        projectCreateAccepted rq.body) := by
    intro rq v hmq hcq
    obtain ⟨k1, k2⟩ := key rq v hmq hcq
    constructor
    · intro hne
      by_contra hrej
      exact hne (k2 hrej)
    · intro hacc
      rw [k1 hacc]
      exact (not_self_append _ _).symm
  refine ⟨(key req w hm hc).1, (key req w hm hc).2, hiff req w hm hc, ?_⟩
  intro req2 w2 hm2 hc2 e1 e2 e3 e4
  rw [hiff req w hm hc, hiff req2 w2 hm2 hc2]
  unfold projectCreateAccepted
  rw [e1, e2, e3, e4]

/-- C30, on examples: a title of white space, a falsy `technologies` that is not an array
and a start date that is not a date pass the checks, and so does a numeric `imageUrl`: the
write is issued with the body as it is; a `featured` that is a string does not pass. -/
theorem project_create_acceptance_witness :
    (handler .projects env0 postProjectLoose world0).world.storageCalls =
        [.save "Project" postProjectLoose.body] ∧
      (handler .projects env0 postProjectNumericUrl world0).world.storageCalls =
        [.save "Project" postProjectNumericUrl.body] ∧
      (handler .projects env0 postProjectFeaturedString world0).world.storageCalls = [] :=
  ⟨(project_create_acceptance env0 postProjectLoose world0 rfl ⟨_, rfl⟩).1
      ⟨⟨_, rfl, by decide⟩, ⟨_, rfl, by decide⟩, .inl rfl, .inl rfl⟩,
    (project_create_acceptance env0 postProjectNumericUrl world0 rfl ⟨_, rfl⟩).1
      ⟨⟨_, rfl, by decide⟩, ⟨_, rfl, by decide⟩, .inl rfl, .inl rfl⟩,
    (project_create_acceptance env0 postProjectFeaturedString world0 rfl ⟨_, rfl⟩).2.1
      (fun hacc => by
        rcases hacc.2.2.2 with h | ⟨f, h⟩
        · exact absurd h (by decide)
        · simp [postProjectFeaturedString, JsVal.prop, List.lookup] at h)⟩

end Portfolio
